import Mathlib

/-!
# AsmWritter: the x86 instruction encoder of `src/mod_common/AsmWritter.h`

A shallow embedding of the encoder class and of the memory it writes to,
followed by the properties of the encoder that the specification states.

Conventions of the embedding:

* `unsigned` / `uint32_t` values are natural numbers kept below `2 ^ 32`;
  every arithmetic step of the source on such a value is followed by an
  explicit `% 4294967296`.
* `int32_t` / `int8_t` values are integers; a store of such a value keeps
  its two's complement bit pattern (`Int.toNat (v % 2 ^ w)`).
* process memory is a total map from addresses to bytes together with the
  ordered record of every byte store that was performed on it.
-/

set_option autoImplicit false

namespace AsmWritterModel

/-! ## Machine integers -/

/-- The number of values of a 32-bit word. -/
def WORD : Nat := 4294967296

/-- Conversion of a C integer to `uint8_t`: the value modulo 256. -/
def toUInt8 (x : Int) : Nat := (x % 256).toNat

/-- Conversion of a C integer to `uint32_t`: the value modulo `2 ^ 32`. -/
def toUInt32 (x : Int) : Nat := (x % 4294967296).toNat

/-- The signed value of a byte (two's complement). -/
def signExtend8 (b : Nat) : Int :=
  if b % 256 < 128 then ((b % 256 : Nat) : Int) else ((b % 256 : Nat) : Int) - 256

/-- The signed value of a 32-bit word (two's complement). -/
def signExtend32 (n : Nat) : Int :=
  if n % 4294967296 < 2147483648 then ((n % 4294967296 : Nat) : Int)
  else ((n % 4294967296 : Nat) : Int) - 4294967296

/-- The C library function `abs` on an `int32_t`. `abs(INT_MIN)` is undefined
behaviour in C; the model takes the mathematical absolute value there. -/
def abs (x : Int) : Int := if x < 0 then -x else x

/-- The `n` little-endian bytes of a natural number. -/
def leBytes : Nat → Nat → List Nat
  | 0, _ => []
  | n + 1, v => (v % 256) :: leBytes n (v / 256)

/-- The value of a little-endian byte string. -/
def ofLeBytes : List Nat → Nat
  | [] => 0
  | b :: bs => b % 256 + 256 * ofLeBytes bs

/-! ## Process memory (`MemUtils.h`) -/

/-- Process memory: the byte at every address, and the record of the byte
stores performed so far (address, value), oldest first. -/
structure Memory where
  bytes : Nat → Nat
  stores : List (Nat × Nat)

/-- One byte store. -/
def Memory.store (m : Memory) (addr val : Nat) : Memory :=
  { bytes := fun x => if x = addr then val else m.bytes x
    stores := m.stores ++ [(addr, val)] }

/-- Modelled from the spec: `WriteMem` of `MemUtils.h`, which is not among the
sources. The spec's memory access primitive writes the given bytes at
`[address, address + len)` byte-exactly; addresses are 32-bit, so the byte
with offset `i` goes to `(address + i) % 2 ^ 32`. -/
def WriteMem : Memory → Nat → List Nat → Memory
  | m, _, [] => m
  | m, addr, b :: bs => WriteMem (m.store (addr % 4294967296) (b % 256)) (addr + 1) bs

/-- Modelled from the spec: `WriteMemUInt8(Addr, Value)` of `MemUtils.h`, a
byte-exact store of one `uint8_t`. -/
def WriteMemUInt8 (m : Memory) (addr : Nat) (value : Nat) : Memory :=
  WriteMem m addr [value % 256]

/-- Modelled from the spec: `WriteMemInt8(Addr, Value)` of `MemUtils.h`, a
byte-exact store of one `int8_t` (the argument is converted to `int8_t`). -/
def WriteMemInt8 (m : Memory) (addr : Nat) (value : Int) : Memory :=
  WriteMem m addr [toUInt8 value]

/-- Modelled from the spec: `WriteMemInt16(Addr, Value)` of `MemUtils.h`, a
byte-exact store of an `int16_t`, little-endian as on x86. -/
def WriteMemInt16 (m : Memory) (addr : Nat) (value : Int) : Memory :=
  WriteMem m addr (leBytes 2 (value % 65536).toNat)

/-- Modelled from the spec: `WriteMemInt32(Addr, Value)` of `MemUtils.h`, a
byte-exact store of an `int32_t`, little-endian as on x86. -/
def WriteMemInt32 (m : Memory) (addr : Nat) (value : Int) : Memory :=
  WriteMem m addr (leBytes 4 (toUInt32 value))

/-- The `n` bytes of memory starting at `addr` (addresses wrap at `2 ^ 32`). -/
def Memory.read (m : Memory) : Nat → Nat → List Nat
  | _, 0 => []
  | addr, n + 1 => m.bytes (addr % 4294967296) :: Memory.read m (addr + 1) n

/-- The stores `WriteMem` performs for the bytes `bs` at `addr`, in order. -/
def storesAt : Nat → List Nat → List (Nat × Nat)
  | _, [] => []
  | addr, b :: bs => (addr % 4294967296, b % 256) :: storesAt (addr + 1) bs

/-! ## Registers and operands -/

/-- The class `AsmReg`: a register number and a width in bytes. Register
numbers are the enumerators of `GenPurpRegNum`, which are not negative. -/
structure AsmReg where
  regNum : Nat
  size : Nat
  deriving DecidableEq, Repr

/-- The member `AsmReg::operator==`. -/
def AsmReg.eq (a other : AsmReg) : Bool :=
  a.regNum == other.regNum && a.size == other.size

/-- The type `AsmReg32`: `AsmReg(num, 4)`. -/
structure AsmReg32 where
  num : Nat
  deriving DecidableEq, Repr

/-- The type `AsmReg16`: `AsmReg(num, 2)`. -/
structure AsmReg16 where
  num : Nat
  deriving DecidableEq, Repr

/-- The type `AsmReg8`: `AsmReg(num, 1)`. -/
structure AsmReg8 where
  num : Nat
  deriving DecidableEq, Repr

/-- The base-class part of an `AsmReg32`. -/
def AsmReg32.toAsmReg (r : AsmReg32) : AsmReg := ⟨r.num, 4⟩
/-- The base-class part of an `AsmReg16`. -/
def AsmReg16.toAsmReg (r : AsmReg16) : AsmReg := ⟨r.num, 2⟩
/-- The base-class part of an `AsmReg8`. -/
def AsmReg8.toAsmReg (r : AsmReg8) : AsmReg := ⟨r.num, 1⟩

/-- The field `regNum` of an `AsmReg32`. -/
def AsmReg32.regNum (r : AsmReg32) : Nat := r.toAsmReg.regNum
/-- The field `regNum` of an `AsmReg16`. -/
def AsmReg16.regNum (r : AsmReg16) : Nat := r.toAsmReg.regNum
/-- The field `regNum` of an `AsmReg8`. -/
def AsmReg8.regNum (r : AsmReg8) : Nat := r.toAsmReg.regNum

/-- The struct `AsmRegMem`: a register-or-memory operand. -/
structure AsmRegMem where
  memory : Bool
  regOpt : Option AsmReg
  displacement : Int

namespace AsmRegs

def GPRN_AX : Nat := 0
def GPRN_CX : Nat := 1
def GPRN_DX : Nat := 2
def GPRN_BX : Nat := 3
def GPRN_SP : Nat := 4
def GPRN_BP : Nat := 5
def GPRN_SI : Nat := 6
def GPRN_DI : Nat := 7

def EAX : AsmReg32 := ⟨GPRN_AX⟩
def ECX : AsmReg32 := ⟨GPRN_CX⟩
def EDX : AsmReg32 := ⟨GPRN_DX⟩
def EBX : AsmReg32 := ⟨GPRN_BX⟩
def ESP : AsmReg32 := ⟨GPRN_SP⟩
def EBP : AsmReg32 := ⟨GPRN_BP⟩
def ESI : AsmReg32 := ⟨GPRN_SI⟩
def EDI : AsmReg32 := ⟨GPRN_DI⟩
def AX : AsmReg16 := ⟨GPRN_AX⟩
def CX : AsmReg16 := ⟨GPRN_CX⟩
def DX : AsmReg16 := ⟨GPRN_DX⟩
def BX : AsmReg16 := ⟨GPRN_BX⟩
def SP : AsmReg16 := ⟨GPRN_SP⟩
def BP : AsmReg16 := ⟨GPRN_BP⟩
def SI : AsmReg16 := ⟨GPRN_SI⟩
def DI : AsmReg16 := ⟨GPRN_DI⟩
def AL : AsmReg8 := ⟨GPRN_AX⟩
def CL : AsmReg8 := ⟨GPRN_CX⟩
def DL : AsmReg8 := ⟨GPRN_DX⟩
def BL : AsmReg8 := ⟨GPRN_BX⟩
def AH : AsmReg8 := ⟨GPRN_SP⟩
def CH : AsmReg8 := ⟨GPRN_BP⟩
def DH : AsmReg8 := ⟨GPRN_SI⟩
def BH : AsmReg8 := ⟨GPRN_DI⟩

end AsmRegs

/-! ## The class `AsmWritter` -/

/-- The ways a call of the model can fail to return. -/
inductive Failure where
  | assertion
  | outOfFuel
  deriving DecidableEq, Repr

/-- The state an `AsmWritter` works on: its two members `m_addr` and
`m_endAddr`, and the process memory its stores go to. -/
structure AsmWritter where
  m_addr : Nat
  m_endAddr : Nat
  mem : Memory

/-- A call that ended in a failure: the failure, and the writer and the memory
as they were when it occurred. -/
structure Aborted where
  failure : Failure
  state : AsmWritter

namespace AsmWritter

def PR_OPERAND_SIZE_OVERRIDE : Nat := 0x66

def UNK_END_ADDR : Nat := 0xFFFFFFFF

/-- The constructor `AsmWritter(beginAddr, endAddr)`; a caller that gives no
end address passes `UNK_END_ADDR`. -/
def create (mem : Memory) (beginAddr : Nat) (endAddr : Nat) : AsmWritter :=
  { m_addr := beginAddr % 4294967296, m_endAddr := endAddr % 4294967296, mem := mem }

/-- The statement form `WriteMemUInt8(m_addr++, v)`. -/
def putUInt8 (w : AsmWritter) (v : Nat) : AsmWritter :=
  { w with mem := WriteMemUInt8 w.mem w.m_addr v, m_addr := (w.m_addr + 1) % 4294967296 }

/-- The statement form `WriteMemInt8(m_addr++, v)`. -/
def putInt8 (w : AsmWritter) (v : Int) : AsmWritter :=
  { w with mem := WriteMemInt8 w.mem w.m_addr v, m_addr := (w.m_addr + 1) % 4294967296 }

def pusha (w : AsmWritter) : AsmWritter := w.putUInt8 0x60

def popa (w : AsmWritter) : AsmWritter := w.putUInt8 0x61

/-- The overload `push(const AsmReg32 &)`. -/
def push (w : AsmWritter) (reg : AsmReg32) : AsmWritter := w.putUInt8 (0x50 ||| reg.regNum)

/-- The overload `push(const AsmReg16 &)`. -/
def push16 (w : AsmWritter) (reg : AsmReg16) : AsmWritter :=
  (w.putUInt8 PR_OPERAND_SIZE_OVERRIDE).putUInt8 (0x50 ||| reg.regNum)

/-- The overload `pop(const AsmReg32 &)`. -/
def pop (w : AsmWritter) (reg : AsmReg32) : AsmWritter := w.putUInt8 (0x58 ||| reg.regNum)

/-- The overload `pop(const AsmReg16 &)`. -/
def pop16 (w : AsmWritter) (reg : AsmReg16) : AsmWritter :=
  (w.putUInt8 PR_OPERAND_SIZE_OVERRIDE).putUInt8 (0x58 ||| reg.regNum)

/-- The overload `push(int32_t Val)`. -/
def pushImm (w : AsmWritter) (val : Int) : AsmWritter :=
  let w1 := w.putUInt8 0x68
  { w1 with mem := WriteMemInt32 w1.mem w1.m_addr val, m_addr := (w1.m_addr + 4) % 4294967296 }

def pushf (w : AsmWritter) : AsmWritter := w.putUInt8 0x9C

def popf (w : AsmWritter) : AsmWritter := w.putUInt8 0x9D

def xor_ (w : AsmWritter) (dstReg srcReg : AsmReg32) : AsmWritter :=
  (w.putUInt8 0x33).putUInt8 (0xC0 ||| (srcReg.regNum <<< 3) ||| dstReg.regNum)

/-- The private member `writeModRm(regMem, regField)`; `regField` is a
`uint8_t` parameter. -/
def writeModRm (w : AsmWritter) (regMem : AsmRegMem) (regField : Nat) : AsmWritter :=
  let regField := regField % 256
  let modField : Nat :=
    if !regMem.memory then 3
    else if regMem.displacement = 0 || regMem.regOpt.isNone then 0
    else if abs regMem.displacement < 128 then 1
    else 2
  let rmField : Nat :=
    match regMem.regOpt with
    | some r => r.regNum % 256
    | none => 5
  let modRegRmByte : Nat := ((modField <<< 6) ||| (regField <<< 3) ||| rmField) % 256
  let w1 := w.putUInt8 modRegRmByte
  let w2 :=
    if rmField = 4 ∧ modField ≠ 3 then
      let scaleField : Nat := 0
      let indexField : Nat := 4
      let baseField : Nat := 4
      let sibByte : Nat := ((scaleField <<< 6) ||| (indexField <<< 3) ||| baseField) % 256
      w1.putUInt8 sibByte
    else w1
  if modField = 1 then
    w2.putInt8 regMem.displacement
  else if modField = 2 ∨ regMem.regOpt.isNone then
    { w2 with mem := WriteMemInt32 w2.mem w2.m_addr regMem.displacement,
              m_addr := (w2.m_addr + 1) % 4294967296 }
  else w2

/-- The overload `add(const AsmRegMem &, int8_t imm8)`. -/
def addImm8 (w : AsmWritter) (dstRM : AsmRegMem) (imm8 : Int) : AsmWritter :=
  ((w.putUInt8 0x83).writeModRm dstRM 0).putInt8 imm8

/-- The overload `add(const AsmRegMem &, int32_t imm32)`. -/
def add (w : AsmWritter) (dstRM : AsmRegMem) (imm32 : Int) : AsmWritter :=
  if abs imm32 < 128 then
    w.addImm8 dstRM (signExtend8 (toUInt8 imm32))
  else
    let w1 := (w.putUInt8 0x81).writeModRm dstRM 0
    { w1 with mem := WriteMemInt32 w1.mem w1.m_addr imm32, m_addr := (w1.m_addr + 4) % 4294967296 }

def nop (w : AsmWritter) : AsmWritter := w.putUInt8 0x90

/-- The overload `jmpLong(uint32_t addr)`; the template overload `jmpLong(T *)`
converts the pointer to an integer and calls it. -/
def jmpLong (w : AsmWritter) (addr : Nat) : AsmWritter :=
  let m1 := WriteMemUInt8 w.mem w.m_addr 0xE9
  let m2 := WriteMemInt32 m1 ((w.m_addr + 1) % 4294967296)
    (signExtend32 ((addr % 4294967296 + 4294967296 - (w.m_addr + 0x5) % 4294967296) % 4294967296))
  { w with mem := m2, m_addr := (w.m_addr + 5) % 4294967296 }

def jmpNear (w : AsmWritter) (addr : Nat) : AsmWritter :=
  let m1 := WriteMemUInt8 w.mem w.m_addr 0xEB
  let m2 := WriteMemInt8 m1 ((w.m_addr + 1) % 4294967296)
    (((addr % 4294967296 + 4294967296 - (w.m_addr + 0x2) % 4294967296) % 4294967296 : Nat) : Int)
  { w with mem := m2, m_addr := (w.m_addr + 2) % 4294967296 }

/-- The overload `callLong(uint32_t addr)`; the template overload `callLong(T *)`
has the same body on the pointer converted to an integer. -/
def callLong (w : AsmWritter) (addr : Nat) : AsmWritter :=
  let m1 := WriteMemUInt8 w.mem w.m_addr 0xE8
  let m2 := WriteMemInt32 m1 ((w.m_addr + 1) % 4294967296)
    (signExtend32 ((addr % 4294967296 + 4294967296 - (w.m_addr + 0x5) % 4294967296) % 4294967296))
  { w with mem := m2, m_addr := (w.m_addr + 5) % 4294967296 }

def ret (w : AsmWritter) : AsmWritter := w.putUInt8 0xC3

/-- The overload `mov(const AsmRegMem &dstRM, const AsmReg32 &srcReg)`. -/
def movRmReg (w : AsmWritter) (dstRM : AsmRegMem) (srcReg : AsmReg32) : AsmWritter :=
  (w.putUInt8 0x89).writeModRm dstRM srcReg.regNum

/-- The overload `mov(const AsmReg32 &dstReg, const AsmRegMem &srcRM)`. -/
def movRegRm (w : AsmWritter) (dstReg : AsmReg32) (srcRM : AsmRegMem) : AsmWritter :=
  (w.putUInt8 0x8B).writeModRm srcRM dstReg.regNum

/-- The overload `mov(const AsmReg32 &dstReg, const AsmReg32 &srcReg)`. -/
def mov32 (w : AsmWritter) (dstReg srcReg : AsmReg32) : AsmWritter :=
  (w.putUInt8 0x89).putUInt8 (0xC0 ||| (srcReg.regNum <<< 3) ||| dstReg.regNum)

/-- The overload `mov(const AsmReg16 &dstReg, const AsmReg16 &srcReg)`. -/
def mov16 (w : AsmWritter) (dstReg srcReg : AsmReg16) : AsmWritter :=
  ((w.putUInt8 PR_OPERAND_SIZE_OVERRIDE).putUInt8 0x89).putUInt8
    (0xC0 ||| (srcReg.regNum <<< 3) ||| dstReg.regNum)

/-- The overload `mov(const AsmReg8 &dstReg, const AsmReg8 &srcReg)`. -/
def mov8 (w : AsmWritter) (dstReg srcReg : AsmReg8) : AsmWritter :=
  (w.putUInt8 0x88).putUInt8 (0xC0 ||| (srcReg.regNum <<< 3) ||| dstReg.regNum)

/-- The overload `mov(const AsmReg32 &dstReg, int32_t imm)`. -/
def movImm32 (w : AsmWritter) (dstReg : AsmReg32) (imm : Int) : AsmWritter :=
  let w1 := w.putUInt8 (0xB8 ||| dstReg.regNum)
  { w1 with mem := WriteMemInt32 w1.mem w1.m_addr imm, m_addr := (w1.m_addr + 4) % 4294967296 }

/-- The overload `mov(const AsmReg16 &dstReg, int16_t imm)`. -/
def movImm16 (w : AsmWritter) (dstReg : AsmReg16) (imm : Int) : AsmWritter :=
  let w1 := (w.putUInt8 PR_OPERAND_SIZE_OVERRIDE).putUInt8 (0xB8 ||| dstReg.regNum)
  { w1 with mem := WriteMemInt16 w1.mem w1.m_addr imm, m_addr := (w1.m_addr + 2) % 4294967296 }

/-- The overload `mov(const AsmReg8 &dstReg, int8_t imm)`. -/
def movImm8 (w : AsmWritter) (dstReg : AsmReg8) (imm : Int) : AsmWritter :=
  (w.putUInt8 (0xB0 ||| dstReg.regNum)).putInt8 imm

def movEaxMemEsp (w : AsmWritter) (off : Int) : AsmWritter :=
  (((w.putUInt8 0x8B).putUInt8 0x44).putUInt8 0x24).putInt8 off

def movEaxMemEsp32 (w : AsmWritter) (off : Int) : AsmWritter :=
  let w1 := ((w.putUInt8 0x8B).putUInt8 0x84).putUInt8 0x24
  { w1 with mem := WriteMemInt32 w1.mem w1.m_addr off, m_addr := (w1.m_addr + 1) % 4294967296 }

def addEsp (w : AsmWritter) (val : Int) : AsmWritter :=
  ((w.putUInt8 0x83).putUInt8 0xC4).putInt8 val

def leaEaxEsp (w : AsmWritter) (addVal : Int) : AsmWritter :=
  (((w.putUInt8 0x8D).putUInt8 0x44).putUInt8 0x24).putInt8 addVal

def leaEdxEsp (w : AsmWritter) (addVal : Int) : AsmWritter :=
  (((w.putUInt8 0x8D).putUInt8 0x54).putUInt8 0x24).putInt8 addVal

/-- The member `cmp(const AsmReg8 &reg, int8_t imm)`; the `assert(false)` of
the `else` branch ends the call, before the store of `imm`. -/
def cmp (w : AsmWritter) (reg : AsmReg8) (imm : Int) : Except Aborted AsmWritter :=
  if reg.toAsmReg.eq AsmRegs.AL.toAsmReg then
    .ok ((w.putUInt8 0x3C).putInt8 imm)
  else
    .error ⟨.assertion, w⟩

/-- The loop `while (m_addr < m_endAddr) nop();` of the destructor, run for at
most `fuel` iterations. -/
def padLoop : Nat → AsmWritter → Except Failure AsmWritter
  | 0, w => if w.m_addr < w.m_endAddr then .error .outOfFuel else .ok w
  | fuel + 1, w => if w.m_addr < w.m_endAddr then padLoop fuel w.nop else .ok w

/-- The destructor `~AsmWritter()`. -/
def destroy (fuel : Nat) (w : AsmWritter) : Except Failure AsmWritter :=
  if w.m_endAddr ≠ UNK_END_ADDR then
    if w.m_addr ≤ w.m_endAddr then padLoop fuel w
    else .error .assertion
  else .ok w

end AsmWritter

/-- The state after storing the bytes `bs` one after another at the cursor, each
with the statement form `WriteMemUInt8(m_addr++, b)`. -/
def AsmWritter.emit : AsmWritter → List Nat → AsmWritter
  | w, [] => w
  | w, b :: bs => AsmWritter.emit (w.putUInt8 b) bs

/-- Memory that holds the byte 0 everywhere and has seen no store. -/
def Memory.zero : Memory := { bytes := fun _ => 0, stores := [] }

/-! ## Reference decoder

The IA-32 decoding rules for the opcodes the encoder emits (one-byte opcodes,
operand-size prefix `66`, ModRM and SIB bytes, 8- and 32-bit displacements and
immediates). It is written from the instruction-set reference, not from the
encoder, and is what the round-trip properties compare the encoder with. -/

/-- A decoded operand. A memory operand is `[base + index * scale + disp]`. -/
inductive Operand where
  | reg (size : Nat) (num : Nat)
  | mem (base : Option Nat) (index : Option (Nat × Nat)) (disp : Int)
  | imm (value : Int)
  | rel (disp : Int)
  deriving DecidableEq, Repr

inductive Mnemonic where
  | add | or | adc | sbb | and | sub | xor | cmp
  | mov | lea | push | pop | pusha | popa | pushf | popf | nop | ret | jmp | call
  deriving DecidableEq, Repr

/-- A decoded instruction: mnemonic and operands, destination first. -/
structure Instr where
  mnemonic : Mnemonic
  operands : List Operand
  deriving DecidableEq, Repr

/-- The arithmetic group selected by the `reg` field of opcodes `80`..`83`. -/
def group1 (reg : Nat) : Mnemonic :=
  match reg with
  | 0 => .add | 1 => .or | 2 => .adc | 3 => .sbb
  | 4 => .and | 5 => .sub | 6 => .xor | _ => .cmp

/-- An 8-bit displacement or immediate: its sign-extended value and the bytes
after it. -/
def decodeImm8 (bs : List Nat) : Option (Int × List Nat) :=
  match bs with
  | b :: rest => some (signExtend8 b, rest)
  | [] => none

/-- A 16-bit immediate. -/
def decodeImm16 (bs : List Nat) : Option (Int × List Nat) :=
  match bs with
  | b0 :: b1 :: rest =>
    let n := ofLeBytes [b0, b1]
    some (if n < 32768 then (n : Int) else (n : Int) - 65536, rest)
  | _ => none

/-- A 32-bit displacement or immediate. -/
def decodeImm32 (bs : List Nat) : Option (Int × List Nat) :=
  match bs with
  | b0 :: b1 :: b2 :: b3 :: rest => some (signExtend32 (ofLeBytes [b0, b1, b2, b3]), rest)
  | _ => none

/-- An immediate of the operand size (2 or 4 bytes). -/
def decodeImm (size : Nat) (bs : List Nat) : Option (Int × List Nat) :=
  if size = 2 then decodeImm16 bs else decodeImm32 bs

/-- Decoding of a ModRM byte with its SIB byte and displacement: the `reg`
field, the register-or-memory operand and the bytes after it. -/
def decodeModRM (size : Nat) (bs : List Nat) : Option (Nat × Operand × List Nat) :=
  match bs with
  | [] => none
  | m :: rest =>
    let mod := m / 64 % 4
    let reg := m / 8 % 8
    let rm := m % 8
    if mod = 3 then some (reg, .reg size rm, rest)
    else if rm = 4 then
      match rest with
      | [] => none
      | sib :: rest2 =>
        let scale := sib / 64 % 4
        let index := sib / 8 % 8
        let base := sib % 8
        let idx : Option (Nat × Nat) := if index = 4 then none else some (index, 2 ^ scale)
        if mod = 0 then
          if base = 5 then
            (decodeImm32 rest2).map (fun p => (reg, .mem none idx p.1, p.2))
          else some (reg, .mem (some base) idx 0, rest2)
        else if mod = 1 then
          (decodeImm8 rest2).map (fun p => (reg, .mem (some base) idx p.1, p.2))
        else
          (decodeImm32 rest2).map (fun p => (reg, .mem (some base) idx p.1, p.2))
    else if mod = 0 then
      if rm = 5 then
        (decodeImm32 rest).map (fun p => (reg, .mem none none p.1, p.2))
      else some (reg, .mem (some rm) none 0, rest)
    else if mod = 1 then
      (decodeImm8 rest).map (fun p => (reg, .mem (some rm) none p.1, p.2))
    else
      (decodeImm32 rest).map (fun p => (reg, .mem (some rm) none p.1, p.2))

/-- Decoding of one instruction after its prefix, with operand size `size`
(4, or 2 after the prefix `66`): the instruction and the bytes after it. -/
def decodeOpcode (size : Nat) (bs : List Nat) : Option (Instr × List Nat) :=
  match bs with
  | [] => none
  | op :: rest =>
    if op = 0x31 then
      (decodeModRM size rest).map (fun p => (⟨.xor, [p.2.1, .reg size p.1]⟩, p.2.2))
    else if op = 0x33 then
      (decodeModRM size rest).map (fun p => (⟨.xor, [.reg size p.1, p.2.1]⟩, p.2.2))
    else if op = 0x88 then
      (decodeModRM 1 rest).map (fun p => (⟨.mov, [p.2.1, .reg 1 p.1]⟩, p.2.2))
    else if op = 0x89 then
      (decodeModRM size rest).map (fun p => (⟨.mov, [p.2.1, .reg size p.1]⟩, p.2.2))
    else if op = 0x8A then
      (decodeModRM 1 rest).map (fun p => (⟨.mov, [.reg 1 p.1, p.2.1]⟩, p.2.2))
    else if op = 0x8B then
      (decodeModRM size rest).map (fun p => (⟨.mov, [.reg size p.1, p.2.1]⟩, p.2.2))
    else if op = 0x8D then
      (decodeModRM size rest).bind (fun p =>
        match p.2.1 with
        | .reg _ _ => none
        | m => some (⟨.lea, [.reg size p.1, m]⟩, p.2.2))
    else if op = 0x81 then
      (decodeModRM size rest).bind (fun p =>
        (decodeImm size p.2.2).map (fun q => (⟨group1 p.1, [p.2.1, .imm q.1]⟩, q.2)))
    else if op = 0x83 then
      (decodeModRM size rest).bind (fun p =>
        (decodeImm8 p.2.2).map (fun q => (⟨group1 p.1, [p.2.1, .imm q.1]⟩, q.2)))
    else if op = 0x3C then
      (decodeImm8 rest).map (fun q => (⟨.cmp, [.reg 1 0, .imm q.1]⟩, q.2))
    else if 0x50 ≤ op ∧ op < 0x58 then some (⟨.push, [.reg size (op - 0x50)]⟩, rest)
    else if 0x58 ≤ op ∧ op < 0x60 then some (⟨.pop, [.reg size (op - 0x58)]⟩, rest)
    else if op = 0x60 then some (⟨.pusha, []⟩, rest)
    else if op = 0x61 then some (⟨.popa, []⟩, rest)
    else if op = 0x68 then
      (decodeImm size rest).map (fun q => (⟨.push, [.imm q.1]⟩, q.2))
    else if op = 0x90 then some (⟨.nop, []⟩, rest)
    else if op = 0x9C then some (⟨.pushf, []⟩, rest)
    else if op = 0x9D then some (⟨.popf, []⟩, rest)
    else if 0xB0 ≤ op ∧ op < 0xB8 then
      (decodeImm8 rest).map (fun q => (⟨.mov, [.reg 1 (op - 0xB0), .imm q.1]⟩, q.2))
    else if 0xB8 ≤ op ∧ op < 0xC0 then
      (decodeImm size rest).map (fun q => (⟨.mov, [.reg size (op - 0xB8), .imm q.1]⟩, q.2))
    else if op = 0xC3 then some (⟨.ret, []⟩, rest)
    else if op = 0xE8 then
      (decodeImm size rest).map (fun q => (⟨.call, [.rel q.1]⟩, q.2))
    else if op = 0xE9 then
      (decodeImm size rest).map (fun q => (⟨.jmp, [.rel q.1]⟩, q.2))
    else if op = 0xEB then
      (decodeImm8 rest).map (fun q => (⟨.jmp, [.rel q.1]⟩, q.2))
    else none

/-- Decoding of the first instruction of a byte string: the instruction and
its length in bytes. -/
def decode (bs : List Nat) : Option (Instr × Nat) :=
  match bs with
  | 0x66 :: rest => (decodeOpcode 2 rest).map (fun p => (p.1, bs.length - p.2.length))
  | _ => (decodeOpcode 4 bs).map (fun p => (p.1, bs.length - p.2.length))

/-- The address a decoded relative branch of length `len` at address `addr`
transfers control to. -/
def branchTarget (addr len : Nat) (disp : Int) : Int :=
  ((addr : Int) + (len : Int) + disp) % 4294967296

/-! ## Chains of emit calls -/

/-- One call of an emit member of `AsmWritter`, with its arguments. -/
inductive Op where
  | pusha | popa
  | push (reg : AsmReg32) | push16 (reg : AsmReg16)
  | pop (reg : AsmReg32) | pop16 (reg : AsmReg16)
  | pushImm (val : Int) | pushf | popf
  | xor_ (dstReg srcReg : AsmReg32)
  | add (dstRM : AsmRegMem) (imm32 : Int) | addImm8 (dstRM : AsmRegMem) (imm8 : Int)
  | nop
  | jmpLong (addr : Nat) | jmpNear (addr : Nat) | callLong (addr : Nat) | ret
  | movRmReg (dstRM : AsmRegMem) (srcReg : AsmReg32)
  | movRegRm (dstReg : AsmReg32) (srcRM : AsmRegMem)
  | mov32 (dstReg srcReg : AsmReg32) | mov16 (dstReg srcReg : AsmReg16)
  | mov8 (dstReg srcReg : AsmReg8)
  | movImm32 (dstReg : AsmReg32) (imm : Int) | movImm16 (dstReg : AsmReg16) (imm : Int)
  | movImm8 (dstReg : AsmReg8) (imm : Int)
  | movEaxMemEsp (off : Int) | movEaxMemEsp32 (off : Int)
  | addEsp (val : Int) | leaEaxEsp (addVal : Int) | leaEdxEsp (addVal : Int)
  | cmp (reg : AsmReg8) (imm : Int)

/-- The call an `Op` stands for, made on the writer `w`. -/
def Op.run (w : AsmWritter) : Op → Except Aborted AsmWritter
  | .pusha => .ok w.pusha
  | .popa => .ok w.popa
  | .push reg => .ok (w.push reg)
  | .push16 reg => .ok (w.push16 reg)
  | .pop reg => .ok (w.pop reg)
  | .pop16 reg => .ok (w.pop16 reg)
  | .pushImm val => .ok (w.pushImm val)
  | .pushf => .ok w.pushf
  | .popf => .ok w.popf
  | .xor_ dstReg srcReg => .ok (w.xor_ dstReg srcReg)
  | .add dstRM imm32 => .ok (w.add dstRM imm32)
  | .addImm8 dstRM imm8 => .ok (w.addImm8 dstRM imm8)
  | .nop => .ok w.nop
  | .jmpLong addr => .ok (w.jmpLong addr)
  | .jmpNear addr => .ok (w.jmpNear addr)
  | .callLong addr => .ok (w.callLong addr)
  | .ret => .ok w.ret
  | .movRmReg dstRM srcReg => .ok (w.movRmReg dstRM srcReg)
  | .movRegRm dstReg srcRM => .ok (w.movRegRm dstReg srcRM)
  | .mov32 dstReg srcReg => .ok (w.mov32 dstReg srcReg)
  | .mov16 dstReg srcReg => .ok (w.mov16 dstReg srcReg)
  | .mov8 dstReg srcReg => .ok (w.mov8 dstReg srcReg)
  | .movImm32 dstReg imm => .ok (w.movImm32 dstReg imm)
  | .movImm16 dstReg imm => .ok (w.movImm16 dstReg imm)
  | .movImm8 dstReg imm => .ok (w.movImm8 dstReg imm)
  | .movEaxMemEsp off => .ok (w.movEaxMemEsp off)
  | .movEaxMemEsp32 off => .ok (w.movEaxMemEsp32 off)
  | .addEsp val => .ok (w.addEsp val)
  | .leaEaxEsp addVal => .ok (w.leaEaxEsp addVal)
  | .leaEdxEsp addVal => .ok (w.leaEdxEsp addVal)
  | .cmp reg imm => w.cmp reg imm

/-- A chain of calls `w.op1(..).op2(..)…`, made in order; the first failure
ends it. -/
def runAll : List Op → AsmWritter → Except Aborted AsmWritter
  | [], w => .ok w
  | op :: ops, w =>
    match op.run w with
    | .ok w1 => runAll ops w1
    | .error e => .error e

/-- The stores made between the states `w` and `w'` are appended to the record
of stores, bytes that no such store addresses keep their value, the end bound
is kept, and, when a window of one byte per store starting at the cursor of
`w` lies below `2 ^ 32`, every store is inside that window and the cursor of
`w'` is in it or at its end. -/
def Contained (w w' : AsmWritter) : Prop :=
  w'.m_endAddr = w.m_endAddr ∧
  ∃ suffix : List (Nat × Nat),
    w'.mem.stores = w.mem.stores ++ suffix ∧
    (∀ x, (∀ p ∈ suffix, p.1 ≠ x) → w'.mem.bytes x = w.mem.bytes x) ∧
    (w.m_addr + suffix.length < 4294967296 →
      (∀ p ∈ suffix, w.m_addr ≤ p.1 ∧ p.1 < w.m_addr + suffix.length) ∧
      w.m_addr ≤ w'.m_addr ∧ w'.m_addr ≤ w.m_addr + suffix.length)

/-- The 24 named registers of the namespace `AsmRegs`, as `AsmReg` values. -/
def AsmRegs.named : List AsmReg :=
  [AsmRegs.EAX.toAsmReg, AsmRegs.ECX.toAsmReg, AsmRegs.EDX.toAsmReg, AsmRegs.EBX.toAsmReg,
   AsmRegs.ESP.toAsmReg, AsmRegs.EBP.toAsmReg, AsmRegs.ESI.toAsmReg, AsmRegs.EDI.toAsmReg,
   AsmRegs.AX.toAsmReg, AsmRegs.CX.toAsmReg, AsmRegs.DX.toAsmReg, AsmRegs.BX.toAsmReg,
   AsmRegs.SP.toAsmReg, AsmRegs.BP.toAsmReg, AsmRegs.SI.toAsmReg, AsmRegs.DI.toAsmReg,
   AsmRegs.AL.toAsmReg, AsmRegs.CL.toAsmReg, AsmRegs.DL.toAsmReg, AsmRegs.BL.toAsmReg,
   AsmRegs.AH.toAsmReg, AsmRegs.CH.toAsmReg, AsmRegs.DH.toAsmReg, AsmRegs.BH.toAsmReg]

/-! ## Patches: function hooks and code injections

`FunHook.h` and `CodeInjection.h` (directory `patch_common`) are not among the
sources; only their callers are. The definitions of this section follow
sections 3, 4.3, 4.4 and 7 of the specification. The memory of the target
process is the `Memory` of this file; the trampoline is engine-owned and is
not part of it, only its address enters the detour. -/

/-- Modelled from the spec: the error kinds of section 7 (the patch classes
are not among the sources). -/
inductive PatchError where
  | MemoryProtectionError
  | InvalidPatchState
  | EncodingError
  deriving DecidableEq, Repr

/-- Modelled from the spec: the two variants of a patch (section 3). -/
inductive PatchKind where
  | FunctionHook
  | CodeInjection
  deriving DecidableEq, Repr

/-- Modelled from the spec: the record `Patch` of section 3 with the
`OriginalBytes` its registry entry owns and the saved-byte length of
section 6 (the patch classes are not among the sources). -/
structure Patch where
  kind : PatchKind
  target : Nat
  trampoline : Nat
  savedLength : Nat
  installed : Bool
  originalBytes : List Nat

/-- The outcome of an install or uninstall: the error if it failed, and the
patch and the target memory afterwards. -/
structure PatchOutcome where
  error : Option PatchError
  patch : Patch
  mem : Memory

/-- Modelled from the spec: install of a function hook or code injection
(sections 4.3 and 4.4, steps 1 and 2): the original bytes at the target are
saved, then the detour, a long jump to the trampoline, is written at the
target. An install of an installed patch fails with `InvalidPatchState`. -/
def Patch.install (p : Patch) (m : Memory) : PatchOutcome :=
  if p.installed then
    { error := some .InvalidPatchState, patch := p, mem := m }
  else
    { error := none
      patch := { p with installed := true, originalBytes := m.read p.target p.savedLength }
      mem := ((AsmWritter.create m p.target AsmWritter.UNK_END_ADDR).jmpLong p.trampoline).mem }

/-- Modelled from the spec: uninstall (section 4.3): `OriginalBytes` is
written back verbatim at the target and the trampoline is discarded. An
uninstall of a patch that is not installed fails with `InvalidPatchState`. -/
def Patch.uninstall (p : Patch) (m : Memory) : PatchOutcome :=
  if p.installed then
    { error := none
      patch := { p with installed := false, originalBytes := [] }
      mem := WriteMem m p.target p.originalBytes }
  else
    { error := some .InvalidPatchState, patch := p, mem := m }

/-! ## The minidump callback (`src/crash_handler/MiniDumpHelper.cpp`) -/

namespace MiniDumpHelper

/-- The enumerators of `MINIDUMP_CALLBACK_TYPE` (Windows SDK, `dbghelp.h`)
that the callback names. -/
def ModuleCallback : Nat := 0
def ThreadCallback : Nat := 1
def ThreadExCallback : Nat := 2
def IncludeThreadCallback : Nat := 3
def IncludeModuleCallback : Nat := 4
def MemoryCallback : Nat := 5
def CancelCallback : Nat := 6

/-- The enumerator `ModuleWriteDataSeg` of `MODULE_WRITE_FLAGS` (Windows SDK,
`dbghelp.h`). -/
def ModuleWriteDataSeg : Nat := 0x0002

/-- The fields of `MINIDUMP_CALLBACK_INPUT` the callback reads: the callback
type and the path of the module, a wide-character string. -/
structure CallbackInput where
  CallbackType : Nat
  ModuleFullPath : List Nat

/-- The field of `MINIDUMP_CALLBACK_OUTPUT` the callback reads and writes, a
`ULONG`. -/
structure CallbackOutput where
  ModuleWriteFlags : Nat
  deriving DecidableEq, Repr

/-- The C library functions `is_data_section_needed` calls: `_wsplitpath`, of
which it takes the file-name part, and `wcsicmp`. -/
structure WideStringLib where
  wsplitpath_fname : List Nat → List Nat
  wcsicmp : List Nat → List Nat → Int

/-- The object `MiniDumpHelper`: its member `m_known_modules`. -/
structure Helper where
  m_known_modules : List (List Nat)

/-- The member `is_data_section_needed(module_name)`. -/
def is_data_section_needed (lib : WideStringLib) (that : Helper) (module_name : List Nat) : Bool :=
  let file_name := lib.wsplitpath_fname module_name
  that.m_known_modules.any (fun name => lib.wcsicmp file_name name == 0)

/-- The member `mini_dump_callback(param, input, output)`: the value it returns
and the output afterwards; a null pointer is `none`. `~ModuleWriteDataSeg`
converted to `ULONG` is `0xFFFFFFFF ^ ModuleWriteDataSeg`. -/
def mini_dump_callback (lib : WideStringLib) (that : Helper) (input : Option CallbackInput)
    (output : Option CallbackOutput) : Bool × Option CallbackOutput :=
  match input, output with
  | some inp, some out =>
    if inp.CallbackType = IncludeModuleCallback then (true, some out)
    else if inp.CallbackType = IncludeThreadCallback then (true, some out)
    else if inp.CallbackType = ModuleCallback then
      if out.ModuleWriteFlags &&& ModuleWriteDataSeg ≠ 0 then
        if !is_data_section_needed lib that inp.ModuleFullPath then
          (true, some { out with
            ModuleWriteFlags := out.ModuleWriteFlags &&& (0xFFFFFFFF ^^^ ModuleWriteDataSeg) })
        else (true, some out)
      else (true, some out)
    else if inp.CallbackType = ThreadCallback then (true, some out)
    else if inp.CallbackType = ThreadExCallback then (true, some out)
    else if inp.CallbackType = MemoryCallback then (false, some out)
    else if inp.CallbackType = CancelCallback then (false, some out)
    else (false, some out)
  | _, _ => (false, output)

end MiniDumpHelper

/-! ## Trigger patches (`src/game_patch/misc/trigger.cpp`) -/

namespace Trigger

def TRIGGER_CLIENT_SIDE : Nat := 0x2
def TRIGGER_SOLO : Nat := 0x4
def TRIGGER_TELEPORT : Nat := 0x8

/-- What the callbacks read of an `rf::Player` behind a non-null pointer: the
pointer value, which is what `!=` on two pointers compares, and the field
`team`. A null pointer is `none`. -/
structure Player where
  addr : Nat
  team : Int
  deriving DecidableEq, Repr

/-- What the callbacks read of an `rf::TriggerObj`: the name (the bytes of the
C string before its NUL), the uid and the team. -/
structure TriggerObj where
  name : List Nat
  uid : Int
  team : Int
  deriving DecidableEq, Repr

/-- The game state the callbacks read: `rf::is_net_game`,
`rf::is_local_net_game`, `rf::local_player` and the function
`rf::GetPlayerFromEntityHandle`. -/
structure Game where
  is_net_game : Bool
  is_local_net_game : Bool
  local_player : Option Player
  GetPlayerFromEntityHandle : Int → Option Player

/-- The packet `rfTriggerActivate` as `SendTriggerActivatePacket` fills it. -/
structure rfTriggerActivate where
  uid : Int
  entity_handle : Int
  deriving DecidableEq, Repr

/-- The calls a callback makes to code outside this file, in order:
`rf::NwSendReliablePacket` to a player, `CallTarget` of the trigger-activate
hook (with the value `g_trigger_solo_player` has during the call), and
`CallTarget` of the send-to-all-players hook. -/
inductive Call where
  | NwSendReliablePacket (player : Player) (packet : rfTriggerActivate)
  | TriggerActivate_CallTarget (trigger : TriggerObj) (h_entity : Int) (skip_movers : Bool)
      (g_trigger_solo_player : Option Player)
  | SendToAllPlayers_CallTarget (trigger_uid : Int) (entity_handle : Int)
  deriving DecidableEq, Repr

/-- The function `SendTriggerActivatePacket(player, trigger_uid, entity_handle)`. -/
def SendTriggerActivatePacket (player : Player) (trigger_uid : Int) (entity_handle : Int) :
    List Call :=
  [.NwSendReliablePacket player { uid := trigger_uid, entity_handle := entity_handle }]

/-- The callback of `SendTriggerActivatePacketToAllPlayers_hook`, run with the
given value of the global `g_trigger_solo_player`. -/
def SendTriggerActivatePacketToAllPlayers_hook (g_trigger_solo_player : Option Player)
    (trigger_uid : Int) (entity_handle : Int) : List Call :=
  match g_trigger_solo_player with
  | some p => SendTriggerActivatePacket p trigger_uid entity_handle
  | none => [.SendToAllPlayers_CallTarget trigger_uid entity_handle]

/-- The value of `ext_flags` for a trigger name: the second byte, as a
`uint8_t`, when the first byte is `0xAB`, else 0. A read at the end of the name
reads the NUL. -/
def ext_flags (trigger_name : List Nat) : Nat :=
  if trigger_name.getD 0 0 = 0xAB then trigger_name.getD 1 0 % 256 else 0

/-- The callback of `TriggerActivate_hook`, entered with the given value of the
global `g_trigger_solo_player`: the calls it makes, in order, and the value of
the global when it returns. -/
def TriggerActivate_hook (game : Game) (g_trigger_solo_player : Option Player)
    (trigger : TriggerObj) (h_entity : Int) (skip_movers : Bool) : List Call × Option Player :=
  let player := game.GetPlayerFromEntityHandle h_entity
  let trigger_name := trigger.name
  let teamMismatch : Bool :=
    match player with
    | some p => trigger.team != -1 && trigger.team != p.team
    | none => false
  if teamMismatch then
    ([], g_trigger_solo_player)
  else
    let is_solo_trigger : Bool := (ext_flags trigger_name &&& (TRIGGER_SOLO ||| TRIGGER_TELEPORT)) != 0
    match (if game.is_net_game && game.is_local_net_game && is_solo_trigger then player
           else none) with
    | some p =>
      if some p.addr ≠ game.local_player.map Player.addr then
        (SendTriggerActivatePacket p trigger.uid h_entity, g_trigger_solo_player)
      else
        ([.TriggerActivate_CallTarget trigger h_entity skip_movers (some p)], none)
    | none =>
      ([.TriggerActivate_CallTarget trigger h_entity skip_movers g_trigger_solo_player], none)

/-- How many of the calls are a `CallTarget` of the trigger-activate hook. -/
def countCallTarget (calls : List Call) : Nat :=
  (calls.filter (fun c => match c with
    | .TriggerActivate_CallTarget _ _ _ _ => true
    | _ => false)).length

end Trigger

/-! ## Network patches (`src/main/network.cpp`) -/

namespace Network

/-- The C library function `strncpy(dest, src, n)`: the `n` bytes it stores at
`dest`, namely the bytes at `src` up to the first NUL, or `n` of them if there
is no NUL among the first `n`, followed by NULs up to `n` bytes. -/
def strncpyBytes (m : Memory) : Nat → Nat → List Nat
  | _, 0 => []
  | src, n + 1 =>
    if m.bytes (src % 4294967296) = 0 then List.replicate (n + 1) 0
    else m.bytes (src % 4294967296) :: strncpyBytes m (src + 1) n

/-- The C library function `strncpy(dest, src, n)` on the process memory. The
two objects must not overlap (the C function is undefined otherwise); the
model reads the source before it writes. -/
def strncpy (m : Memory) (dest src n : Nat) : Memory :=
  WriteMem m dest (strncpyBytes m src n)

/-- The function `SafeStrCpy(pDest, pSrc, DestSize)` (the macro
`TEST_BUFFER_OVERFLOW_FIXES` is not defined). `DestSize` is a `size_t`, so
`DestSize - 1` is taken modulo `2 ^ 32`. -/
def SafeStrCpy (m : Memory) (pDest pSrc DestSize : Nat) : Memory :=
  (strncpy m pDest pSrc DestSize).store
    ((pDest + (DestSize + 4294967296 - 1) % 4294967296) % 4294967296) 0

/-- The memory holds at `p` the NUL-terminated string whose bytes before the
NUL are `s`. -/
def CStringAt (m : Memory) (p : Nat) (s : List Nat) : Prop :=
  (∀ i, i < s.length → m.bytes ((p + i) % 4294967296) = s.getD i 0)
  ∧ m.bytes ((p + s.length) % 4294967296) = 0
  ∧ ∀ b ∈ s, b ≠ 0 ∧ b < 256

end Network

/-! ## Level download (`src/game_patch/multi/level_download.cpp`) -/

namespace LevelDownload

/-- The struct `LevelDownloadInfo`. -/
structure LevelDownloadInfo where
  name : List Char
  author : List Char
  description : List Char
  size_in_bytes : Nat
  ticket_id : Int
  deriving DecidableEq, Repr

/-- The exceptions `parse_level_download_info` lets through. -/
inductive Exception where
  | ios_failure
  | invalid_argument
  | out_of_range
  deriving DecidableEq, Repr

/-- The conversions of the C++ library the parser calls on a line:
`toSizeInBytes` is `static_cast<unsigned>(std::stof(temp) * 1024u * 1024u)`, a
floating-point computation that is left uninterpreted, and `stoi` is
`std::stoi`; both throw on a line they cannot convert. -/
structure Conversions where
  toSizeInBytes : List Char → Except Exception Nat
  stoi : List Char → Except Exception Int

/-- The line delimiter of `std::getline`. -/
def newline : Char := Char.ofNat 10

/-- The characters before the first newline, and the characters after it. -/
def takeLine : List Char → List Char × List Char
  | [] => ([], [])
  | c :: cs => if c = newline then ([], cs) else (c :: (takeLine cs).1, (takeLine cs).2)

/-- The call `std::getline(ss, line)` on a stream with the characters `ss` left
to read and with exceptions enabled for `failbit` and `badbit`: the line and
the characters left, or the failure thrown when nothing is left to read. -/
def getline (ss : List Char) : Except Exception (List Char × List Char) :=
  match ss with
  | [] => .error .ios_failure
  | _ :: _ => .ok (takeLine ss)

/-- The function `parse_level_download_info(buf)`: `.ok none` is the empty
optional, `.error` a thrown exception. -/
def parse_level_download_info (lib : Conversions) (buf : List Char) :
    Except Exception (Option LevelDownloadInfo) :=
  match getline buf with
  | .error e => .error e
  | .ok (temp, ss) =>
    if temp ≠ "found".toList then .ok none
    else
      match getline ss with
      | .error e => .error e
      | .ok (name, ss) =>
        match getline ss with
        | .error e => .error e
        | .ok (author, ss) =>
          match getline ss with
          | .error e => .error e
          | .ok (description, ss) =>
            match getline ss with
            | .error e => .error e
            | .ok (temp, ss) =>
              match lib.toSizeInBytes temp with
              | .error e => .error e
              | .ok size_in_bytes =>
                if size_in_bytes = 0 then .ok none
                else
                  match getline ss with
                  | .error e => .error e
                  | .ok (temp, _) =>
                    match lib.stoi temp with
                    | .error e => .error e
                    | .ok ticket_id =>
                      if ticket_id ≤ 0 then .ok none
                      else .ok (some { name := name, author := author, description := description,
                                       size_in_bytes := size_in_bytes, ticket_id := ticket_id })

/-- The lines of a text: the pieces between its newline characters. -/
def lines : List Char → List (List Char)
  | [] => [[]]
  | c :: cs =>
    if c = newline then [] :: lines cs
    else
      match lines cs with
      | [] => [[c]]
      | l :: ls => (c :: l) :: ls

end LevelDownload

namespace Network

/-- Modelled from the spec: the opcode constants of `AsmOpcodes.h`, which is
not among the sources: the x86 opcodes of `nop`, of the short relative jump
and of the long relative jump (the detour of the spec). -/
def ASM_NOP : Nat := 0x90
def ASM_SHORT_JMP_REL : Nat := 0xEB
def ASM_LONG_JMP_REL : Nat := 0xE9

/-- Subtraction of two `ULONG_PTR` values: modulo `2 ^ 32`. -/
def subU32 (a b : Nat) : Nat := (a % 4294967296 + 4294967296 - b % 4294967296) % 4294967296

/-- Modelled from the spec: `WriteMemUInt32(Addr, Value)` of `MemUtils.h`, a
byte-exact store of a `uint32_t`, little-endian as on x86. -/
def WriteMemUInt32 (m : Memory) (addr : Nat) (value : Nat) : Memory :=
  WriteMem m addr (leBytes 4 (value % 4294967296))

/-- Modelled from the spec: `WriteMemUInt16(Addr, Value)` of `MemUtils.h`. -/
def WriteMemUInt16 (m : Memory) (addr : Nat) (value : Nat) : Memory :=
  WriteMem m addr (leBytes 2 (value % 65536))

/-- Modelled from the spec: `WriteMemPtr(Addr, Value)` of `MemUtils.h`, a
byte-exact store of a 32-bit pointer. -/
def WriteMemPtr (m : Memory) (addr : Nat) (value : Nat) : Memory :=
  WriteMem m addr (leBytes 4 (value % 4294967296))

/-- Modelled from the spec: `WriteMemUInt8Repeat(Addr, Value, Count)` of
`MemUtils.h`, `Count` stores of the same byte at consecutive addresses. -/
def WriteMemUInt8Repeat (m : Memory) (addr : Nat) (value : Nat) (count : Nat) : Memory :=
  WriteMem m addr (List.replicate count (value % 256))

/-- The addresses `NetworkInit` takes from the linker and from `rf.h` (which
is not among the sources): those of the two hook functions and of the sixteen
naked handlers, and the pointer `g_pSimultaneousPing`. -/
structure Linkage where
  ProcessUnreliableGamePacketsHook : Nat
  HandleNewPlayerPacketHook : Nat
  g_pSimultaneousPing : Nat
  HandleGameInfoPacket_Security_0047B2D3 : Nat
  HandleGameInfoPacket_Security_0047B334 : Nat
  HandleGameInfoPacket_Security_0047B38E : Nat
  HandleJoinReqPacket_Security_0047AD4E : Nat
  HandleJoinAcceptPacket_Security_0047A8AE : Nat
  HandleNewPlayerPacket_Security_0047A5F4 : Nat
  HandlePlayersPacket_Security_00481EE6 : Nat
  HandleStateInfoReqPacket_Security_00481BEC : Nat
  HandleChatLinePacket_Security_004448B0 : Nat
  HandleNameChangePacket_Security_0046EB24 : Nat
  HandleLeaveLimboPacket_Security_0047C1C3 : Nat
  HandleObjKillPacket_Security_0047EE6E : Nat
  HandleEntityCreatePacket_Security_00475474 : Nat
  HandleItemCreatePacket_Security_00479FAA : Nat
  HandleRconReqPacket_Security_0046C590 : Nat
  HandleRconPacket_Security_0046C751 : Nat

/-- The function `NetworkInit` (the macro `TEST_BUFFER_OVERFLOW_FIXES` is not
defined; `*g_pSimultaneousPing = 32` is taken as a 32-bit store). -/
def NetworkInit (L : Linkage) (m : Memory) : Memory :=
  let m := WriteMemPtr m 0x00479245 (subU32 L.ProcessUnreliableGamePacketsHook (0x00479244 + 0x5))
  let m := WriteMemUInt32 m L.g_pSimultaneousPing 32
  let m := WriteMemUInt8Repeat m 0x00528F24 0x90 2
  let m := WriteMemUInt16 m 0x0059CDE4 0
  let m := WriteMemUInt8Repeat m 0x004755C1 ASM_NOP 6
  let m := WriteMemUInt8Repeat m 0x004755C7 ASM_NOP 6
  let m := WriteMemUInt8 m 0x0047B3CB ASM_SHORT_JMP_REL
  let m := WriteMemPtr m 0x0059E158 L.HandleNewPlayerPacketHook
  let m := WriteMemUInt8 m 0x0047B2D3 ASM_LONG_JMP_REL
  let m := WriteMemUInt32 m (0x0047B2D3 + 1) (subU32 L.HandleGameInfoPacket_Security_0047B2D3 (0x0047B2D3 + 0x5))
  let m := WriteMemUInt8 m 0x0047B334 ASM_LONG_JMP_REL
  let m := WriteMemUInt32 m (0x0047B334 + 1) (subU32 L.HandleGameInfoPacket_Security_0047B334 (0x0047B334 + 0x5))
  let m := WriteMemUInt8 m 0x0047B38E ASM_LONG_JMP_REL
  let m := WriteMemUInt32 m (0x0047B38E + 1) (subU32 L.HandleGameInfoPacket_Security_0047B38E (0x0047B38E + 0x5))
  let m := WriteMemUInt8 m 0x0047AD4E ASM_LONG_JMP_REL
  let m := WriteMemUInt32 m (0x0047AD4E + 1) (subU32 L.HandleJoinReqPacket_Security_0047AD4E (0x0047AD4E + 0x5))
  let m := WriteMemUInt8 m 0x0047A8AE ASM_LONG_JMP_REL
  let m := WriteMemUInt32 m (0x0047A8AE + 1) (subU32 L.HandleJoinAcceptPacket_Security_0047A8AE (0x0047A8AE + 0x5))
  let m := WriteMemUInt8 m 0x0047A5F4 ASM_LONG_JMP_REL
  let m := WriteMemUInt32 m (0x0047A5F4 + 1) (subU32 L.HandleNewPlayerPacket_Security_0047A5F4 (0x0047A5F4 + 0x5))
  let m := WriteMemUInt8 m 0x00481EE6 ASM_LONG_JMP_REL
  let m := WriteMemUInt32 m (0x00481EE6 + 1) (subU32 L.HandlePlayersPacket_Security_00481EE6 (0x00481EE6 + 0x5))
  let m := WriteMemUInt8 m 0x00481BEC ASM_LONG_JMP_REL
  let m := WriteMemUInt32 m (0x00481BEC + 1) (subU32 L.HandleStateInfoReqPacket_Security_00481BEC (0x00481BEC + 0x5))
  let m := WriteMemUInt8 m 0x004448B0 ASM_LONG_JMP_REL
  let m := WriteMemUInt32 m (0x004448B0 + 1) (subU32 L.HandleChatLinePacket_Security_004448B0 (0x004448B0 + 0x5))
  let m := WriteMemUInt8 m 0x0046EB24 ASM_LONG_JMP_REL
  let m := WriteMemUInt32 m (0x0046EB24 + 1) (subU32 L.HandleNameChangePacket_Security_0046EB24 (0x0046EB24 + 0x5))
  let m := WriteMemUInt8 m 0x0047C1C3 ASM_LONG_JMP_REL
  let m := WriteMemUInt32 m (0x0047C1C3 + 1) (subU32 L.HandleLeaveLimboPacket_Security_0047C1C3 (0x0047C1C3 + 0x5))
  let m := WriteMemUInt8 m 0x0047EE6E ASM_LONG_JMP_REL
  let m := WriteMemUInt32 m (0x0047EE6E + 1) (subU32 L.HandleObjKillPacket_Security_0047EE6E (0x0047EE6E + 0x5))
  let m := WriteMemUInt8 m 0x00475474 ASM_LONG_JMP_REL
  let m := WriteMemUInt32 m (0x00475474 + 1) (subU32 L.HandleEntityCreatePacket_Security_00475474 (0x00475474 + 0x5))
  let m := WriteMemUInt8 m 0x00479FAA ASM_LONG_JMP_REL
  let m := WriteMemUInt32 m (0x00479FAA + 1) (subU32 L.HandleItemCreatePacket_Security_00479FAA (0x00479FAA + 0x5))
  let m := WriteMemUInt8 m 0x0046C590 ASM_LONG_JMP_REL
  let m := WriteMemUInt32 m (0x0046C590 + 1) (subU32 L.HandleRconReqPacket_Security_0046C590 (0x0046C590 + 0x5))
  let m := WriteMemUInt8 m 0x0046C751 ASM_LONG_JMP_REL
  let m := WriteMemUInt32 m (0x0046C751 + 1) (subU32 L.HandleRconPacket_Security_0046C751 (0x0046C751 + 0x5))
  m

/-! ### The naked handlers -/

/-- The general-purpose registers. -/
inductive Reg where
  | eax | ecx | edx | ebx | esp | ebp | esi | edi
  deriving DecidableEq, Repr

/-- The instructions of the inline assembly of the handlers. -/
inductive Asm where
  | pushad
  | popad
  | push_imm (v : Nat)
  | push (r : Reg)
  | pop (r : Reg)
  | call_SafeStrCpy
  | add_esp (v : Nat)
  | xor (dst src : Reg)
  | mov_imm (dst : Reg) (v : Nat)
  | jmp (r : Reg)
  | mov_byte_esp_bl (disp : Nat)
  | mov_al_byte (addr : Nat)
  | cmp_bl (v : Nat)
  | lea_eax_esp (disp : Nat)
  deriving DecidableEq, Repr

/-- The processor state the handlers act on: the registers, the memory (the
stack is part of it) and the address control was transferred to by a `jmp`,
if any. Flags are not part of the state. -/
structure Cpu where
  reg : Reg → Nat
  mem : Memory
  eip : Option Nat

/-- A write of a 32-bit register. -/
def Cpu.set (c : Cpu) (r : Reg) (v : Nat) : Cpu :=
  { c with reg := fun x => if x = r then v % 4294967296 else c.reg x }

/-- The 32-bit word of memory at an address. -/
def Cpu.read32 (c : Cpu) (addr : Nat) : Nat := ofLeBytes (c.mem.read addr 4)

/-- The instruction `push` of a 32-bit value. -/
def Cpu.push32 (c : Cpu) (v : Nat) : Cpu :=
  let esp := (c.reg .esp + 4294967296 - 4) % 4294967296
  { c.set .esp esp with mem := WriteMem c.mem esp (leBytes 4 (v % 4294967296)) }

/-- The instruction `pop` into a register. -/
def Cpu.pop32 (c : Cpu) (r : Reg) : Cpu :=
  (c.set .esp (c.reg .esp + 4)).set r (c.read32 (c.reg .esp))

/-- One instruction. A `cdecl` callee may leave any values in `eax`, `ecx`
and `edx`: `scratch` gives them. What a callee writes below the stack pointer
is not modelled. -/
def exec (scratch : Cpu → Nat × Nat × Nat) (i : Asm) (c : Cpu) : Cpu :=
  match i with
  | .pushad =>
    (((((((c.push32 (c.reg .eax)).push32 (c.reg .ecx)).push32 (c.reg .edx)).push32
      (c.reg .ebx)).push32 (c.reg .esp)).push32 (c.reg .ebp)).push32 (c.reg .esi)).push32
      (c.reg .edi)
  | .popad =>
    let c1 := ((c.pop32 .edi).pop32 .esi).pop32 .ebp
    let c2 := c1.set .esp (c1.reg .esp + 4)
    (((c2.pop32 .ebx).pop32 .edx).pop32 .ecx).pop32 .eax
  | .push_imm v => c.push32 v
  | .push r => c.push32 (c.reg r)
  | .pop r => c.pop32 r
  | .call_SafeStrCpy =>
    let pDest := c.read32 (c.reg .esp)
    let pSrc := c.read32 (c.reg .esp + 4)
    let DestSize := c.read32 (c.reg .esp + 8)
    let c1 : Cpu := { c with mem := SafeStrCpy c.mem pDest pSrc DestSize }
    ((c1.set .eax (scratch c).1).set .ecx (scratch c).2.1).set .edx (scratch c).2.2
  | .add_esp v => c.set .esp (c.reg .esp + v)
  | .xor dst src => c.set dst (c.reg dst ^^^ c.reg src)
  | .mov_imm dst v => c.set dst v
  | .jmp r => { c with eip := some (c.reg r) }
  | .mov_byte_esp_bl disp =>
    { c with mem := WriteMemUInt8 c.mem ((c.reg .esp + disp) % 4294967296) (c.reg .ebx % 256) }
  | .mov_al_byte addr =>
    c.set .eax (c.reg .eax / 256 * 256 + c.mem.bytes (addr % 4294967296) % 256)
  | .cmp_bl _ => c
  | .lea_eax_esp disp => c.set .eax (c.reg .esp + disp)

/-- The instructions in order, up to and including the first `jmp`. -/
def run (scratch : Cpu → Nat × Nat × Nat) : List Asm → Cpu → Cpu
  | [], c => c
  | .jmp r :: _, c => exec scratch (.jmp r) c
  | i :: rest, c => run scratch rest (exec scratch i c)

def HandleGameInfoPacket_Security_0047B2D3 : List Asm :=
  [.pushad,
   .push_imm 256,
   .push .esi,
   .push .ebx,
   .call_SafeStrCpy,
   .add_esp 12,
   .popad,
   .xor .eax .eax,
   .mov_imm .ecx 0x0047B2E3,
   .jmp .ecx]

def HandleGameInfoPacket_Security_0047B334 : List Asm :=
  [.push .edx,
   .push_imm 256,
   .push .esi,
   .push .edi,
   .call_SafeStrCpy,
   .add_esp 12,
   .pop .edx,
   .xor .eax .eax,
   .mov_imm .ecx 0x0047B342,
   .jmp .ecx]

def HandleGameInfoPacket_Security_0047B38E : List Asm :=
  [.pushad,
   .push_imm 256,
   .push .esi,
   .push .edi,
   .call_SafeStrCpy,
   .add_esp 12,
   .popad,
   .xor .eax .eax,
   .mov_imm .ecx 0x0047B39C,
   .jmp .ecx]

def HandleJoinReqPacket_Security_0047AD4E : List Asm :=
  [.pushad,
   .push_imm 256,
   .push .esi,
   .push .edi,
   .call_SafeStrCpy,
   .add_esp 12,
   .popad,
   .mov_imm .ecx 0x0047AD5A,
   .jmp .ecx]

def HandleJoinAcceptPacket_Security_0047A8AE : List Asm :=
  [.pushad,
   .push_imm 256,
   .push .esi,
   .push .edi,
   .call_SafeStrCpy,
   .add_esp 12,
   .popad,
   .mov_imm .ecx 0x0047A8BA,
   .jmp .ecx]

def HandleNewPlayerPacket_Security_0047A5F4 : List Asm :=
  [.pushad,
   .push_imm 256,
   .push .esi,
   .push .edi,
   .call_SafeStrCpy,
   .add_esp 12,
   .popad,
   .mov_byte_esp_bl (0x12C - 0x118),
   .mov_imm .ecx 0x0047A604,
   .jmp .ecx]

def HandlePlayersPacket_Security_00481EE6 : List Asm :=
  [.pushad,
   .push_imm 256,
   .push .esi,
   .push .edi,
   .call_SafeStrCpy,
   .add_esp 12,
   .popad,
   .xor .eax .eax,
   .mov_imm .ecx 0x00481EF4,
   .jmp .ecx]

def HandleStateInfoReqPacket_Security_00481BEC : List Asm :=
  [.pushad,
   .push_imm 256,
   .push .esi,
   .push .edi,
   .call_SafeStrCpy,
   .add_esp 12,
   .popad,
   .mov_al_byte 0x0064EC40,
   .mov_imm .ecx 0x00481BFD,
   .jmp .ecx]

def HandleChatLinePacket_Security_004448B0 : List Asm :=
  [.pushad,
   .push_imm 256,
   .push .esi,
   .push .edi,
   .call_SafeStrCpy,
   .add_esp 12,
   .popad,
   .cmp_bl 0xFF,
   .mov_imm .ecx 0x004448BF,
   .jmp .ecx]

def HandleNameChangePacket_Security_0046EB24 : List Asm :=
  [.pushad,
   .push_imm 256,
   .push .esi,
   .push .edi,
   .call_SafeStrCpy,
   .add_esp 12,
   .popad,
   .mov_imm .ecx 0x0046EB30,
   .jmp .ecx]

def HandleLeaveLimboPacket_Security_0047C1C3 : List Asm :=
  [.pushad,
   .push_imm 256,
   .push .esi,
   .push .edi,
   .call_SafeStrCpy,
   .add_esp 12,
   .popad,
   .mov_imm .ecx 0x0047C1CF,
   .jmp .ecx]

def HandleObjKillPacket_Security_0047EE6E : List Asm :=
  [.pushad,
   .push_imm 256,
   .push .esi,
   .push .edi,
   .call_SafeStrCpy,
   .add_esp 12,
   .popad,
   .xor .eax .eax,
   .push_imm 0,
   .mov_imm .ecx 0x0047EE7E,
   .jmp .ecx]

def HandleEntityCreatePacket_Security_00475474 : List Asm :=
  [.pushad,
   .push_imm 256,
   .push .esi,
   .push .edi,
   .call_SafeStrCpy,
   .add_esp 12,
   .popad,
   .xor .eax .eax,
   .mov_imm .ecx 0x00475482,
   .jmp .ecx]

def HandleItemCreatePacket_Security_00479FAA : List Asm :=
  [.pushad,
   .push_imm 256,
   .push .esi,
   .push .edi,
   .call_SafeStrCpy,
   .add_esp 12,
   .popad,
   .xor .eax .eax,
   .mov_imm .ecx 0x00479FB8,
   .jmp .ecx]

def HandleRconReqPacket_Security_0046C590 : List Asm :=
  [.pushad,
   .push_imm 256,
   .push .esi,
   .push .edi,
   .call_SafeStrCpy,
   .add_esp 12,
   .popad,
   .lea_eax_esp (0x110 - 0x100),
   .mov_imm .ecx 0x0046C5A0,
   .jmp .ecx]

def HandleRconPacket_Security_0046C751 : List Asm :=
  [.pushad,
   .push_imm 512,
   .push .esi,
   .push .edi,
   .call_SafeStrCpy,
   .add_esp 12,
   .popad,
   .xor .eax .eax,
   .mov_imm .ecx 0x0046C75F,
   .jmp .ecx]

/-- One buffer-overflow fix: the patch address, the address of the handler, and
the code of the handler. -/
structure Fix where
  address : Nat
  handler : Nat
  code : List Asm

/-- The sixteen buffer-overflow fixes: each patch address with the handler
whose name carries that address. -/
def bufferOverflowFixes (L : Linkage) : List Fix :=
  [⟨0x0047B2D3, L.HandleGameInfoPacket_Security_0047B2D3, HandleGameInfoPacket_Security_0047B2D3⟩,
   ⟨0x0047B334, L.HandleGameInfoPacket_Security_0047B334, HandleGameInfoPacket_Security_0047B334⟩,
   ⟨0x0047B38E, L.HandleGameInfoPacket_Security_0047B38E, HandleGameInfoPacket_Security_0047B38E⟩,
   ⟨0x0047AD4E, L.HandleJoinReqPacket_Security_0047AD4E, HandleJoinReqPacket_Security_0047AD4E⟩,
   ⟨0x0047A8AE, L.HandleJoinAcceptPacket_Security_0047A8AE, HandleJoinAcceptPacket_Security_0047A8AE⟩,
   ⟨0x0047A5F4, L.HandleNewPlayerPacket_Security_0047A5F4, HandleNewPlayerPacket_Security_0047A5F4⟩,
   ⟨0x00481EE6, L.HandlePlayersPacket_Security_00481EE6, HandlePlayersPacket_Security_00481EE6⟩,
   ⟨0x00481BEC, L.HandleStateInfoReqPacket_Security_00481BEC, HandleStateInfoReqPacket_Security_00481BEC⟩,
   ⟨0x004448B0, L.HandleChatLinePacket_Security_004448B0, HandleChatLinePacket_Security_004448B0⟩,
   ⟨0x0046EB24, L.HandleNameChangePacket_Security_0046EB24, HandleNameChangePacket_Security_0046EB24⟩,
   ⟨0x0047C1C3, L.HandleLeaveLimboPacket_Security_0047C1C3, HandleLeaveLimboPacket_Security_0047C1C3⟩,
   ⟨0x0047EE6E, L.HandleObjKillPacket_Security_0047EE6E, HandleObjKillPacket_Security_0047EE6E⟩,
   ⟨0x00475474, L.HandleEntityCreatePacket_Security_00475474, HandleEntityCreatePacket_Security_00475474⟩,
   ⟨0x00479FAA, L.HandleItemCreatePacket_Security_00479FAA, HandleItemCreatePacket_Security_00479FAA⟩,
   ⟨0x0046C590, L.HandleRconReqPacket_Security_0046C590, HandleRconReqPacket_Security_0046C590⟩,
   ⟨0x0046C751, L.HandleRconPacket_Security_0046C751, HandleRconPacket_Security_0046C751⟩]

end Network

namespace Network

/-- The address a handler's code leaves for, read off its last two
instructions: the immediate of a final `mov r, imm; jmp r` that no earlier
`jmp` precedes. -/
def resumeAddress (code : List Asm) : Option Nat :=
  match code.reverse with
  | .jmp r :: .mov_imm r' v :: pre =>
    if r = r' ∧ pre.all (fun i => match i with
        | .jmp _ => false
        | _ => true) then some (v % 4294967296) else none
  | _ => none

end Network

/-! ## MeshRenderCache (game_patch/graphics/d3d11/gr_d3d11_mesh.cpp)

The constructor of `MeshRenderCache` walks the chunks of every level of
detail of a mesh and fills one vertex vector, one index vector and one batch
per chunk. Floating-point vertex data are carried as values of an arbitrary
type `F` (they are copied, never computed with). The C arrays `faces`,
`chunks` and `meshes` with their element counts are lists; the vertex arrays
`vecs`, `norms` and `uvs` are index functions read below `num_vecs`. The mask
`VIF_FACE_DOUBLE_SIDED` is declared in a header outside the sources at hand
and is a parameter. The first pair of loops of the constructor only computes
capacities for `reserve` and is not part of the model. -/

namespace MeshRenderCache

/-- A vector of three floats (`rf::Vector3`). -/
structure Vector3 (F : Type) where
  x : F
  y : F
  z : F

/-- A vector of two floats (`rf::Vector2`). -/
structure Vector2 (F : Type) where
  x : F
  y : F

/-- A triangle of a chunk (`rf::VifFace`): three vertex indices and flags. -/
structure VifFace where
  vindex1 : Nat
  vindex2 : Nat
  vindex3 : Nat
  flags : Nat
deriving DecidableEq, Repr

/-- A chunk of a mesh (`rf::VifChunk`), as far as the constructor reads it. -/
structure VifChunk (F : Type) where
  num_vecs : Nat
  vecs : Nat → Vector3 F
  norms : Nat → Vector3 F
  uvs : Nat → Vector2 F
  faces : List VifFace
  texture_idx : Int
  mode : Int

/-- One level of detail (`rf::VifMesh`): its chunks. -/
structure VifMesh (F : Type) where
  chunks : List (VifChunk F)

/-- A mesh with its levels of detail (`rf::VifLodMesh`). -/
structure VifLodMesh (F : Type) where
  meshes : List (VifMesh F)

/-- A vertex of the vertex buffer (`GpuVertex`). -/
structure GpuVertex (F : Type) where
  x : F
  y : F
  z : F
  norm : Vector3 F
  diffuse : Nat
  u0 : F
  v0 : F
  u0_pan_speed : F
  v0_pan_speed : F
  u1 : F
  v1 : F

/-- A draw batch: the arguments of `batches.emplace_back(...)`. -/
structure Batch where
  start_index : Nat
  num_indices : Int
  base_vertex : Nat
  texture_idx : Int
  mode : Int
  double_sided : Bool
deriving DecidableEq, Repr

/-- An element of `meshes_`: the batches of one level of detail. -/
structure Mesh where
  batches : List Batch
deriving DecidableEq, Repr

/-- The vectors the constructor fills: `gpu_verts`, `gpu_inds` (uploaded as
the vertex and index buffer) and the member `meshes_`. -/
structure Buffers (F : Type) where
  gpu_verts : List (GpuVertex F)
  gpu_inds : List Nat
  meshes_ : List Mesh

/-- Conversion to `rf::ushort`, the element type of `gpu_inds`. -/
def ushort (n : Nat) : Nat := n % 65536

/-- The loop of `is_vif_chunk_double_sided` over the faces not yet visited:
`false` at the first face without the flag, `true` when the faces run out. -/
def facesDoubleSided (VIF_FACE_DOUBLE_SIDED : Nat) : List VifFace → Bool
  | [] => true
  | face :: rest =>
    if face.flags &&& VIF_FACE_DOUBLE_SIDED = 0 then false
    else facesDoubleSided VIF_FACE_DOUBLE_SIDED rest

/-- The function `is_vif_chunk_double_sided(chunk)`. -/
def is_vif_chunk_double_sided {F : Type} (VIF_FACE_DOUBLE_SIDED : Nat)
    (chunk : VifChunk F) : Bool :=
  facesDoubleSided VIF_FACE_DOUBLE_SIDED chunk.faces

/-- One pass of the vertex loop: `gpu_verts.emplace_back()` and the
assignments to the new vertex. `zero` is the float `0.0f`. -/
def emplaceVertex {F : Type} (zero : F) (chunk : VifChunk F)
    (gpu_verts : List (GpuVertex F)) (vert_index : Nat) : List (GpuVertex F) :=
  gpu_verts ++
    [{ x := (chunk.vecs vert_index).x
       y := (chunk.vecs vert_index).y
       z := (chunk.vecs vert_index).z
       norm := ⟨(chunk.norms vert_index).x, (chunk.norms vert_index).y,
                (chunk.norms vert_index).z⟩
       diffuse := 0xFFFFFFFF
       u0 := (chunk.uvs vert_index).x
       v0 := (chunk.uvs vert_index).y
       u0_pan_speed := zero
       v0_pan_speed := zero
       u1 := zero
       v1 := zero }]

/-- One pass of the face loop: the three indices of the face, then the
reversed triangle when the face has the flag and the chunk as a whole is not
double sided. -/
def emplaceFace (VIF_FACE_DOUBLE_SIDED : Nat) (double_sided : Bool)
    (gpu_inds : List Nat) (face : VifFace) : List Nat :=
  let gpu_inds := gpu_inds ++ [ushort face.vindex1]
  let gpu_inds := gpu_inds ++ [ushort face.vindex2]
  let gpu_inds := gpu_inds ++ [ushort face.vindex3]
  if face.flags &&& VIF_FACE_DOUBLE_SIDED ≠ 0 ∧ double_sided = false then
    let gpu_inds := gpu_inds ++ [ushort face.vindex1]
    let gpu_inds := gpu_inds ++ [ushort face.vindex3]
    let gpu_inds := gpu_inds ++ [ushort face.vindex2]
    gpu_inds
  else gpu_inds

/-- The call `meshes_[lod_index].batches.emplace_back(b)`. -/
def emplaceBatch (meshes_ : List Mesh) (lod_index : Nat) (b : Batch) : List Mesh :=
  meshes_.set lod_index ⟨(meshes_.getD lod_index ⟨[]⟩).batches ++ [b]⟩

/-- The body of the chunk loop. `num_indices` is an `int` initialised from a
difference of two `size_t` values. -/
def addChunk {F : Type} (VIF_FACE_DOUBLE_SIDED : Nat) (zero : F) (lod_index : Nat)
    (chunk : VifChunk F) (st : Buffers F) : Buffers F :=
  let start_index := st.gpu_inds.length
  let base_vertex := st.gpu_verts.length
  let double_sided := is_vif_chunk_double_sided VIF_FACE_DOUBLE_SIDED chunk
  let gpu_verts := (List.range chunk.num_vecs).foldl (emplaceVertex zero chunk) st.gpu_verts
  let gpu_inds := chunk.faces.foldl (emplaceFace VIF_FACE_DOUBLE_SIDED double_sided) st.gpu_inds
  let num_indices := signExtend32 ((gpu_inds.length - start_index) % 4294967296)
  { gpu_verts := gpu_verts
    gpu_inds := gpu_inds
    meshes_ := emplaceBatch st.meshes_ lod_index
      ⟨start_index, num_indices, base_vertex, chunk.texture_idx, chunk.mode, double_sided⟩ }

/-- The chunk loop of one level of detail, over the chunks not yet visited. -/
def chunkLoop {F : Type} (VIF_FACE_DOUBLE_SIDED : Nat) (zero : F) (lod_index : Nat) :
    List (VifChunk F) → Buffers F → Buffers F
  | [], st => st
  | chunk :: rest, st =>
    chunkLoop VIF_FACE_DOUBLE_SIDED zero lod_index rest
      (addChunk VIF_FACE_DOUBLE_SIDED zero lod_index chunk st)

/-- The loop over the levels of detail, from level `lod_index` on. -/
def lodLoop {F : Type} (VIF_FACE_DOUBLE_SIDED : Nat) (zero : F) :
    Nat → List (VifMesh F) → Buffers F → Buffers F
  | _, [], st => st
  | lod_index, mesh :: rest, st =>
    lodLoop VIF_FACE_DOUBLE_SIDED zero (lod_index + 1) rest
      (chunkLoop VIF_FACE_DOUBLE_SIDED zero lod_index mesh.chunks st)

/-- The constructor `MeshRenderCache(lod_mesh, device)` up to the creation of
the device buffers: empty vectors, `meshes_.resize(num_levels)`, the loops. -/
def create {F : Type} (VIF_FACE_DOUBLE_SIDED : Nat) (zero : F)
    (lod_mesh : VifLodMesh F) : Buffers F :=
  lodLoop VIF_FACE_DOUBLE_SIDED zero 0 lod_mesh.meshes
    { gpu_verts := []
      gpu_inds := []
      meshes_ := List.replicate lod_mesh.meshes.length ⟨[]⟩ }

/-! ### The description the code is compared with -/

/-- A face has the double-sided flag. -/
def hasFlag (VIF_FACE_DOUBLE_SIDED : Nat) (face : VifFace) : Bool :=
  decide (face.flags &&& VIF_FACE_DOUBLE_SIDED ≠ 0)

/-- Every face of the chunk has the double-sided flag. -/
def entirelyDoubleSided {F : Type} (VIF_FACE_DOUBLE_SIDED : Nat)
    (chunk : VifChunk F) : Bool :=
  chunk.faces.all (hasFlag VIF_FACE_DOUBLE_SIDED)

/-- What one face contributes to the index buffer: `(v1, v2, v3)`, followed
by `(v1, v3, v2)` when the face has the flag and the chunk is not entirely
double sided. -/
def faceIndices (VIF_FACE_DOUBLE_SIDED : Nat) (entirely : Bool) (face : VifFace) :
    List Nat :=
  [face.vindex1, face.vindex2, face.vindex3] ++
    (if hasFlag VIF_FACE_DOUBLE_SIDED face = true ∧ entirely = false then
      [face.vindex1, face.vindex3, face.vindex2] else [])

/-- The indices of a chunk: the contributions of its faces in order. -/
def chunkIndices {F : Type} (VIF_FACE_DOUBLE_SIDED : Nat) (chunk : VifChunk F) :
    List Nat :=
  chunk.faces.flatMap
    (faceIndices VIF_FACE_DOUBLE_SIDED (entirelyDoubleSided VIF_FACE_DOUBLE_SIDED chunk))

/-- The chunks of a mesh in level-of-detail order, then chunk order. -/
def allChunks {F : Type} (lod_mesh : VifLodMesh F) : List (VifChunk F) :=
  lod_mesh.meshes.flatMap (fun mesh => mesh.chunks)

/-- The batches of a mesh in level-of-detail order, then chunk order. -/
def allBatches {F : Type} (b : Buffers F) : List Batch :=
  b.meshes_.flatMap (fun mesh => mesh.batches)

/-- The vertex indices of a face fit `rf::ushort`, the element type of the
index buffer. -/
def VifFace.fits (face : VifFace) : Prop :=
  face.vindex1 < 65536 ∧ face.vindex2 < 65536 ∧ face.vindex3 < 65536

end MeshRenderCache

namespace MeshRenderCache

/-- The batches of the chunks `cs` when `start` indices and `base` vertices
precede them: each batch begins where the one before it ends. -/
def batchesFrom {F : Type} (VIF_FACE_DOUBLE_SIDED : Nat) :
    Nat → Nat → List (VifChunk F) → List Batch
  | _, _, [] => []
  | start, base, chunk :: rest =>
    ⟨start, ((chunkIndices VIF_FACE_DOUBLE_SIDED chunk).length : Nat), base,
      chunk.texture_idx, chunk.mode, entirelyDoubleSided VIF_FACE_DOUBLE_SIDED chunk⟩ ::
    batchesFrom VIF_FACE_DOUBLE_SIDED
      (start + (chunkIndices VIF_FACE_DOUBLE_SIDED chunk).length) (base + chunk.num_vecs) rest

/-- The number of indices of a list of chunks. -/
def indexCount {F : Type} (VIF_FACE_DOUBLE_SIDED : Nat) (cs : List (VifChunk F)) : Nat :=
  (cs.flatMap (chunkIndices VIF_FACE_DOUBLE_SIDED)).length

/-- The number of vertices of a list of chunks. -/
def vertexCount {F : Type} (cs : List (VifChunk F)) : Nat :=
  (cs.map (fun chunk => chunk.num_vecs)).sum

/-- The elements of `meshes_` for the levels `ms` when `start` indices and
`base` vertices precede them. -/
def meshesFrom {F : Type} (VIF_FACE_DOUBLE_SIDED : Nat) :
    Nat → Nat → List (VifMesh F) → List Mesh
  | _, _, [] => []
  | start, base, mesh :: rest =>
    ⟨batchesFrom VIF_FACE_DOUBLE_SIDED start base mesh.chunks⟩ ::
    meshesFrom VIF_FACE_DOUBLE_SIDED
      (start + indexCount VIF_FACE_DOUBLE_SIDED mesh.chunks)
      (base + vertexCount mesh.chunks) rest

/-- A small mesh for evaluation, with mask `0x20`: level 0 has a chunk of two
faces of which the first has the flag, and a chunk whose only face has it;
level 1 has a chunk of one face without the flag. -/
def sampleLodMesh : VifLodMesh Int :=
  ⟨[⟨[⟨4, fun _ => ⟨0, 0, 0⟩, fun _ => ⟨0, 0, 1⟩, fun _ => ⟨0, 0⟩,
        [⟨0, 1, 2, 0x20⟩, ⟨0, 2, 3, 0⟩], 5, 1⟩,
      ⟨3, fun _ => ⟨0, 0, 0⟩, fun _ => ⟨0, 0, 1⟩, fun _ => ⟨0, 0⟩,
        [⟨0, 1, 2, 0x20⟩], 6, 1⟩]⟩,
    ⟨[⟨3, fun _ => ⟨0, 0, 0⟩, fun _ => ⟨0, 0, 1⟩, fun _ => ⟨0, 0⟩,
        [⟨2, 1, 0, 0⟩], 5, 1⟩]⟩]⟩

end MeshRenderCache

end AsmWritterModel


/-! # Properties -/

namespace AsmWritterModel

/-! ## Memory lemmas -/

theorem toUInt8_lt (x : Int) : toUInt8 x < 256 := by
  unfold toUInt8; omega

theorem toUInt32_lt (x : Int) : toUInt32 x < 4294967296 := by
  unfold toUInt32; omega

theorem leBytes_length (n v : Nat) : (leBytes n v).length = n := by
  induction n generalizing v with
  | zero => rfl
  | succ n ih => simp [leBytes, ih]

theorem leBytes_four (v : Nat) :
    leBytes 4 v = [v % 256, v / 256 % 256, v / 256 / 256 % 256, v / 256 / 256 / 256 % 256] := rfl

theorem ofLeBytes_leBytes_four (v : Nat) (h : v < 4294967296) : ofLeBytes (leBytes 4 v) = v := by
  simp only [leBytes_four, ofLeBytes]
  omega

theorem signExtend32_toUInt32 (v : Int) (h1 : -2147483648 ≤ v) (h2 : v < 2147483648) :
    signExtend32 (toUInt32 v) = v := by
  unfold signExtend32 toUInt32
  split_ifs <;> omega

theorem signExtend8_toUInt8 (v : Int) (h1 : -128 ≤ v) (h2 : v < 128) :
    signExtend8 (toUInt8 v) = v := by
  unfold signExtend8 toUInt8
  split_ifs <;> omega

theorem WriteMem_stores (bs : List Nat) (m : Memory) (a : Nat) :
    (WriteMem m a bs).stores = m.stores ++ storesAt a bs := by
  induction bs generalizing m a with
  | nil => simp [WriteMem, storesAt]
  | cons b bs ih => simp [WriteMem, storesAt, ih, Memory.store]

theorem WriteMem_mod (bs : List Nat) (m : Memory) (a : Nat) :
    WriteMem m (a % 4294967296) bs = WriteMem m a bs := by
  induction bs generalizing m a with
  | nil => rfl
  | cons b bs ih =>
    simp only [WriteMem, Nat.mod_mod]
    rw [← ih _ (a % 4294967296 + 1), ← ih _ (a + 1)]
    congr 1
    omega

/-- A byte that none of the stores of `WriteMem` addresses keeps its value. -/
theorem WriteMem_bytes_frame (bs : List Nat) (m : Memory) (a x : Nat)
    (h : ∀ j, j < bs.length → (a + j) % 4294967296 ≠ x) :
    (WriteMem m a bs).bytes x = m.bytes x := by
  induction bs generalizing m a with
  | nil => rfl
  | cons b bs ih =>
    simp only [WriteMem]
    rw [ih]
    · have h0 := h 0 (by simp)
      simp only [Nat.add_zero] at h0
      simp [Memory.store, Ne.symm h0]
    · intro j hj
      have := h (j + 1) (by simpa using hj)
      rwa [Nat.add_assoc, Nat.add_comm 1 j]

/-- Reading back what `WriteMem` wrote. -/
theorem WriteMem_read (bs : List Nat) (m : Memory) (a : Nat) (hlen : bs.length ≤ 4294967296) :
    (WriteMem m a bs).read a bs.length = bs.map (fun b => b % 256) := by
  induction bs generalizing m a with
  | nil => rfl
  | cons b bs ih =>
    simp only [List.length_cons] at hlen
    simp only [WriteMem, List.length_cons, Memory.read, List.map_cons]
    rw [ih _ _ (by omega), WriteMem_bytes_frame]
    · simp [Memory.store]
    · intro j hj
      omega

/-- Reading a range that `WriteMem` does not touch. -/
theorem WriteMem_read_frame (bs : List Nat) (m : Memory) (a x n : Nat)
    (h : ∀ i j, i < n → j < bs.length → (a + j) % 4294967296 ≠ (x + i) % 4294967296) :
    (WriteMem m a bs).read x n = m.read x n := by
  induction n generalizing x with
  | zero => rfl
  | succ n ih =>
    simp only [Memory.read]
    rw [ih, WriteMem_bytes_frame]
    · intro j hj
      have := h 0 j (by omega) hj
      simpa using this
    · intro i j hi hj
      have := h (i + 1) j (by omega) hj
      rwa [Nat.add_assoc, Nat.add_comm 1 i]

namespace AsmWritter

/-! ## The cursor and the stores of `emit` -/

theorem putUInt8_eq (w : AsmWritter) (v : Nat) :
    w.putUInt8 v = { w with mem := WriteMem w.mem w.m_addr [v % 256],
                            m_addr := (w.m_addr + 1) % 4294967296 } := rfl

theorem putInt8_eq_putUInt8 (w : AsmWritter) (v : Int) : w.putInt8 v = w.putUInt8 (toUInt8 v) := by
  have := toUInt8_lt v
  simp [putInt8, putUInt8, WriteMemInt8, WriteMemUInt8, Nat.mod_eq_of_lt this]

theorem emit_m_endAddr (bs : List Nat) (w : AsmWritter) : (w.emit bs).m_endAddr = w.m_endAddr := by
  induction bs generalizing w with
  | nil => rfl
  | cons b bs ih => simp [emit, ih, putUInt8]

theorem emit_append (xs ys : List Nat) (w : AsmWritter) :
    w.emit (xs ++ ys) = (w.emit xs).emit ys := by
  induction xs generalizing w with
  | nil => rfl
  | cons b bs ih => simp [emit, ih]

/-- Storing a byte string with `WriteMem` at the cursor and advancing the cursor
by its length is the same as storing its bytes one by one. -/
theorem emit_eq_WriteMem (bs : List Nat) (w : AsmWritter) (h : w.m_addr < 4294967296) :
    w.emit bs = { w with mem := WriteMem w.mem w.m_addr bs,
                         m_addr := (w.m_addr + bs.length) % 4294967296 } := by
  induction bs generalizing w with
  | nil =>
    cases w
    simp only [emit, WriteMem, List.length_nil, Nat.add_zero] at *
    simp [Nat.mod_eq_of_lt h]
  | cons b bs ih =>
    have h1 : (w.putUInt8 b).m_addr < 4294967296 := by
      simp only [putUInt8]; omega
    rw [emit, ih _ h1]
    simp only [putUInt8, WriteMemUInt8, WriteMem, Nat.mod_mod, List.length_cons, WriteMem_mod]
    congr 1
    omega

theorem emit_m_addr (bs : List Nat) (w : AsmWritter) (h : w.m_addr < 4294967296) :
    (w.emit bs).m_addr = (w.m_addr + bs.length) % 4294967296 := by
  rw [emit_eq_WriteMem bs w h]

theorem emit_m_addr_lt (bs : List Nat) (w : AsmWritter) (h : w.m_addr < 4294967296) :
    (w.emit bs).m_addr < 4294967296 := by
  rw [emit_m_addr bs w h]; omega

theorem emit_stores (bs : List Nat) (w : AsmWritter) (h : w.m_addr < 4294967296) :
    (w.emit bs).mem.stores = w.mem.stores ++ storesAt w.m_addr bs := by
  rw [emit_eq_WriteMem bs w h]
  exact WriteMem_stores _ _ _

theorem emit_read (bs : List Nat) (w : AsmWritter) (h : w.m_addr < 4294967296)
    (hlen : bs.length ≤ 4294967296) :
    (w.emit bs).mem.read w.m_addr bs.length = bs.map (fun b => b % 256) := by
  rw [emit_eq_WriteMem bs w h]
  exact WriteMem_read _ _ _ hlen

theorem emit_bytes_frame (bs : List Nat) (w : AsmWritter) (h : w.m_addr < 4294967296) (x : Nat)
    (hx : ∀ j, j < bs.length → (w.m_addr + j) % 4294967296 ≠ x) :
    (w.emit bs).mem.bytes x = w.mem.bytes x := by
  rw [emit_eq_WriteMem bs w h]
  exact WriteMem_bytes_frame _ _ _ _ hx

/-! ## Cursor and written bytes -/

/-- C1 (defect of the code): the cursor falls behind the bytes written. At
cursor 0x1000, `movEaxMemEsp32(0x11223344)` stores the seven bytes
`8B 84 24 44 33 22 11` at 0x1000..0x1006 and leaves the cursor at 0x1004;
`mov(EAX, [EBX + 0x1000])` (ModRM with mod = 2) stores six bytes and leaves the
cursor at 0x1003; `mov(EAX, [0x12345678])` (no base register) does the same.
For every state and operand `movEaxMemEsp32` performs seven stores and moves
the cursor by four. -/
theorem C1_cursor_behind_written_bytes :
    (((create Memory.zero 0x1000 UNK_END_ADDR).movEaxMemEsp32 0x11223344).mem.stores
        = [(0x1000, 0x8B), (0x1001, 0x84), (0x1002, 0x24), (0x1003, 0x44),
           (0x1004, 0x33), (0x1005, 0x22), (0x1006, 0x11)]
      ∧ ((create Memory.zero 0x1000 UNK_END_ADDR).movEaxMemEsp32 0x11223344).m_addr = 0x1004)
    ∧ (((create Memory.zero 0x1000 UNK_END_ADDR).movRegRm AsmRegs.EAX
          ⟨true, some AsmRegs.EBX.toAsmReg, 0x1000⟩).mem.stores
        = [(0x1000, 0x8B), (0x1001, 0x83), (0x1002, 0x00), (0x1003, 0x10),
           (0x1004, 0x00), (0x1005, 0x00)]
      ∧ ((create Memory.zero 0x1000 UNK_END_ADDR).movRegRm AsmRegs.EAX
          ⟨true, some AsmRegs.EBX.toAsmReg, 0x1000⟩).m_addr = 0x1003)
    ∧ (((create Memory.zero 0x1000 UNK_END_ADDR).movRegRm AsmRegs.EAX
          ⟨true, none, 0x12345678⟩).mem.stores
        = [(0x1000, 0x8B), (0x1001, 0x05), (0x1002, 0x78), (0x1003, 0x56),
           (0x1004, 0x34), (0x1005, 0x12)]
      ∧ ((create Memory.zero 0x1000 UNK_END_ADDR).movRegRm AsmRegs.EAX
          ⟨true, none, 0x12345678⟩).m_addr = 0x1003)
    ∧ (∀ (w : AsmWritter) (off : Int),
        (w.movEaxMemEsp32 off).mem.stores.length = w.mem.stores.length + 7
        ∧ (w.movEaxMemEsp32 off).m_addr = (w.m_addr + 4) % 4294967296) := by
  refine ⟨by decide, by decide, by decide, ?_⟩
  intro w off
  constructor
  · simp [movEaxMemEsp32, putUInt8, WriteMemUInt8, WriteMemInt32, WriteMem_stores, storesAt,
      leBytes_four]
  · simp only [movEaxMemEsp32, putUInt8]
    omega

/-! ## Relative branches -/

theorem toUInt32_signExtend32 (n : Nat) (h : n < 4294967296) : toUInt32 (signExtend32 n) = n := by
  unfold toUInt32 signExtend32
  split_ifs <;> omega

/-- A store of an opcode byte at the cursor followed by a store of a 32-bit
value right after it and an advance of the cursor by five. -/
theorem opcode_rel32_eq_emit (w : AsmWritter) (op : Nat) (d : Nat) (ha : w.m_addr < 4294967296)
    (hd : d < 4294967296) :
    ({ w with mem := WriteMemInt32 (WriteMemUInt8 w.mem w.m_addr op)
                ((w.m_addr + 1) % 4294967296) (signExtend32 d),
              m_addr := (w.m_addr + 5) % 4294967296 } : AsmWritter)
      = w.emit (op :: leBytes 4 d) := by
  rw [emit_eq_WriteMem _ _ ha]
  simp only [WriteMemInt32, WriteMemUInt8, toUInt32_signExtend32 d hd]
  rw [WriteMem_mod]
  simp only [WriteMem, Nat.mod_mod, List.length_cons, leBytes_length]

theorem jmpLong_eq_emit (w : AsmWritter) (t : Nat) (ha : w.m_addr < 4294967296)
    (ht : t < 4294967296) :
    w.jmpLong t
      = w.emit (0xE9 :: leBytes 4 ((t + 4294967296 - (w.m_addr + 5) % 4294967296) % 4294967296)) := by
  rw [← opcode_rel32_eq_emit w 0xE9 _ ha (Nat.mod_lt _ (by decide))]
  simp only [jmpLong, Nat.mod_eq_of_lt ht]

theorem callLong_eq_emit (w : AsmWritter) (t : Nat) (ha : w.m_addr < 4294967296)
    (ht : t < 4294967296) :
    w.callLong t
      = w.emit (0xE8 :: leBytes 4 ((t + 4294967296 - (w.m_addr + 5) % 4294967296) % 4294967296)) := by
  rw [← opcode_rel32_eq_emit w 0xE8 _ ha (Nat.mod_lt _ (by decide))]
  simp only [callLong, Nat.mod_eq_of_lt ht]

theorem leBytes_map_mod (n v : Nat) : (leBytes n v).map (fun b => b % 256) = leBytes n v := by
  induction n generalizing v with
  | zero => rfl
  | succ n ih => simp [leBytes, ih]

/-- C2: at cursor `a`, `jmpLong(t)` stores `E9` and `callLong(t)` stores `E8` at
`a`, followed at `a + 1` by the four little-endian bytes of
`d = (t - (a + 5)) mod 2^32`, nothing else, and moves the cursor to `a + 5`
(modulo `2^32`, and exactly `a + 5` when that is an address); the bytes decode
to a `jmp` / `call` of length 5 whose destination `(a + 5 + d) mod 2^32` is
`t`. -/
theorem C2_jmpLong_callLong_exact (w : AsmWritter) (t : Nat) (ha : w.m_addr < 4294967296)
    (ht : t < 4294967296) :
    (w.jmpLong t).mem.stores = w.mem.stores ++ storesAt w.m_addr
        (0xE9 :: leBytes 4 ((t + 4294967296 - (w.m_addr + 5) % 4294967296) % 4294967296))
    ∧ (w.jmpLong t).mem.read w.m_addr 5
        = 0xE9 :: leBytes 4 ((t + 4294967296 - (w.m_addr + 5) % 4294967296) % 4294967296)
    ∧ (w.jmpLong t).m_addr = (w.m_addr + 5) % 4294967296
    ∧ (w.callLong t).mem.stores = w.mem.stores ++ storesAt w.m_addr
        (0xE8 :: leBytes 4 ((t + 4294967296 - (w.m_addr + 5) % 4294967296) % 4294967296))
    ∧ (w.callLong t).mem.read w.m_addr 5
        = 0xE8 :: leBytes 4 ((t + 4294967296 - (w.m_addr + 5) % 4294967296) % 4294967296)
    ∧ (w.callLong t).m_addr = (w.m_addr + 5) % 4294967296
    ∧ (w.m_addr + 5 < 4294967296 → (w.jmpLong t).m_addr = w.m_addr + 5
        ∧ (w.callLong t).m_addr = w.m_addr + 5)
    ∧ ofLeBytes (leBytes 4 ((t + 4294967296 - (w.m_addr + 5) % 4294967296) % 4294967296))
        = (t + 4294967296 - (w.m_addr + 5) % 4294967296) % 4294967296
    ∧ (w.m_addr + 5 + (t + 4294967296 - (w.m_addr + 5) % 4294967296) % 4294967296) % 4294967296 = t
    ∧ decode ((w.jmpLong t).mem.read w.m_addr 5)
        = some (⟨.jmp, [.rel (signExtend32
            ((t + 4294967296 - (w.m_addr + 5) % 4294967296) % 4294967296))]⟩, 5)
    ∧ decode ((w.callLong t).mem.read w.m_addr 5)
        = some (⟨.call, [.rel (signExtend32
            ((t + 4294967296 - (w.m_addr + 5) % 4294967296) % 4294967296))]⟩, 5)
    ∧ branchTarget w.m_addr 5
        (signExtend32 ((t + 4294967296 - (w.m_addr + 5) % 4294967296) % 4294967296)) = t := by
  have hd : (t + 4294967296 - (w.m_addr + 5) % 4294967296) % 4294967296 < 4294967296 :=
    Nat.mod_lt _ (by decide)
  generalize hdd : (t + 4294967296 - (w.m_addr + 5) % 4294967296) % 4294967296 = d at hd
  have hj := jmpLong_eq_emit w t ha ht
  have hc := callLong_eq_emit w t ha ht
  rw [hdd] at hj hc
  have hrj : (w.jmpLong t).mem.read w.m_addr 5 = 0xE9 :: leBytes 4 d := by
    have := emit_read (0xE9 :: leBytes 4 d) w ha (by simp [leBytes_length])
    simpa [leBytes_length, leBytes_map_mod, hj] using this
  have hrc : (w.callLong t).mem.read w.m_addr 5 = 0xE8 :: leBytes 4 d := by
    have := emit_read (0xE8 :: leBytes 4 d) w ha (by simp [leBytes_length])
    simpa [leBytes_length, leBytes_map_mod, hc] using this
  have hval := ofLeBytes_leBytes_four d hd
  have hmj : (w.jmpLong t).m_addr = (w.m_addr + 5) % 4294967296 := by
    rw [hj, emit_m_addr _ _ ha]; simp [leBytes_length]
  have hmc : (w.callLong t).m_addr = (w.m_addr + 5) % 4294967296 := by
    rw [hc, emit_m_addr _ _ ha]; simp [leBytes_length]
  refine ⟨?_, hrj, hmj, ?_, hrc, hmc, ?_, hval, ?_, ?_, ?_, ?_⟩
  · rw [hj, emit_stores _ _ ha]
  · rw [hc, emit_stores _ _ ha]
  · intro h
    rw [hmj, hmc, Nat.mod_eq_of_lt h]
    exact ⟨rfl, rfl⟩
  · omega
  · rw [hrj]
    have h4 := leBytes_four d
    simp only [h4, decode, decodeOpcode, decodeImm, decodeImm32] at hval ⊢
    simp [hval]
  · rw [hrc]
    have h4 := leBytes_four d
    simp only [h4, decode, decodeOpcode, decodeImm, decodeImm32] at hval ⊢
    simp [hval]
  · unfold branchTarget signExtend32
    split_ifs <;> omega

/-- C2 at a concrete input: a jump and a call from 0x401000 to 0x400000. -/
theorem C2_jmpLong_callLong_exact_witness :
    (create Memory.zero 0x401000 UNK_END_ADDR).m_addr < 4294967296
    ∧ 0x400000 < 4294967296
    ∧ ((create Memory.zero 0x401000 UNK_END_ADDR).jmpLong 0x400000).mem.read 0x401000 5
        = [0xE9, 0xFB, 0xEF, 0xFF, 0xFF]
    ∧ ((create Memory.zero 0x401000 UNK_END_ADDR).callLong 0x400000).mem.read 0x401000 5
        = [0xE8, 0xFB, 0xEF, 0xFF, 0xFF]
    ∧ ((create Memory.zero 0x401000 UNK_END_ADDR).jmpLong 0x400000).m_addr = 0x401005
    ∧ branchTarget 0x401000 5 (signExtend32 0xFFFFEFFB) = 0x400000 := by
  have h := C2_jmpLong_callLong_exact (create Memory.zero 0x401000 UNK_END_ADDR) 0x400000
    (by decide) (by decide)
  refine ⟨by decide, by decide, ?_, ?_, ?_, ?_⟩
  · exact h.2.1
  · exact h.2.2.2.2.1
  · exact h.2.2.1
  · exact h.2.2.2.2.2.2.2.2.2.2.2

theorem jmpNear_eq_emit (w : AsmWritter) (t : Nat) (ha : w.m_addr < 4294967296)
    (ht : t < 4294967296) :
    w.jmpNear t
      = w.emit [0xEB, (t + 4294967296 - (w.m_addr + 2) % 4294967296) % 4294967296 % 256] := by
  rw [emit_eq_WriteMem _ _ ha]
  simp only [jmpNear, WriteMemInt8, WriteMemUInt8, Nat.mod_eq_of_lt ht]
  rw [WriteMem_mod]
  have h8 : ∀ n : Nat, toUInt8 (n : Int) = n % 256 := by
    intro n; unfold toUInt8; omega
  simp only [WriteMem, Nat.mod_mod, List.length_cons, List.length_nil, h8]

/-- C3 fails for a target out of reach of an 8-bit displacement: at cursor
0x1000, `jmpNear(0x2000)` stores `EB FE`, a jump whose destination is 0x1000
(the jump itself) and not 0x2000. -/
theorem C3_jmpNear_far_target_counterexample :
    ((create Memory.zero 0x1000 UNK_END_ADDR).jmpNear 0x2000).mem.read 0x1000 2 = [0xEB, 0xFE]
    ∧ decode (((create Memory.zero 0x1000 UNK_END_ADDR).jmpNear 0x2000).mem.read 0x1000 2)
        = some (⟨.jmp, [.rel (-2)]⟩, 2)
    ∧ branchTarget 0x1000 2 (-2) = 0x1000
    ∧ branchTarget 0x1000 2 (-2) ≠ 0x2000 := by
  decide

/-- C3 as amended: at cursor `a`, `jmpNear(t)` stores `EB` at `a` and at `a + 1`
the low byte `d` of `D = (t - (a + 2)) mod 2^32`, nothing else, and moves the
cursor to `a + 2`; the two bytes decode to a `jmp` of length 2, and its
destination `(a + 2 + signExtend(d)) mod 2^32` equals `t` exactly when `D`, read
as a signed 32-bit value, lies in `[-128, 127]`. -/
theorem C3_jmpNear_exact_iff_in_range (w : AsmWritter) (t : Nat) (ha : w.m_addr < 4294967296)
    (ht : t < 4294967296) :
    (w.jmpNear t).mem.stores = w.mem.stores ++ storesAt w.m_addr
        [0xEB, (t + 4294967296 - (w.m_addr + 2) % 4294967296) % 4294967296 % 256]
    ∧ (w.jmpNear t).mem.read w.m_addr 2
        = [0xEB, (t + 4294967296 - (w.m_addr + 2) % 4294967296) % 4294967296 % 256]
    ∧ (w.jmpNear t).m_addr = (w.m_addr + 2) % 4294967296
    ∧ decode ((w.jmpNear t).mem.read w.m_addr 2)
        = some (⟨.jmp, [.rel (signExtend8
            ((t + 4294967296 - (w.m_addr + 2) % 4294967296) % 4294967296 % 256))]⟩, 2)
    ∧ (branchTarget w.m_addr 2 (signExtend8
          ((t + 4294967296 - (w.m_addr + 2) % 4294967296) % 4294967296 % 256)) = t
        ↔ (-128 ≤ signExtend32 ((t + 4294967296 - (w.m_addr + 2) % 4294967296) % 4294967296)
            ∧ signExtend32 ((t + 4294967296 - (w.m_addr + 2) % 4294967296) % 4294967296) ≤ 127)) := by
  have hj := jmpNear_eq_emit w t ha ht
  have hr : (w.jmpNear t).mem.read w.m_addr 2
      = [0xEB, (t + 4294967296 - (w.m_addr + 2) % 4294967296) % 4294967296 % 256] := by
    have := emit_read [0xEB, (t + 4294967296 - (w.m_addr + 2) % 4294967296) % 4294967296 % 256]
      w ha (by simp)
    simpa [hj] using this
  refine ⟨?_, hr, ?_, ?_, ?_⟩
  · rw [hj, emit_stores _ _ ha]
  · rw [hj, emit_m_addr _ _ ha]; rfl
  · rw [hr]
    simp [decode, decodeOpcode, decodeImm8]
  · unfold branchTarget signExtend8 signExtend32
    split_ifs <;> constructor <;> intro h <;> omega

/-- C3 as amended, at a concrete input: a short jump from 0x1000 back to 0xFF0. -/
theorem C3_jmpNear_exact_iff_in_range_witness :
    (create Memory.zero 0x1000 UNK_END_ADDR).m_addr < 4294967296
    ∧ 0xFF0 < 4294967296
    ∧ ((create Memory.zero 0x1000 UNK_END_ADDR).jmpNear 0xFF0).mem.read 0x1000 2 = [0xEB, 0xEE]
    ∧ branchTarget 0x1000 2 (signExtend8 0xEE) = 0xFF0 :=
  ⟨by decide, by decide,
    (C3_jmpNear_exact_iff_in_range (create Memory.zero 0x1000 UNK_END_ADDR) 0xFF0
      (by decide) (by decide)).2.1,
    (C3_jmpNear_exact_iff_in_range (create Memory.zero 0x1000 UNK_END_ADDR) 0xFF0
      (by decide) (by decide)).2.2.2.2.2 (by decide)⟩

/-! ## The destructor -/

/-- The byte with offset `j` of a `WriteMem` of at most `2^32` bytes. -/
theorem WriteMem_bytes_hit (bs : List Nat) (m : Memory) (a j : Nat)
    (hlen : bs.length ≤ 4294967296) (hj : j < bs.length) :
    (WriteMem m a bs).bytes ((a + j) % 4294967296) = bs.getD j 0 % 256 := by
  induction bs generalizing m a j with
  | nil => simp at hj
  | cons b bs ih =>
    simp only [List.length_cons] at hlen hj
    cases j with
    | zero =>
      simp only [WriteMem, Nat.add_zero, List.getD_cons_zero]
      rw [WriteMem_bytes_frame]
      · simp [Memory.store]
      · intro i hi
        omega
    | succ j =>
      simp only [WriteMem, List.getD_cons_succ]
      have := ih (m.store (a % 4294967296) (b % 256)) (a + 1) j (by omega) (by omega)
      rwa [Nat.add_assoc, Nat.add_comm 1 j] at this

theorem padLoop_eq_emit (n : Nat) (fuel : Nat) (w : AsmWritter)
    (hn : w.m_endAddr - w.m_addr = n) (hle : w.m_addr ≤ w.m_endAddr)
    (hbound : w.m_endAddr < 4294967296) (hfuel : n ≤ fuel) :
    padLoop fuel w = .ok (w.emit (List.replicate n 0x90)) := by
  induction n generalizing fuel w with
  | zero =>
    have : ¬ w.m_addr < w.m_endAddr := by omega
    cases fuel <;> simp [padLoop, this, emit]
  | succ n ih =>
    have hlt : w.m_addr < w.m_endAddr := by omega
    cases fuel with
    | zero => omega
    | succ f =>
      have h1 : w.nop.m_addr = w.m_addr + 1 := by
        simp only [nop, putUInt8]; omega
      have h2 : w.nop.m_endAddr = w.m_endAddr := rfl
      have := ih f w.nop (by rw [h1, h2]; omega) (by rw [h1, h2]; omega) (by rw [h2]; exact hbound)
        (by omega)
      simp only [padLoop, hlt, if_true, List.replicate_succ, emit]
      exact this

/-- C5: destroying a writer whose end bound `e` is known, with cursor `c ≤ e`
and fuel for `e - c` iterations, returns; the destructor performs exactly
`e - c` stores, the byte `90` at each of `c, c + 1, …, e - 1` in this order;
afterwards every byte of `[c, e)` is `90`, every byte outside `[c, e)` is
unchanged, the cursor is `e` and the end bound is unchanged. -/
theorem C5_destructor_pads_with_nops (w : AsmWritter) (fuel : Nat)
    (hend : w.m_endAddr ≠ UNK_END_ADDR) (hbound : w.m_endAddr < 4294967296)
    (hle : w.m_addr ≤ w.m_endAddr) (hfuel : w.m_endAddr - w.m_addr ≤ fuel) :
    ∃ w', destroy fuel w = .ok w'
      ∧ w'.mem.stores = w.mem.stores
          ++ storesAt w.m_addr (List.replicate (w.m_endAddr - w.m_addr) 0x90)
      ∧ (storesAt w.m_addr (List.replicate (w.m_endAddr - w.m_addr) 0x90)).length
          = w.m_endAddr - w.m_addr
      ∧ (∀ x, w.m_addr ≤ x → x < w.m_endAddr → w'.mem.bytes x = 0x90)
      ∧ (∀ x, (x < w.m_addr ∨ w.m_endAddr ≤ x) → w'.mem.bytes x = w.mem.bytes x)
      ∧ w'.m_addr = w.m_endAddr
      ∧ w'.m_endAddr = w.m_endAddr := by
  have ha : w.m_addr < 4294967296 := by omega
  have hlen : (List.replicate (w.m_endAddr - w.m_addr) 0x90).length = w.m_endAddr - w.m_addr :=
    List.length_replicate _ _
  refine ⟨w.emit (List.replicate (w.m_endAddr - w.m_addr) 0x90), ?_, ?_, ?_, ?_, ?_, ?_, ?_⟩
  · simp only [destroy, hend, ne_eq, not_false_eq_true, if_true, hle]
    exact padLoop_eq_emit _ fuel w rfl hle hbound hfuel
  · exact emit_stores _ _ ha
  · generalize w.m_endAddr - w.m_addr = n
    generalize w.m_addr = a
    induction n generalizing a with
    | zero => rfl
    | succ n ih => simp [List.replicate_succ, storesAt, ih]
  · intro x h1 h2
    rw [emit_eq_WriteMem _ _ ha]
    have := WriteMem_bytes_hit (List.replicate (w.m_endAddr - w.m_addr) 0x90) w.mem w.m_addr
      (x - w.m_addr) (by rw [hlen]; omega) (by rw [hlen]; omega)
    rw [show w.m_addr + (x - w.m_addr) = x by omega, Nat.mod_eq_of_lt (by omega)] at this
    rw [this, List.getD_eq_getElem?_getD, List.getElem?_replicate]
    simp [show x - w.m_addr < w.m_endAddr - w.m_addr by omega]
  · intro x hx
    apply emit_bytes_frame _ _ ha
    intro j hj
    rw [hlen] at hj
    rw [Nat.mod_eq_of_lt (by omega)]
    omega
  · rw [emit_m_addr _ _ ha, hlen, Nat.mod_eq_of_lt (by omega)]
    omega
  · exact emit_m_endAddr _ _

/-- C5 at a concrete input: a writer for `[0x1000, 0x1008)` destroyed with its
cursor at 0x1005. -/
theorem C5_destructor_pads_with_nops_witness :
    (0x1008 : Nat) ≠ UNK_END_ADDR ∧ (0x1008 : Nat) < 4294967296 ∧ (0x1005 : Nat) ≤ 0x1008
    ∧ (0x1008 : Nat) - 0x1005 ≤ 3
    ∧ ∃ w', destroy 3 ⟨0x1005, 0x1008, Memory.zero⟩ = .ok w'
      ∧ w'.mem.stores = [(0x1005, 0x90), (0x1006, 0x90), (0x1007, 0x90)]
      ∧ w'.m_addr = 0x1008 := by
  refine ⟨by decide, by decide, by decide, by decide, ?_⟩
  obtain ⟨w', h1, h2, _, _, _, h6, _⟩ :=
    C5_destructor_pads_with_nops ⟨0x1005, 0x1008, Memory.zero⟩ 3 (by decide) (by decide)
      (by decide) (by decide)
  exact ⟨w', h1, by simpa [Memory.zero, storesAt] using h2, h6⟩

/-- C4 (defect of the code): a scoped writer for `[0x1000, 0x1007)` that emits
the single instruction `movEaxMemEsp32(0x11223344)`, whose encoding
`8B 84 24 44 33 22 11` is seven bytes long and is in memory right after the
call. The cursor is left at 0x1004, so the destructor stores three `90` bytes
over the last three bytes of the instruction: the region ends up as
`8B 84 24 44 90 90 90`, which decodes to a `mov` with another displacement. -/
theorem C4_padding_overwrites_instruction :
    ((create Memory.zero 0x1000 0x1007).movEaxMemEsp32 0x11223344).mem.read 0x1000 7
        = [0x8B, 0x84, 0x24, 0x44, 0x33, 0x22, 0x11]
    ∧ ((create Memory.zero 0x1000 0x1007).movEaxMemEsp32 0x11223344).m_addr = 0x1004
    ∧ (∃ w', destroy 3 ((create Memory.zero 0x1000 0x1007).movEaxMemEsp32 0x11223344) = .ok w'
        ∧ w'.mem.read 0x1000 7 = [0x8B, 0x84, 0x24, 0x44, 0x90, 0x90, 0x90]
        ∧ w'.mem.read 0x1000 7 ≠ [0x8B, 0x84, 0x24, 0x44, 0x33, 0x22, 0x11]
        ∧ decode (w'.mem.read 0x1000 7)
            = some (⟨.mov, [.reg 4 0, .mem (some 4) none (-1869574076)]⟩, 7))
    ∧ decode [0x8B, 0x84, 0x24, 0x44, 0x33, 0x22, 0x11]
        = some (⟨.mov, [.reg 4 0, .mem (some 4) none 0x11223344]⟩, 7) := by
  refine ⟨by decide, by decide, ⟨_, rfl, by decide, by decide, by decide⟩, by decide⟩

/-! ## Round trips through the reference decoder -/

/-- C6 (defect of the code): a memory operand with base `EBP` and displacement
0. At cursor 0x1000, `mov(EAX, AsmRegMem(true, EBP, 0))` stores the two bytes
`8B 05` and `mov(AsmRegMem(true, EBP, 0), EAX)` the two bytes `89 05`: ModRM
has mod = 0 and rm = 5, which the decoding rules read as an absolute 32-bit
address taken from the next four bytes, never as `[EBP]`, whatever bytes
follow. -/
theorem C6_ebp_zero_displacement_decodes_absolute :
    ((create Memory.zero 0x1000 UNK_END_ADDR).movRegRm AsmRegs.EAX
        ⟨true, some AsmRegs.EBP.toAsmReg, 0⟩).mem.stores = [(0x1000, 0x8B), (0x1001, 0x05)]
    ∧ ((create Memory.zero 0x1000 UNK_END_ADDR).movRegRm AsmRegs.EAX
        ⟨true, some AsmRegs.EBP.toAsmReg, 0⟩).m_addr = 0x1002
    ∧ decode (((create Memory.zero 0x1000 UNK_END_ADDR).movRegRm AsmRegs.EAX
        ⟨true, some AsmRegs.EBP.toAsmReg, 0⟩).mem.read 0x1000 6)
        = some (⟨.mov, [.reg 4 0, .mem none none 0]⟩, 6)
    ∧ ((create Memory.zero 0x1000 UNK_END_ADDR).movRmReg
        ⟨true, some AsmRegs.EBP.toAsmReg, 0⟩ AsmRegs.EAX).mem.stores
        = [(0x1000, 0x89), (0x1001, 0x05)]
    ∧ decode (((create Memory.zero 0x1000 UNK_END_ADDR).movRmReg
        ⟨true, some AsmRegs.EBP.toAsmReg, 0⟩ AsmRegs.EAX).mem.read 0x1000 6)
        = some (⟨.mov, [.mem none none 0, .reg 4 0]⟩, 6)
    ∧ (∀ (rest : List Nat) (n : Nat),
        decode (0x8B :: 0x05 :: rest) ≠ some (⟨.mov, [.reg 4 0, .mem (some 5) none 0]⟩, n)
        ∧ decode (0x89 :: 0x05 :: rest) ≠ some (⟨.mov, [.mem (some 5) none 0, .reg 4 0]⟩, n)) := by
  refine ⟨by decide, by decide, by decide, by decide, by decide, ?_⟩
  intro rest n
  constructor <;>
  · intro h
    simp [decode, decodeOpcode, decodeModRM] at h

/-- C7 (defect of the code): at cursor 0x1000, `xor_(EAX, ECX)` stores the two
bytes `33 C8`. Opcode `33` is `xor r32, r/m32`, whose destination is the `reg`
field of ModRM, and the code puts the source register there: the bytes decode
to `xor ecx, eax`, not to `xor eax, ecx`. -/
theorem C7_xor_operands_swapped :
    ((create Memory.zero 0x1000 UNK_END_ADDR).xor_ AsmRegs.EAX AsmRegs.ECX).mem.stores
        = [(0x1000, 0x33), (0x1001, 0xC8)]
    ∧ decode (((create Memory.zero 0x1000 UNK_END_ADDR).xor_ AsmRegs.EAX AsmRegs.ECX).mem.read
        0x1000 2) = some (⟨.xor, [.reg 4 AsmRegs.ECX.regNum, .reg 4 AsmRegs.EAX.regNum]⟩, 2)
    ∧ decode (((create Memory.zero 0x1000 UNK_END_ADDR).xor_ AsmRegs.EAX AsmRegs.ECX).mem.read
        0x1000 2) ≠ some (⟨.xor, [.reg 4 AsmRegs.EAX.regNum, .reg 4 AsmRegs.ECX.regNum]⟩, 2) := by
  decide

/-- C8 (defect of the code): at cursor 0x1000, `add(AsmRegMem(true, EAX, 0x1000), 5)`
stores `83 80` and the displacement `00 10 00 00` at 0x1002..0x1005, moves the
cursor to 0x1003 only, and stores the immediate `05` at 0x1003, inside the
displacement: memory holds `83 80 00 05 00 00`, which decodes to
`add [eax + 0x500], 0`. And `add(AsmRegMem(true, EBP, 0), 1)` stores `83 05 01`,
which decodes to an `add` on an absolute address, not on `[EBP]`. -/
theorem C8_add_memory_operand_misencoded :
    ((create Memory.zero 0x1000 UNK_END_ADDR).add
        ⟨true, some AsmRegs.EAX.toAsmReg, 0x1000⟩ 5).mem.stores
        = [(0x1000, 0x83), (0x1001, 0x80), (0x1002, 0x00), (0x1003, 0x10), (0x1004, 0x00),
           (0x1005, 0x00), (0x1003, 0x05)]
    ∧ ((create Memory.zero 0x1000 UNK_END_ADDR).add
        ⟨true, some AsmRegs.EAX.toAsmReg, 0x1000⟩ 5).m_addr = 0x1004
    ∧ ((create Memory.zero 0x1000 UNK_END_ADDR).add
        ⟨true, some AsmRegs.EAX.toAsmReg, 0x1000⟩ 5).mem.read 0x1000 7
        = [0x83, 0x80, 0x00, 0x05, 0x00, 0x00, 0x00]
    ∧ decode (((create Memory.zero 0x1000 UNK_END_ADDR).add
        ⟨true, some AsmRegs.EAX.toAsmReg, 0x1000⟩ 5).mem.read 0x1000 7)
        = some (⟨.add, [.mem (some 0) none 0x500, .imm 0]⟩, 7)
    ∧ decode [0x83, 0x80, 0x00, 0x10, 0x00, 0x00, 0x05]
        = some (⟨.add, [.mem (some 0) none 0x1000, .imm 5]⟩, 7)
    ∧ ((create Memory.zero 0x1000 UNK_END_ADDR).add
        ⟨true, some AsmRegs.EBP.toAsmReg, 0⟩ 1).mem.stores
        = [(0x1000, 0x83), (0x1001, 0x05), (0x1002, 0x01)]
    ∧ decode (((create Memory.zero 0x1000 UNK_END_ADDR).add
        ⟨true, some AsmRegs.EBP.toAsmReg, 0⟩ 1).mem.read 0x1000 7)
        = some (⟨.add, [.mem none none 1, .imm 0]⟩, 7) := by
  refine ⟨by decide, by decide, by decide, by decide, by decide, by decide, by decide⟩

theorem modrm_reg_reg (src dst : Nat) (hs : src < 8) (hd : dst < 8) :
    0xC0 ||| (src <<< 3) ||| dst = 192 + 8 * src + dst := by
  interval_cases src <;> interval_cases dst <;> rfl

theorem decodeModRM_reg (size src dst : Nat) (rest : List Nat) (hs : src < 8) (hd : dst < 8) :
    decodeModRM size ((192 + 8 * src + dst) :: rest) = some (src, .reg size dst, rest) := by
  have h1 : (192 + 8 * src + dst) / 64 % 4 = 3 := by omega
  have h2 : (192 + 8 * src + dst) / 8 % 8 = src := by omega
  have h3 : (192 + 8 * src + dst) % 8 = dst := by omega
  simp [decodeModRM, h1, h2, h3]

/-- What a sequence of byte stores at the cursor leaves behind. -/
theorem emit_facts (bs : List Nat) (w : AsmWritter) (ha : w.m_addr < 4294967296)
    (hlen : bs.length ≤ 4294967296) (hbs : ∀ b ∈ bs, b < 256) :
    (w.emit bs).mem.stores = w.mem.stores ++ storesAt w.m_addr bs
    ∧ (w.emit bs).mem.read w.m_addr bs.length = bs
    ∧ (w.emit bs).m_addr = (w.m_addr + bs.length) % 4294967296 := by
  refine ⟨emit_stores _ _ ha, ?_, emit_m_addr _ _ ha⟩
  rw [emit_read _ _ ha hlen]
  conv_rhs => rw [← List.map_id bs]
  apply List.map_congr_left
  intro b hb
  exact Nat.mod_eq_of_lt (hbs b hb)

/-- C9: for registers numbered 0..7, at cursor `a`: `mov(AsmReg32, AsmReg32)`
stores exactly `89 /r`, `mov(AsmReg16, AsmReg16)` exactly `66 89 /r` and
`mov(AsmReg8, AsmReg8)` exactly `88 /r`, where `/r` is the ModRM byte
`0xC0 | src << 3 | dst`; the cursor moves by 2, 3 and 2; the bytes decode to
`mov dst, src` with the same two registers and the width 4, 2 and 1; and `AH`,
`CH`, `DH`, `BH` have the register numbers 4, 5, 6, 7. -/
theorem C9_mov_reg_reg_roundtrip (w : AsmWritter) (ha : w.m_addr < 4294967296)
    (dst32 src32 : AsmReg32) (dst16 src16 : AsmReg16) (dst8 src8 : AsmReg8)
    (hd32 : dst32.regNum < 8) (hs32 : src32.regNum < 8)
    (hd16 : dst16.regNum < 8) (hs16 : src16.regNum < 8)
    (hd8 : dst8.regNum < 8) (hs8 : src8.regNum < 8) :
    ((w.mov32 dst32 src32).mem.stores = w.mem.stores
          ++ storesAt w.m_addr [0x89, 0xC0 ||| (src32.regNum <<< 3) ||| dst32.regNum]
      ∧ (w.mov32 dst32 src32).mem.read w.m_addr 2
          = [0x89, 0xC0 ||| (src32.regNum <<< 3) ||| dst32.regNum]
      ∧ (w.mov32 dst32 src32).m_addr = (w.m_addr + 2) % 4294967296
      ∧ decode ((w.mov32 dst32 src32).mem.read w.m_addr 2)
          = some (⟨.mov, [.reg 4 dst32.regNum, .reg 4 src32.regNum]⟩, 2))
    ∧ ((w.mov16 dst16 src16).mem.stores = w.mem.stores
          ++ storesAt w.m_addr [0x66, 0x89, 0xC0 ||| (src16.regNum <<< 3) ||| dst16.regNum]
      ∧ (w.mov16 dst16 src16).mem.read w.m_addr 3
          = [0x66, 0x89, 0xC0 ||| (src16.regNum <<< 3) ||| dst16.regNum]
      ∧ (w.mov16 dst16 src16).m_addr = (w.m_addr + 3) % 4294967296
      ∧ decode ((w.mov16 dst16 src16).mem.read w.m_addr 3)
          = some (⟨.mov, [.reg 2 dst16.regNum, .reg 2 src16.regNum]⟩, 3))
    ∧ ((w.mov8 dst8 src8).mem.stores = w.mem.stores
          ++ storesAt w.m_addr [0x88, 0xC0 ||| (src8.regNum <<< 3) ||| dst8.regNum]
      ∧ (w.mov8 dst8 src8).mem.read w.m_addr 2
          = [0x88, 0xC0 ||| (src8.regNum <<< 3) ||| dst8.regNum]
      ∧ (w.mov8 dst8 src8).m_addr = (w.m_addr + 2) % 4294967296
      ∧ decode ((w.mov8 dst8 src8).mem.read w.m_addr 2)
          = some (⟨.mov, [.reg 1 dst8.regNum, .reg 1 src8.regNum]⟩, 2))
    ∧ AsmRegs.AH.regNum = 4 ∧ AsmRegs.CH.regNum = 5 ∧ AsmRegs.DH.regNum = 6
    ∧ AsmRegs.BH.regNum = 7 := by
  refine ⟨?_, ?_, ?_, rfl, rfl, rfl, rfl⟩
  · have hm := modrm_reg_reg _ _ hs32 hd32
    have e : w.mov32 dst32 src32
        = w.emit [0x89, 0xC0 ||| (src32.regNum <<< 3) ||| dst32.regNum] := rfl
    obtain ⟨f1, f2, f3⟩ := emit_facts [0x89, 0xC0 ||| (src32.regNum <<< 3) ||| dst32.regNum] w ha
      (by simp) (by intro b hb; simp only [List.mem_cons, List.mem_singleton, hm] at hb
                    rcases hb with rfl | rfl | hb
                    · decide
                    · omega
                    · simp at hb)
    rw [e]
    refine ⟨f1, f2, f3, ?_⟩
    rw [show ([0x89, 0xC0 ||| (src32.regNum <<< 3) ||| dst32.regNum] : List Nat).length = 2
      from rfl] at f2
    rw [f2, hm]
    simp [decode, decodeOpcode, decodeModRM_reg _ _ _ _ hs32 hd32]
  · have hm := modrm_reg_reg _ _ hs16 hd16
    have e : w.mov16 dst16 src16
        = w.emit [0x66, 0x89, 0xC0 ||| (src16.regNum <<< 3) ||| dst16.regNum] := rfl
    obtain ⟨f1, f2, f3⟩ := emit_facts
      [0x66, 0x89, 0xC0 ||| (src16.regNum <<< 3) ||| dst16.regNum] w ha
      (by simp) (by intro b hb; simp only [List.mem_cons, List.mem_singleton, hm] at hb
                    rcases hb with rfl | rfl | rfl | hb
                    · decide
                    · decide
                    · omega
                    · simp at hb)
    rw [e]
    refine ⟨f1, f2, f3, ?_⟩
    rw [show ([0x66, 0x89, 0xC0 ||| (src16.regNum <<< 3) ||| dst16.regNum] : List Nat).length = 3
      from rfl] at f2
    rw [f2, hm]
    simp [decode, decodeOpcode, decodeModRM_reg _ _ _ _ hs16 hd16]
  · have hm := modrm_reg_reg _ _ hs8 hd8
    have e : w.mov8 dst8 src8
        = w.emit [0x88, 0xC0 ||| (src8.regNum <<< 3) ||| dst8.regNum] := rfl
    obtain ⟨f1, f2, f3⟩ := emit_facts [0x88, 0xC0 ||| (src8.regNum <<< 3) ||| dst8.regNum] w ha
      (by simp) (by intro b hb; simp only [List.mem_cons, List.mem_singleton, hm] at hb
                    rcases hb with rfl | rfl | hb
                    · decide
                    · omega
                    · simp at hb)
    rw [e]
    refine ⟨f1, f2, f3, ?_⟩
    rw [show ([0x88, 0xC0 ||| (src8.regNum <<< 3) ||| dst8.regNum] : List Nat).length = 2
      from rfl] at f2
    rw [f2, hm]
    simp [decode, decodeOpcode, decodeModRM_reg _ _ _ _ hs8 hd8]

/-- C9 at a concrete input: `mov ebx, ecx`, `mov dx, si` and `mov ah, bl` at
cursor 0x1000. -/
theorem C9_mov_reg_reg_roundtrip_witness :
    (create Memory.zero 0x1000 UNK_END_ADDR).m_addr < 4294967296
    ∧ AsmRegs.EBX.regNum < 8 ∧ AsmRegs.ECX.regNum < 8 ∧ AsmRegs.DX.regNum < 8
    ∧ AsmRegs.SI.regNum < 8 ∧ AsmRegs.AH.regNum < 8 ∧ AsmRegs.BL.regNum < 8
    ∧ decode (((create Memory.zero 0x1000 UNK_END_ADDR).mov32 AsmRegs.EBX AsmRegs.ECX).mem.read
        0x1000 2) = some (⟨.mov, [.reg 4 3, .reg 4 1]⟩, 2)
    ∧ decode (((create Memory.zero 0x1000 UNK_END_ADDR).mov16 AsmRegs.DX AsmRegs.SI).mem.read
        0x1000 3) = some (⟨.mov, [.reg 2 2, .reg 2 6]⟩, 3)
    ∧ decode (((create Memory.zero 0x1000 UNK_END_ADDR).mov8 AsmRegs.AH AsmRegs.BL).mem.read
        0x1000 2) = some (⟨.mov, [.reg 1 4, .reg 1 3]⟩, 2) :=
  ⟨by decide, by decide, by decide, by decide, by decide, by decide, by decide,
    (C9_mov_reg_reg_roundtrip (create Memory.zero 0x1000 UNK_END_ADDR) (by decide)
      AsmRegs.EBX AsmRegs.ECX AsmRegs.DX AsmRegs.SI AsmRegs.AH AsmRegs.BL
      (by decide) (by decide) (by decide) (by decide) (by decide) (by decide)).1.2.2.2,
    (C9_mov_reg_reg_roundtrip (create Memory.zero 0x1000 UNK_END_ADDR) (by decide)
      AsmRegs.EBX AsmRegs.ECX AsmRegs.DX AsmRegs.SI AsmRegs.AH AsmRegs.BL
      (by decide) (by decide) (by decide) (by decide) (by decide) (by decide)).2.1.2.2.2,
    (C9_mov_reg_reg_roundtrip (create Memory.zero 0x1000 UNK_END_ADDR) (by decide)
      AsmRegs.EBX AsmRegs.ECX AsmRegs.DX AsmRegs.SI AsmRegs.AH AsmRegs.BL
      (by decide) (by decide) (by decide) (by decide) (by decide) (by decide)).2.2.1.2.2.2⟩

theorem leBytes_lt (n v : Nat) : ∀ b ∈ leBytes n v, b < 256 := by
  induction n generalizing v with
  | zero => simp [leBytes]
  | succ n ih =>
    intro b hb
    simp only [leBytes, List.mem_cons] at hb
    rcases hb with rfl | hb
    · omega
    · exact ih _ b hb

theorem leBytes_two (v : Nat) : leBytes 2 v = [v % 256, v / 256 % 256] := rfl

theorem decodeImm32_leBytes (x : Nat) (hx : x < 4294967296) (rest : List Nat) :
    decodeImm32 (leBytes 4 x ++ rest) = some (signExtend32 x, rest) := by
  have h := ofLeBytes_leBytes_four x hx
  rw [leBytes_four] at h ⊢
  simp [decodeImm32, h]

theorem decodeImm16_leBytes (x : Nat) (hx : x < 65536) (rest : List Nat) :
    decodeImm16 (leBytes 2 x ++ rest)
      = some (if x < 32768 then (x : Int) else (x : Int) - 65536, rest) := by
  have h : ofLeBytes [x % 256, x / 256 % 256] = x := by
    simp only [ofLeBytes]; omega
  rw [leBytes_two]
  simp [decodeImm16, h]

theorem opcode_or_reg (n : Nat) (hn : n < 8) : 0xB8 ||| n = 0xB8 + n ∧ 0xB0 ||| n = 0xB0 + n := by
  interval_cases n <;> exact ⟨rfl, rfl⟩

/-- Storing a 32-bit value at the cursor and advancing the cursor by four. -/
theorem put32_eq_emit (w : AsmWritter) (ha : w.m_addr < 4294967296) (v : Int) :
    ({ w with mem := WriteMemInt32 w.mem w.m_addr v,
              m_addr := (w.m_addr + 4) % 4294967296 } : AsmWritter)
      = w.emit (leBytes 4 (toUInt32 v)) := by
  rw [emit_eq_WriteMem _ _ ha, leBytes_length]
  rfl

/-- Storing a 16-bit value at the cursor and advancing the cursor by two. -/
theorem put16_eq_emit (w : AsmWritter) (ha : w.m_addr < 4294967296) (v : Int) :
    ({ w with mem := WriteMemInt16 w.mem w.m_addr v,
              m_addr := (w.m_addr + 2) % 4294967296 } : AsmWritter)
      = w.emit (leBytes 2 (v % 65536).toNat) := by
  rw [emit_eq_WriteMem _ _ ha, leBytes_length]
  rfl

theorem putUInt8_m_addr_lt (w : AsmWritter) (b : Nat) : (w.putUInt8 b).m_addr < 4294967296 := by
  simp only [putUInt8]; omega

theorem movImm32_eq_emit (w : AsmWritter) (r : AsmReg32) (v : Int) :
    w.movImm32 r v = w.emit ((0xB8 ||| r.regNum) :: leBytes 4 (toUInt32 v)) := by
  simp only [movImm32]
  rw [put32_eq_emit _ (putUInt8_m_addr_lt _ _)]
  rfl

theorem movImm16_eq_emit (w : AsmWritter) (r : AsmReg16) (v : Int) :
    w.movImm16 r v = w.emit (0x66 :: (0xB8 ||| r.regNum) :: leBytes 2 (v % 65536).toNat) := by
  simp only [movImm16]
  rw [put16_eq_emit _ (putUInt8_m_addr_lt _ _)]
  rfl

theorem movImm8_eq_emit (w : AsmWritter) (r : AsmReg8) (v : Int) :
    w.movImm8 r v = w.emit [0xB0 ||| r.regNum, toUInt8 v] := by
  simp only [movImm8, putInt8_eq_putUInt8]
  rfl

theorem pushImm_eq_emit (w : AsmWritter) (v : Int) :
    w.pushImm v = w.emit (0x68 :: leBytes 4 (toUInt32 v)) := by
  simp only [pushImm]
  rw [put32_eq_emit _ (putUInt8_m_addr_lt _ _)]
  rfl

theorem decode_mov_imm32 (n x : Nat) (hn : n < 8) (hx : x < 4294967296) :
    decode ((0xB8 + n) :: leBytes 4 x) = some (⟨.mov, [.reg 4 n, .imm (signExtend32 x)]⟩, 5) := by
  have hdec := decodeImm32_leBytes x hx []
  rw [List.append_nil] at hdec
  interval_cases n <;> simp [decode, decodeOpcode, decodeImm, hdec, leBytes_length]

theorem decode_mov_imm16 (n x : Nat) (hn : n < 8) (hx : x < 65536) :
    decode (0x66 :: (0xB8 + n) :: leBytes 2 x)
      = some (⟨.mov, [.reg 2 n, .imm (if x < 32768 then (x : Int) else (x : Int) - 65536)]⟩, 4) := by
  have hdec := decodeImm16_leBytes x hx []
  rw [List.append_nil] at hdec
  interval_cases n <;> simp [decode, decodeOpcode, decodeImm, hdec, leBytes_length]

theorem decode_mov_imm8 (n b : Nat) (hn : n < 8) :
    decode [0xB0 + n, b] = some (⟨.mov, [.reg 1 n, .imm (signExtend8 b)]⟩, 2) := by
  interval_cases n <;> simp [decode, decodeOpcode, decodeImm8]

theorem decode_push_imm32 (x : Nat) (hx : x < 4294967296) :
    decode (0x68 :: leBytes 4 x) = some (⟨.push, [.imm (signExtend32 x)]⟩, 5) := by
  have hdec := decodeImm32_leBytes x hx []
  rw [List.append_nil] at hdec
  simp [decode, decodeOpcode, decodeImm, hdec, leBytes_length]

theorem cons_leBytes_lt (b n v : Nat) (hb : b < 256) : ∀ c ∈ b :: leBytes n v, c < 256 := by
  intro c hc
  rcases List.mem_cons.mp hc with rfl | hc
  · exact hb
  · exact leBytes_lt _ _ c hc

/-- C10: for a register numbered `n < 8` and an immediate `v` of the register's
width, at cursor `a`: `mov(AsmReg32, v)` stores exactly `B8+n` and the four
little-endian bytes of `v` (5 bytes), `mov(AsmReg16, v)` exactly `66`, `B8+n`
and two little-endian bytes (4 bytes), `mov(AsmReg8, v)` exactly `B0+n` and one
byte (2 bytes), and `push(int32 v)` exactly `68` and the four little-endian
bytes of `v`; the cursor moves by that many bytes; and the bytes decode to
`mov r, v`, respectively `push v`, with the same register, width and value. -/
theorem C10_mov_imm_push_imm_roundtrip (w : AsmWritter) (ha : w.m_addr < 4294967296)
    (r32 : AsmReg32) (r16 : AsmReg16) (r8 : AsmReg8) (v32 v16 v8 p : Int)
    (h32 : r32.regNum < 8) (h16 : r16.regNum < 8) (h8 : r8.regNum < 8)
    (hv32 : -2147483648 ≤ v32 ∧ v32 < 2147483648) (hv16 : -32768 ≤ v16 ∧ v16 < 32768)
    (hv8 : -128 ≤ v8 ∧ v8 < 128) (hp : -2147483648 ≤ p ∧ p < 2147483648) :
    ((w.movImm32 r32 v32).mem.stores = w.mem.stores
          ++ storesAt w.m_addr ((0xB8 + r32.regNum) :: leBytes 4 (toUInt32 v32))
      ∧ (w.movImm32 r32 v32).mem.read w.m_addr 5
          = (0xB8 + r32.regNum) :: leBytes 4 (toUInt32 v32)
      ∧ (w.movImm32 r32 v32).m_addr = (w.m_addr + 5) % 4294967296
      ∧ decode ((w.movImm32 r32 v32).mem.read w.m_addr 5)
          = some (⟨.mov, [.reg 4 r32.regNum, .imm v32]⟩, 5))
    ∧ ((w.movImm16 r16 v16).mem.stores = w.mem.stores
          ++ storesAt w.m_addr (0x66 :: (0xB8 + r16.regNum) :: leBytes 2 (v16 % 65536).toNat)
      ∧ (w.movImm16 r16 v16).mem.read w.m_addr 4
          = 0x66 :: (0xB8 + r16.regNum) :: leBytes 2 (v16 % 65536).toNat
      ∧ (w.movImm16 r16 v16).m_addr = (w.m_addr + 4) % 4294967296
      ∧ decode ((w.movImm16 r16 v16).mem.read w.m_addr 4)
          = some (⟨.mov, [.reg 2 r16.regNum, .imm v16]⟩, 4))
    ∧ ((w.movImm8 r8 v8).mem.stores = w.mem.stores
          ++ storesAt w.m_addr [0xB0 + r8.regNum, toUInt8 v8]
      ∧ (w.movImm8 r8 v8).mem.read w.m_addr 2 = [0xB0 + r8.regNum, toUInt8 v8]
      ∧ (w.movImm8 r8 v8).m_addr = (w.m_addr + 2) % 4294967296
      ∧ decode ((w.movImm8 r8 v8).mem.read w.m_addr 2)
          = some (⟨.mov, [.reg 1 r8.regNum, .imm v8]⟩, 2))
    ∧ ((w.pushImm p).mem.stores = w.mem.stores
          ++ storesAt w.m_addr (0x68 :: leBytes 4 (toUInt32 p))
      ∧ (w.pushImm p).mem.read w.m_addr 5 = 0x68 :: leBytes 4 (toUInt32 p)
      ∧ (w.pushImm p).m_addr = (w.m_addr + 5) % 4294967296
      ∧ decode ((w.pushImm p).mem.read w.m_addr 5) = some (⟨.push, [.imm p]⟩, 5)) := by
  refine ⟨?_, ?_, ?_, ?_⟩
  · have e := movImm32_eq_emit w r32 v32
    rw [(opcode_or_reg _ h32).1] at e
    obtain ⟨f1, f2, f3⟩ := emit_facts ((0xB8 + r32.regNum) :: leBytes 4 (toUInt32 v32)) w ha
      (by simp [leBytes_length]) (cons_leBytes_lt _ _ _ (by omega))
    simp only [List.length_cons, leBytes_length] at f2 f3
    rw [e]
    refine ⟨f1, f2, f3, ?_⟩
    rw [f2, decode_mov_imm32 _ _ h32 (toUInt32_lt _), signExtend32_toUInt32 _ hv32.1 hv32.2]
  · have e := movImm16_eq_emit w r16 v16
    rw [(opcode_or_reg _ h16).1] at e
    have hx : (v16 % 65536).toNat < 65536 := by omega
    obtain ⟨f1, f2, f3⟩ := emit_facts
      (0x66 :: (0xB8 + r16.regNum) :: leBytes 2 (v16 % 65536).toNat) w ha
      (by simp [leBytes_length])
      (by intro c hc
          rcases List.mem_cons.mp hc with rfl | hc
          · decide
          · exact cons_leBytes_lt _ _ _ (by omega) c hc)
    simp only [List.length_cons, leBytes_length] at f2 f3
    rw [e]
    refine ⟨f1, f2, f3, ?_⟩
    rw [f2, decode_mov_imm16 _ _ h16 hx]
    have : (if (v16 % 65536).toNat < 32768 then (((v16 % 65536).toNat : Nat) : Int)
        else (((v16 % 65536).toNat : Nat) : Int) - 65536) = v16 := by
      split_ifs <;> omega
    rw [this]
  · have e := movImm8_eq_emit w r8 v8
    rw [(opcode_or_reg _ h8).2] at e
    have hx := toUInt8_lt v8
    obtain ⟨f1, f2, f3⟩ := emit_facts [0xB0 + r8.regNum, toUInt8 v8] w ha (by simp)
      (by intro c hc
          simp only [List.mem_cons, List.mem_singleton] at hc
          rcases hc with rfl | rfl | hc
          · omega
          · exact hx
          · simp at hc)
    simp only [List.length_cons, List.length_nil] at f2 f3
    rw [e]
    refine ⟨f1, f2, f3, ?_⟩
    rw [f2, decode_mov_imm8 _ _ h8, signExtend8_toUInt8 _ hv8.1 hv8.2]
  · have e := pushImm_eq_emit w p
    obtain ⟨f1, f2, f3⟩ := emit_facts (0x68 :: leBytes 4 (toUInt32 p)) w ha
      (by simp [leBytes_length]) (cons_leBytes_lt _ _ _ (by decide))
    simp only [List.length_cons, leBytes_length] at f2 f3
    rw [e]
    refine ⟨f1, f2, f3, ?_⟩
    rw [f2, decode_push_imm32 _ (toUInt32_lt _), signExtend32_toUInt32 _ hp.1 hp.2]

/-- C10 at a concrete input: `mov edx, -2`, `mov cx, 0x1234`, `mov bh, -1` and
`push 0x11223344` at cursor 0x1000. -/
theorem C10_mov_imm_push_imm_roundtrip_witness :
    (create Memory.zero 0x1000 UNK_END_ADDR).m_addr < 4294967296
    ∧ AsmRegs.EDX.regNum < 8 ∧ AsmRegs.CX.regNum < 8 ∧ AsmRegs.BH.regNum < 8
    ∧ ((create Memory.zero 0x1000 UNK_END_ADDR).movImm32 AsmRegs.EDX (-2)).mem.read 0x1000 5
        = [0xBA, 0xFE, 0xFF, 0xFF, 0xFF]
    ∧ ((create Memory.zero 0x1000 UNK_END_ADDR).movImm16 AsmRegs.CX 0x1234).mem.read 0x1000 4
        = [0x66, 0xB9, 0x34, 0x12]
    ∧ ((create Memory.zero 0x1000 UNK_END_ADDR).movImm8 AsmRegs.BH (-1)).mem.read 0x1000 2
        = [0xB7, 0xFF]
    ∧ ((create Memory.zero 0x1000 UNK_END_ADDR).pushImm 0x11223344).mem.read 0x1000 5
        = [0x68, 0x44, 0x33, 0x22, 0x11]
    ∧ decode [0xBA, 0xFE, 0xFF, 0xFF, 0xFF] = some (⟨.mov, [.reg 4 2, .imm (-2)]⟩, 5) := by
  have h := C10_mov_imm_push_imm_roundtrip (create Memory.zero 0x1000 UNK_END_ADDR) (by decide)
    AsmRegs.EDX AsmRegs.CX AsmRegs.BH (-2) 0x1234 (-1) 0x11223344
    (by decide) (by decide) (by decide) (by decide) (by decide) (by decide) (by decide)
  refine ⟨by decide, by decide, by decide, by decide, ?_, ?_, ?_, ?_, ?_⟩
  · exact h.1.2.1
  · exact h.2.1.2.1
  · exact h.2.2.1.2.1
  · exact h.2.2.2.2.1
  · have h5 := h.1.2.2.2
    rw [h.1.2.1] at h5
    exact h5

/-! ## Stack operations -/

theorem opcode_or_reg_stack (n : Nat) (hn : n < 8) :
    0x50 ||| n = 0x50 + n ∧ 0x58 ||| n = 0x58 + n := by
  interval_cases n <;> exact ⟨rfl, rfl⟩

theorem decode_push_pop (n : Nat) (hn : n < 8) :
    decode [0x50 + n] = some (⟨.push, [.reg 4 n]⟩, 1)
    ∧ decode [0x58 + n] = some (⟨.pop, [.reg 4 n]⟩, 1)
    ∧ decode [0x66, 0x50 + n] = some (⟨.push, [.reg 2 n]⟩, 2)
    ∧ decode [0x66, 0x58 + n] = some (⟨.pop, [.reg 2 n]⟩, 2) := by
  interval_cases n <;> simp [decode, decodeOpcode]

theorem emit_one_facts (b : Nat) (w : AsmWritter) (ha : w.m_addr < 4294967296) (hb : b < 256) :
    (w.emit [b]).mem.stores = w.mem.stores ++ storesAt w.m_addr [b]
    ∧ (w.emit [b]).mem.read w.m_addr 1 = [b]
    ∧ (w.emit [b]).m_addr = (w.m_addr + 1) % 4294967296 :=
  emit_facts [b] w ha (by simp) (by simpa using hb)

theorem emit_two_facts (b c : Nat) (w : AsmWritter) (ha : w.m_addr < 4294967296) (hb : b < 256)
    (hc : c < 256) :
    (w.emit [b, c]).mem.stores = w.mem.stores ++ storesAt w.m_addr [b, c]
    ∧ (w.emit [b, c]).mem.read w.m_addr 2 = [b, c]
    ∧ (w.emit [b, c]).m_addr = (w.m_addr + 2) % 4294967296 :=
  emit_facts [b, c] w ha (by simp) (by
    intro x hx
    simp only [List.mem_cons, List.mem_singleton] at hx
    rcases hx with rfl | rfl | hx
    · exact hb
    · exact hc
    · simp at hx)

/-- C11: for a register numbered `n < 8`, at cursor `a`: `push(AsmReg32)` stores
exactly the one byte `50+n` and `pop(AsmReg32)` exactly the one byte `58+n`;
`push(AsmReg16)` and `pop(AsmReg16)` store exactly the prefix `66` followed by
that byte; the cursor moves by 1, respectively 2; and the bytes decode to a
`push`, respectively `pop`, of the register with the same number and width. -/
theorem C11_push_pop_roundtrip (w : AsmWritter) (ha : w.m_addr < 4294967296)
    (r32 : AsmReg32) (r16 : AsmReg16) (h32 : r32.regNum < 8) (h16 : r16.regNum < 8) :
    ((w.push r32).mem.stores = w.mem.stores ++ storesAt w.m_addr [0x50 + r32.regNum]
      ∧ (w.push r32).mem.read w.m_addr 1 = [0x50 + r32.regNum]
      ∧ (w.push r32).m_addr = (w.m_addr + 1) % 4294967296
      ∧ decode ((w.push r32).mem.read w.m_addr 1) = some (⟨.push, [.reg 4 r32.regNum]⟩, 1))
    ∧ ((w.pop r32).mem.stores = w.mem.stores ++ storesAt w.m_addr [0x58 + r32.regNum]
      ∧ (w.pop r32).mem.read w.m_addr 1 = [0x58 + r32.regNum]
      ∧ (w.pop r32).m_addr = (w.m_addr + 1) % 4294967296
      ∧ decode ((w.pop r32).mem.read w.m_addr 1) = some (⟨.pop, [.reg 4 r32.regNum]⟩, 1))
    ∧ ((w.push16 r16).mem.stores = w.mem.stores ++ storesAt w.m_addr [0x66, 0x50 + r16.regNum]
      ∧ (w.push16 r16).mem.read w.m_addr 2 = [0x66, 0x50 + r16.regNum]
      ∧ (w.push16 r16).m_addr = (w.m_addr + 2) % 4294967296
      ∧ decode ((w.push16 r16).mem.read w.m_addr 2) = some (⟨.push, [.reg 2 r16.regNum]⟩, 2))
    ∧ ((w.pop16 r16).mem.stores = w.mem.stores ++ storesAt w.m_addr [0x66, 0x58 + r16.regNum]
      ∧ (w.pop16 r16).mem.read w.m_addr 2 = [0x66, 0x58 + r16.regNum]
      ∧ (w.pop16 r16).m_addr = (w.m_addr + 2) % 4294967296
      ∧ decode ((w.pop16 r16).mem.read w.m_addr 2) = some (⟨.pop, [.reg 2 r16.regNum]⟩, 2)) := by
  obtain ⟨d1, d2, _, _⟩ := decode_push_pop _ h32
  obtain ⟨_, _, d3, d4⟩ := decode_push_pop _ h16
  refine ⟨?_, ?_, ?_, ?_⟩
  · have e : w.push r32 = w.emit [0x50 + r32.regNum] := by
      rw [← (opcode_or_reg_stack _ h32).1]; rfl
    obtain ⟨f1, f2, f3⟩ := emit_one_facts (0x50 + r32.regNum) w ha (by omega)
    rw [e]
    exact ⟨f1, f2, f3, by rw [f2, d1]⟩
  · have e : w.pop r32 = w.emit [0x58 + r32.regNum] := by
      rw [← (opcode_or_reg_stack _ h32).2]; rfl
    obtain ⟨f1, f2, f3⟩ := emit_one_facts (0x58 + r32.regNum) w ha (by omega)
    rw [e]
    exact ⟨f1, f2, f3, by rw [f2, d2]⟩
  · have e : w.push16 r16 = w.emit [0x66, 0x50 + r16.regNum] := by
      rw [← (opcode_or_reg_stack _ h16).1]; rfl
    obtain ⟨f1, f2, f3⟩ := emit_two_facts 0x66 (0x50 + r16.regNum) w ha (by decide) (by omega)
    rw [e]
    exact ⟨f1, f2, f3, by rw [f2, d3]⟩
  · have e : w.pop16 r16 = w.emit [0x66, 0x58 + r16.regNum] := by
      rw [← (opcode_or_reg_stack _ h16).2]; rfl
    obtain ⟨f1, f2, f3⟩ := emit_two_facts 0x66 (0x58 + r16.regNum) w ha (by decide) (by omega)
    rw [e]
    exact ⟨f1, f2, f3, by rw [f2, d4]⟩

/-- C11 at a concrete input: `push esi`, `pop ebp`, `push bx` and `pop di` at
cursor 0x1000. -/
theorem C11_push_pop_roundtrip_witness :
    (create Memory.zero 0x1000 UNK_END_ADDR).m_addr < 4294967296
    ∧ AsmRegs.ESI.regNum < 8 ∧ AsmRegs.BX.regNum < 8
    ∧ ((create Memory.zero 0x1000 UNK_END_ADDR).push AsmRegs.ESI).mem.read 0x1000 1 = [0x56]
    ∧ ((create Memory.zero 0x1000 UNK_END_ADDR).pop AsmRegs.ESI).mem.read 0x1000 1 = [0x5E]
    ∧ ((create Memory.zero 0x1000 UNK_END_ADDR).push16 AsmRegs.BX).mem.read 0x1000 2
        = [0x66, 0x53]
    ∧ decode (((create Memory.zero 0x1000 UNK_END_ADDR).pop16 AsmRegs.BX).mem.read 0x1000 2)
        = some (⟨.pop, [.reg 2 3]⟩, 2) := by
  have h := C11_push_pop_roundtrip (create Memory.zero 0x1000 UNK_END_ADDR) (by decide)
    AsmRegs.ESI AsmRegs.BX (by decide) (by decide)
  exact ⟨by decide, by decide, by decide, h.1.2.1, h.2.1.2.1, h.2.2.1.2.1, h.2.2.2.2.2.2⟩

/-! ## Choice of the short forms -/

/-- C12 (defect of the code): the immediate -128 fits in a signed byte, and the
short form `83 C0 80` decodes to `add eax, -128`, but the test
`abs(imm32) < 128` sends it to the long form: at cursor 0x1000,
`add(AsmRegMem(false, EAX), -128)` stores the six bytes `81 C0 80 FF FF FF`.
The neighbours -127 and 127 get the short form, 128 the long form. -/
theorem C12_add_minus_128_uses_long_form :
    ((create Memory.zero 0x1000 UNK_END_ADDR).add
        ⟨false, some AsmRegs.EAX.toAsmReg, 0⟩ (-128)).mem.stores
        = [(0x1000, 0x81), (0x1001, 0xC0), (0x1002, 0x80), (0x1003, 0xFF), (0x1004, 0xFF),
           (0x1005, 0xFF)]
    ∧ ((create Memory.zero 0x1000 UNK_END_ADDR).add
        ⟨false, some AsmRegs.EAX.toAsmReg, 0⟩ (-128)).m_addr = 0x1006
    ∧ decode [0x83, 0xC0, 0x80] = some (⟨.add, [.reg 4 0, .imm (-128)]⟩, 3)
    ∧ decode [0x81, 0xC0, 0x80, 0xFF, 0xFF, 0xFF] = some (⟨.add, [.reg 4 0, .imm (-128)]⟩, 6)
    ∧ ((create Memory.zero 0x1000 UNK_END_ADDR).add
        ⟨false, some AsmRegs.EAX.toAsmReg, 0⟩ (-127)).mem.stores
        = [(0x1000, 0x83), (0x1001, 0xC0), (0x1002, 0x81)]
    ∧ ((create Memory.zero 0x1000 UNK_END_ADDR).add
        ⟨false, some AsmRegs.EAX.toAsmReg, 0⟩ 127).mem.stores
        = [(0x1000, 0x83), (0x1001, 0xC0), (0x1002, 0x7F)]
    ∧ ((create Memory.zero 0x1000 UNK_END_ADDR).add
        ⟨false, some AsmRegs.EAX.toAsmReg, 0⟩ 128).mem.stores
        = [(0x1000, 0x81), (0x1001, 0xC0), (0x1002, 0x80), (0x1003, 0x00), (0x1004, 0x00),
           (0x1005, 0x00)] := by
  refine ⟨by decide, by decide, by decide, by decide, by decide, by decide, by decide⟩

/-- C13 (defect of the code): the displacement -128 fits in a signed byte, and
the form with mod = 1, `8B 43 80`, decodes to `mov eax, [ebx - 128]`, but the
test `abs(displacement) < 128` sends it to mod = 2: at cursor 0x1000,
`mov(EAX, AsmRegMem(true, EBX, -128))` stores the six bytes
`8B 83 80 FF FF FF`. The neighbours -127 and 127 get mod = 1, 128 gets
mod = 2. -/
theorem C13_displacement_minus_128_uses_disp32 :
    ((create Memory.zero 0x1000 UNK_END_ADDR).movRegRm AsmRegs.EAX
        ⟨true, some AsmRegs.EBX.toAsmReg, -128⟩).mem.stores
        = [(0x1000, 0x8B), (0x1001, 0x83), (0x1002, 0x80), (0x1003, 0xFF), (0x1004, 0xFF),
           (0x1005, 0xFF)]
    ∧ decode [0x8B, 0x43, 0x80] = some (⟨.mov, [.reg 4 0, .mem (some 3) none (-128)]⟩, 3)
    ∧ decode [0x8B, 0x83, 0x80, 0xFF, 0xFF, 0xFF]
        = some (⟨.mov, [.reg 4 0, .mem (some 3) none (-128)]⟩, 6)
    ∧ ((create Memory.zero 0x1000 UNK_END_ADDR).movRegRm AsmRegs.EAX
        ⟨true, some AsmRegs.EBX.toAsmReg, -127⟩).mem.stores
        = [(0x1000, 0x8B), (0x1001, 0x43), (0x1002, 0x81)]
    ∧ ((create Memory.zero 0x1000 UNK_END_ADDR).movRegRm AsmRegs.EAX
        ⟨true, some AsmRegs.EBX.toAsmReg, 127⟩).mem.stores
        = [(0x1000, 0x8B), (0x1001, 0x43), (0x1002, 0x7F)]
    ∧ ((create Memory.zero 0x1000 UNK_END_ADDR).movRegRm AsmRegs.EAX
        ⟨true, some AsmRegs.EBX.toAsmReg, 128⟩).mem.stores
        = [(0x1000, 0x8B), (0x1001, 0x83), (0x1002, 0x80), (0x1003, 0x00), (0x1004, 0x00),
           (0x1005, 0x00)] := by
  refine ⟨by decide, by decide, by decide, by decide, by decide, by decide⟩

/-! ## Operand widths -/

/-- C15 fails: an `AsmRegMem` built from the 16-bit register `AX` or the 8-bit
register `CL` is accepted by the 32-bit operations. At cursor 0x1000,
`mov(AsmRegMem(false, AX), ECX)` stores `89 C8`, which decodes to
`mov eax, ecx`; `mov(EDX, AsmRegMem(true, CL, 8))` stores `8B 51 08`, which
decodes to `mov edx, [ecx + 8]`; `add(AsmRegMem(false, AX), 1)` stores
`83 C0 01`, which decodes to `add eax, 1`. -/
theorem C15_mixed_width_counterexample :
    ((create Memory.zero 0x1000 UNK_END_ADDR).movRmReg
        ⟨false, some AsmRegs.AX.toAsmReg, 0⟩ AsmRegs.ECX).mem.stores
        = [(0x1000, 0x89), (0x1001, 0xC8)]
    ∧ decode [0x89, 0xC8] = some (⟨.mov, [.reg 4 0, .reg 4 1]⟩, 2)
    ∧ ((create Memory.zero 0x1000 UNK_END_ADDR).movRegRm AsmRegs.EDX
        ⟨true, some AsmRegs.CL.toAsmReg, 8⟩).mem.stores
        = [(0x1000, 0x8B), (0x1001, 0x51), (0x1002, 0x08)]
    ∧ decode [0x8B, 0x51, 0x08] = some (⟨.mov, [.reg 4 2, .mem (some 1) none 8]⟩, 3)
    ∧ ((create Memory.zero 0x1000 UNK_END_ADDR).add
        ⟨false, some AsmRegs.AX.toAsmReg, 0⟩ 1).mem.stores
        = [(0x1000, 0x83), (0x1001, 0xC0), (0x1002, 0x01)]
    ∧ decode [0x83, 0xC0, 0x01] = some (⟨.add, [.reg 4 0, .imm 1]⟩, 3) := by
  refine ⟨by decide, by decide, by decide, by decide, by decide, by decide⟩

/-- C15 as amended: the 32-bit operations `mov(AsmRegMem, AsmReg32)`,
`mov(AsmReg32, AsmRegMem)` and `add(AsmRegMem, imm)` do not look at the size
of the register of their `AsmRegMem` operand: for every register number `n`
and every size, they return, and the state they return (stores, memory and
cursor) is the one they return for the 32-bit register with the number `n`. -/
theorem C15_regmem_size_is_ignored (w : AsmWritter) (memory : Bool) (n size : Nat)
    (displacement : Int) (reg : AsmReg32) (imm : Int) :
    w.movRmReg ⟨memory, some ⟨n, size⟩, displacement⟩ reg
        = w.movRmReg ⟨memory, some (AsmReg32.mk n).toAsmReg, displacement⟩ reg
    ∧ w.movRegRm reg ⟨memory, some ⟨n, size⟩, displacement⟩
        = w.movRegRm reg ⟨memory, some (AsmReg32.mk n).toAsmReg, displacement⟩
    ∧ w.add ⟨memory, some ⟨n, size⟩, displacement⟩ imm
        = w.add ⟨memory, some (AsmReg32.mk n).toAsmReg, displacement⟩ imm
    ∧ w.addImm8 ⟨memory, some ⟨n, size⟩, displacement⟩ imm
        = w.addImm8 ⟨memory, some (AsmReg32.mk n).toAsmReg, displacement⟩ imm := by
  have h : ∀ (v : AsmWritter) (f : Nat),
      v.writeModRm ⟨memory, some ⟨n, size⟩, displacement⟩ f
        = v.writeModRm ⟨memory, some (AsmReg32.mk n).toAsmReg, displacement⟩ f := by
    intro v f
    rfl
  refine ⟨?_, ?_, ?_, ?_⟩
  · simp only [movRmReg, h]
  · simp only [movRegRm, h]
  · simp only [add, addImm8, h]
  · simp only [addImm8, h]

/-! ## `cmp` -/

/-- C16: `cmp(reg, imm)` on an 8-bit register returns if and only if `reg` is
`AL`; then it stores exactly the two bytes `3C` and `imm` at the cursor and
moves the cursor by 2; for every other 8-bit register the call ends in the
failure of `assert(false)`, with no store made and the cursor where it was. -/
theorem C16_cmp_only_al (w : AsmWritter) (reg : AsmReg8) (imm : Int)
    (ha : w.m_addr < 4294967296) :
    ((∃ w', w.cmp reg imm = .ok w') ↔ reg = AsmRegs.AL)
    ∧ (reg = AsmRegs.AL → ∃ w', w.cmp reg imm = .ok w'
        ∧ w'.mem.stores = w.mem.stores ++ storesAt w.m_addr [0x3C, toUInt8 imm]
        ∧ w'.mem.read w.m_addr 2 = [0x3C, toUInt8 imm]
        ∧ w'.m_addr = (w.m_addr + 2) % 4294967296)
    ∧ (reg ≠ AsmRegs.AL → ∃ e, w.cmp reg imm = .error e ∧ e.failure = .assertion
        ∧ e.state = w ∧ e.state.mem.stores = w.mem.stores ∧ e.state.m_addr = w.m_addr) := by
  have key : reg.toAsmReg.eq AsmRegs.AL.toAsmReg = true ↔ reg = AsmRegs.AL := by
    cases reg with
    | mk n =>
      simp [AsmReg.eq, AsmReg8.toAsmReg, AsmRegs.AL, AsmRegs.GPRN_AX]
  refine ⟨?_, ?_, ?_⟩
  · constructor
    · rintro ⟨w', h⟩
      by_contra hne
      have : ¬ (reg.toAsmReg.eq AsmRegs.AL.toAsmReg = true) := fun h' => hne (key.mp h')
      simp [cmp, this] at h
    · intro h
      exact ⟨(w.putUInt8 0x3C).putInt8 imm, by simp only [cmp, key.mpr h, if_true]⟩
  · intro h
    refine ⟨(w.putUInt8 0x3C).putInt8 imm, by simp only [cmp, key.mpr h, if_true], ?_⟩
    have e : (w.putUInt8 0x3C).putInt8 imm = w.emit [0x3C, toUInt8 imm] := by
      rw [putInt8_eq_putUInt8]; rfl
    rw [e]
    exact emit_two_facts 0x3C (toUInt8 imm) w ha (by decide) (toUInt8_lt imm)
  · intro hne
    have : ¬ (reg.toAsmReg.eq AsmRegs.AL.toAsmReg = true) := fun h' => hne (key.mp h')
    exact ⟨⟨.assertion, w⟩, by simp [cmp, this], rfl, rfl, rfl, rfl⟩

/-- C16 at a concrete input: `cmp(AL, 5)` and `cmp(BL, 5)` at cursor 0x1000. -/
theorem C16_cmp_only_al_witness :
    (create Memory.zero 0x1000 UNK_END_ADDR).m_addr < 4294967296
    ∧ (∃ w', (create Memory.zero 0x1000 UNK_END_ADDR).cmp AsmRegs.AL 5 = .ok w'
        ∧ w'.mem.read 0x1000 2 = [0x3C, 0x05])
    ∧ (∃ e, (create Memory.zero 0x1000 UNK_END_ADDR).cmp AsmRegs.BL 5 = .error e
        ∧ e.state.mem.stores = [] ∧ e.state.m_addr = 0x1000) := by
  have h1 := C16_cmp_only_al (create Memory.zero 0x1000 UNK_END_ADDR) AsmRegs.AL 5 (by decide)
  have h2 := C16_cmp_only_al (create Memory.zero 0x1000 UNK_END_ADDR) AsmRegs.BL 5 (by decide)
  refine ⟨by decide, ?_, ?_⟩
  · obtain ⟨w', a1, _, a3, _⟩ := h1.2.1 rfl
    exact ⟨w', a1, a3⟩
  · obtain ⟨e, b1, _, _, b4, b5⟩ := h2.2.2 (by decide)
    exact ⟨e, b1, b4, b5⟩

/-! ## Register equality -/

/-- C17: `a == b` holds if and only if the register numbers are equal and the
sizes are equal; the namespace `AsmRegs` names 24 registers and `==` is false
on every two different ones of them, in particular on `AL` and `AX`, `AX` and
`EAX`, `AL` and `EAX`, `AH` and `AL`. -/
theorem C17_register_equality (a b : AsmReg) :
    (a.eq b = true ↔ a.regNum = b.regNum ∧ a.size = b.size)
    ∧ AsmRegs.named.length = 24
    ∧ List.Pairwise (fun x y => x.eq y = false) AsmRegs.named
    ∧ AsmRegs.AL.toAsmReg.eq AsmRegs.AX.toAsmReg = false
    ∧ AsmRegs.AX.toAsmReg.eq AsmRegs.EAX.toAsmReg = false
    ∧ AsmRegs.AL.toAsmReg.eq AsmRegs.EAX.toAsmReg = false
    ∧ AsmRegs.AH.toAsmReg.eq AsmRegs.AL.toAsmReg = false := by
  refine ⟨?_, rfl, by decide, by decide, by decide, by decide, by decide⟩
  simp [AsmReg.eq]

/-! ## Where a chain of calls stores -/

theorem storesAt_length (bs : List Nat) (a : Nat) : (storesAt a bs).length = bs.length := by
  induction bs generalizing a with
  | nil => rfl
  | cons b bs ih => simp [storesAt, ih]

theorem storesAt_mem_bound (bs : List Nat) (a : Nat) (p : Nat × Nat) (hp : p ∈ storesAt a bs)
    (h : a + bs.length ≤ 4294967296) : a ≤ p.1 ∧ p.1 < a + bs.length := by
  induction bs generalizing a with
  | nil => simp [storesAt] at hp
  | cons b bs ih =>
    simp only [List.length_cons] at h
    simp only [storesAt, List.mem_cons] at hp
    rcases hp with rfl | hp
    · simp only [List.length_cons]
      have : a % 4294967296 = a := Nat.mod_eq_of_lt (by omega)
      omega
    · have := ih (a + 1) hp (by omega)
      simp only [List.length_cons]
      omega

theorem storesAt_addr_mem (bs : List Nat) (a j : Nat) (hj : j < bs.length) :
    ∃ p ∈ storesAt a bs, p.1 = (a + j) % 4294967296 := by
  induction bs generalizing a j with
  | nil => simp at hj
  | cons b bs ih =>
    cases j with
    | zero => exact ⟨_, List.mem_cons_self _ _, rfl⟩
    | succ j =>
      obtain ⟨p, hp, e⟩ := ih (a + 1) j (by simpa using hj)
      refine ⟨p, List.mem_cons_of_mem _ hp, ?_⟩
      rw [e]
      congr 1
      omega

theorem Contained.refl (w : AsmWritter) : Contained w w :=
  ⟨rfl, [], by simp, fun _ _ => rfl, fun _ => ⟨by simp, Nat.le_refl _, by simp⟩⟩

theorem Contained.trans {w w1 w2 : AsmWritter} (h1 : Contained w w1) (h2 : Contained w1 w2) :
    Contained w w2 := by
  obtain ⟨e1, s1, st1, fr1, b1⟩ := h1
  obtain ⟨e2, s2, st2, fr2, b2⟩ := h2
  refine ⟨e2.trans e1, s1 ++ s2, ?_, ?_, ?_⟩
  · rw [st2, st1, List.append_assoc]
  · intro x hx
    rw [fr2 x (fun p hp => hx p (List.mem_append_right _ hp)),
      fr1 x (fun p hp => hx p (List.mem_append_left _ hp))]
  · intro hlt
    rw [List.length_append] at hlt ⊢
    obtain ⟨c1, c2, c3⟩ := b1 (by omega)
    obtain ⟨d1, d2, d3⟩ := b2 (by omega)
    refine ⟨?_, by omega, by omega⟩
    intro p hp
    rcases List.mem_append.mp hp with hp | hp
    · have := c1 p hp
      omega
    · have := d1 p hp
      omega

/-- A store of the bytes `bs` at the cursor followed by an advance of the
cursor by at most their number. -/
theorem contained_write {w w1 : AsmWritter} (h : Contained w w1) (bs : List Nat) (k : Nat)
    (hk : k ≤ bs.length) :
    Contained w { w1 with mem := WriteMem w1.mem w1.m_addr bs,
                          m_addr := (w1.m_addr + k) % 4294967296 } := by
  refine Contained.trans h ⟨rfl, storesAt w1.m_addr bs, WriteMem_stores _ _ _, ?_, ?_⟩
  · intro x hx
    apply WriteMem_bytes_frame
    intro j hj
    obtain ⟨p, hp, e⟩ := storesAt_addr_mem bs w1.m_addr j hj
    rw [← e]
    exact hx p hp
  · intro hlt
    rw [storesAt_length] at hlt ⊢
    refine ⟨fun p hp => storesAt_mem_bound bs _ p hp (by omega), ?_, ?_⟩
    · show w1.m_addr ≤ (w1.m_addr + k) % 4294967296
      rw [Nat.mod_eq_of_lt (by omega)]
      omega
    · show (w1.m_addr + k) % 4294967296 ≤ w1.m_addr + bs.length
      rw [Nat.mod_eq_of_lt (by omega)]
      omega

theorem contained_putUInt8 {w w1 : AsmWritter} (h : Contained w w1) (b : Nat) :
    Contained w (w1.putUInt8 b) :=
  contained_write h [b % 256] 1 (by simp)

theorem contained_putInt8 {w w1 : AsmWritter} (h : Contained w w1) (v : Int) :
    Contained w (w1.putInt8 v) :=
  contained_write h [toUInt8 v] 1 (by simp)

theorem contained_put32 {w w1 : AsmWritter} (h : Contained w w1) (v : Int) :
    Contained w { w1 with mem := WriteMemInt32 w1.mem w1.m_addr v,
                          m_addr := (w1.m_addr + 4) % 4294967296 } :=
  contained_write h (leBytes 4 (toUInt32 v)) 4 (by simp [leBytes_length])

theorem contained_put32_advance1 {w w1 : AsmWritter} (h : Contained w w1) (v : Int) :
    Contained w { w1 with mem := WriteMemInt32 w1.mem w1.m_addr v,
                          m_addr := (w1.m_addr + 1) % 4294967296 } :=
  contained_write h (leBytes 4 (toUInt32 v)) 1 (by simp [leBytes_length])

theorem contained_put16 {w w1 : AsmWritter} (h : Contained w w1) (v : Int) :
    Contained w { w1 with mem := WriteMemInt16 w1.mem w1.m_addr v,
                          m_addr := (w1.m_addr + 2) % 4294967296 } :=
  contained_write h (leBytes 2 (v % 65536).toNat) 2 (by simp [leBytes_length])

theorem contained_ite {w a b : AsmWritter} (c : Prop) [Decidable c] (ha : Contained w a)
    (hb : Contained w b) : Contained w (if c then a else b) := by
  split_ifs
  · exact ha
  · exact hb

theorem contained_writeModRm {w w1 : AsmWritter} (h : Contained w w1) (regMem : AsmRegMem)
    (regField : Nat) : Contained w (w1.writeModRm regMem regField) := by
  unfold writeModRm
  simp only []
  have h2 : ∀ (c : Prop) [Decidable c] (x y : Nat),
      Contained w (if c then (w1.putUInt8 x).putUInt8 y else w1.putUInt8 x) :=
    fun c _ x y => contained_ite c (contained_putUInt8 (contained_putUInt8 h _) _)
      (contained_putUInt8 h _)
  apply contained_ite
  · exact contained_putInt8 (h2 _ _ _) _
  · apply contained_ite
    · exact contained_put32_advance1 (h2 _ _ _) _
    · exact h2 _ _ _

theorem contained_opcode_rel32 {w w1 : AsmWritter} (h : Contained w w1) (op : Nat) (v : Int) :
    Contained w { w1 with mem := WriteMemInt32 (WriteMemUInt8 w1.mem w1.m_addr op)
                            ((w1.m_addr + 1) % 4294967296) v,
                          m_addr := (w1.m_addr + 5) % 4294967296 } := by
  have e : ({ w1 with mem := WriteMemInt32 (WriteMemUInt8 w1.mem w1.m_addr op)
                        ((w1.m_addr + 1) % 4294967296) v,
                      m_addr := (w1.m_addr + 5) % 4294967296 } : AsmWritter)
      = { w1.putUInt8 op with
            mem := WriteMemInt32 (w1.putUInt8 op).mem (w1.putUInt8 op).m_addr v,
            m_addr := ((w1.putUInt8 op).m_addr + 4) % 4294967296 } := by
    simp only [putUInt8]
    congr 1
    omega
  rw [e]
  exact contained_put32 (contained_putUInt8 h _) _

theorem contained_opcode_rel8 {w w1 : AsmWritter} (h : Contained w w1) (op : Nat) (v : Int) :
    Contained w { w1 with mem := WriteMemInt8 (WriteMemUInt8 w1.mem w1.m_addr op)
                            ((w1.m_addr + 1) % 4294967296) v,
                          m_addr := (w1.m_addr + 2) % 4294967296 } := by
  have e : ({ w1 with mem := WriteMemInt8 (WriteMemUInt8 w1.mem w1.m_addr op)
                        ((w1.m_addr + 1) % 4294967296) v,
                      m_addr := (w1.m_addr + 2) % 4294967296 } : AsmWritter)
      = (w1.putUInt8 op).putInt8 v := by
    simp only [putUInt8, putInt8]
    congr 1
    omega
  rw [e]
  exact contained_putInt8 (contained_putUInt8 h _) _

/-- Every emit call that returns is contained. -/
theorem contained_run (op : Op) (w w' : AsmWritter) (h : op.run w = .ok w') : Contained w w' := by
  have r := Contained.refl w
  cases op <;> simp only [Op.run, Except.ok.injEq] at h <;> try subst h
  case pusha => exact contained_putUInt8 r _
  case popa => exact contained_putUInt8 r _
  case push => exact contained_putUInt8 r _
  case push16 => exact contained_putUInt8 (contained_putUInt8 r _) _
  case pop => exact contained_putUInt8 r _
  case pop16 => exact contained_putUInt8 (contained_putUInt8 r _) _
  case pushImm => exact contained_put32 (contained_putUInt8 r _) _
  case pushf => exact contained_putUInt8 r _
  case popf => exact contained_putUInt8 r _
  case xor_ => exact contained_putUInt8 (contained_putUInt8 r _) _
  case add =>
    unfold add
    apply contained_ite
    · exact contained_putInt8 (contained_writeModRm (contained_putUInt8 r _) _ _) _
    · exact contained_put32 (contained_writeModRm (contained_putUInt8 r _) _ _) _
  case addImm8 => exact contained_putInt8 (contained_writeModRm (contained_putUInt8 r _) _ _) _
  case nop => exact contained_putUInt8 r _
  case jmpLong => exact contained_opcode_rel32 r _ _
  case jmpNear => exact contained_opcode_rel8 r _ _
  case callLong => exact contained_opcode_rel32 r _ _
  case ret => exact contained_putUInt8 r _
  case movRmReg => exact contained_writeModRm (contained_putUInt8 r _) _ _
  case movRegRm => exact contained_writeModRm (contained_putUInt8 r _) _ _
  case mov32 => exact contained_putUInt8 (contained_putUInt8 r _) _
  case mov16 => exact contained_putUInt8 (contained_putUInt8 (contained_putUInt8 r _) _) _
  case mov8 => exact contained_putUInt8 (contained_putUInt8 r _) _
  case movImm32 => exact contained_put32 (contained_putUInt8 r _) _
  case movImm16 => exact contained_put16 (contained_putUInt8 (contained_putUInt8 r _) _) _
  case movImm8 => exact contained_putInt8 (contained_putUInt8 r _) _
  case movEaxMemEsp =>
    exact contained_putInt8 (contained_putUInt8 (contained_putUInt8 (contained_putUInt8 r _) _) _) _
  case movEaxMemEsp32 =>
    exact contained_put32_advance1
      (contained_putUInt8 (contained_putUInt8 (contained_putUInt8 r _) _) _) _
  case addEsp => exact contained_putInt8 (contained_putUInt8 (contained_putUInt8 r _) _) _
  case leaEaxEsp =>
    exact contained_putInt8 (contained_putUInt8 (contained_putUInt8 (contained_putUInt8 r _) _) _) _
  case leaEdxEsp =>
    exact contained_putInt8 (contained_putUInt8 (contained_putUInt8 (contained_putUInt8 r _) _) _) _
  case cmp =>
    unfold cmp at h
    split_ifs at h
    simp only [Except.ok.injEq] at h
    subst h
    exact contained_putInt8 (contained_putUInt8 r _) _

/-- Every chain of emit calls that returns is contained. -/
theorem contained_runAll (ops : List Op) (w w' : AsmWritter) (h : runAll ops w = .ok w') :
    Contained w w' := by
  induction ops generalizing w with
  | nil =>
    simp only [runAll, Except.ok.injEq] at h
    subst h
    exact Contained.refl w
  | cons op ops ih =>
    simp only [runAll] at h
    cases hop : op.run w with
    | error e => rw [hop] at h; cases h
    | ok w1 =>
      rw [hop] at h
      exact Contained.trans (contained_run op w w1 hop) (ih w1 h)

/-- C20: a writer constructed with `endAddr = UNK_END_ADDR`, after any chain of
emit calls that returns, is destroyed without any store: the destructor
returns the state unchanged, so the record of stores, every byte of memory and
the cursor are as the emit calls left them. The same holds for every state
whose end bound is `UNK_END_ADDR`, whatever its cursor. -/
theorem C20_destroy_without_end_bound (mem : Memory) (b fuel : Nat) (ops : List Op)
    (w' : AsmWritter) (hrun : runAll ops (create mem b UNK_END_ADDR) = .ok w') :
    destroy fuel w' = .ok w'
    ∧ (∃ w'', destroy fuel w' = .ok w'' ∧ w''.mem.stores = w'.mem.stores
        ∧ (∀ x, w''.mem.bytes x = w'.mem.bytes x) ∧ w''.m_addr = w'.m_addr)
    ∧ (∀ (w : AsmWritter) (n : Nat), w.m_endAddr = UNK_END_ADDR → destroy n w = .ok w) := by
  have hgen : ∀ (w : AsmWritter) (n : Nat), w.m_endAddr = UNK_END_ADDR → destroy n w = .ok w := by
    intro w n h
    simp [destroy, h]
  have hend : w'.m_endAddr = UNK_END_ADDR := by
    rw [(contained_runAll ops _ w' hrun).1]
    rfl
  exact ⟨hgen w' fuel hend, ⟨w', hgen w' fuel hend, rfl, fun _ => rfl, rfl⟩, hgen⟩

/-- C20 at a concrete input: a writer at 0x1000 without end bound that emits
`nop` and `ret`, destroyed with no fuel at all. -/
theorem C20_destroy_without_end_bound_witness :
    ∃ w'', destroy 0 ((create Memory.zero 0x1000 UNK_END_ADDR).nop).ret = .ok w''
      ∧ w''.mem.stores = [(0x1000, 0x90), (0x1001, 0xC3)] ∧ w''.m_addr = 0x1002 :=
  ⟨((create Memory.zero 0x1000 UNK_END_ADDR).nop).ret,
    (C20_destroy_without_end_bound Memory.zero 0x1000 0 [.nop, .ret]
      ((create Memory.zero 0x1000 UNK_END_ADDR).nop).ret rfl).1, by decide, by decide⟩

end AsmWritter

/-! ## Patches -/

theorem Memory.read_length (m : Memory) (a n : Nat) : (m.read a n).length = n := by
  induction n generalizing a with
  | zero => rfl
  | succ n ih => simp [Memory.read, ih]

theorem Memory.read_lt (m : Memory) (hbytes : ∀ x, m.bytes x < 256) (a n : Nat) :
    ∀ b ∈ m.read a n, b < 256 := by
  induction n generalizing a with
  | zero => simp [Memory.read]
  | succ n ih =>
    intro b hb
    simp only [Memory.read, List.mem_cons] at hb
    rcases hb with rfl | hb
    · exact hbytes _
    · exact ih _ b hb

/-- C18: for a patch of either kind that is not installed, with a saved-byte
length of at most `2^32`, and for every content of the target memory (each
address holding a byte): install succeeds and marks the patch installed, the
uninstall that follows succeeds and marks it not installed, and afterwards the
target region `[target, target + savedLength)` holds the bytes it held before
the install. -/
theorem C18_install_uninstall_restores (p : Patch) (m : Memory) (hnot : p.installed = false)
    (hlen : p.savedLength ≤ 4294967296) (hbytes : ∀ x, m.bytes x < 256) :
    (p.install m).error = none
    ∧ (p.install m).patch.installed = true
    ∧ (p.install m).patch.originalBytes = m.read p.target p.savedLength
    ∧ ((p.install m).patch.uninstall (p.install m).mem).error = none
    ∧ ((p.install m).patch.uninstall (p.install m).mem).patch.installed = false
    ∧ ((p.install m).patch.uninstall (p.install m).mem).mem.read p.target p.savedLength
        = m.read p.target p.savedLength := by
  have h1 : p.install m
      = { error := none
          patch := { p with installed := true, originalBytes := m.read p.target p.savedLength }
          mem := ((AsmWritter.create m p.target AsmWritter.UNK_END_ADDR).jmpLong
                    p.trampoline).mem } := by
    simp [Patch.install, hnot]
  rw [h1]
  refine ⟨rfl, rfl, rfl, rfl, rfl, ?_⟩
  simp only [Patch.uninstall, if_true]
  have hr := WriteMem_read (m.read p.target p.savedLength)
    ((AsmWritter.create m p.target AsmWritter.UNK_END_ADDR).jmpLong p.trampoline).mem p.target
    (by rw [Memory.read_length]; exact hlen)
  rw [Memory.read_length] at hr
  rw [hr]
  conv_rhs => rw [← List.map_id (m.read p.target p.savedLength)]
  apply List.map_congr_left
  intro b hb
  exact Nat.mod_eq_of_lt (Memory.read_lt m hbytes _ _ b hb)

/-- C18 at a concrete input: a function hook at 0x401000 with trampoline at
0x500000 and five saved bytes, on memory that holds 0 everywhere: the install
writes the detour `E9 FB EF 0F 00`, the uninstall brings the five zero bytes
back. -/
theorem C18_install_uninstall_restores_witness :
    ((Patch.mk .FunctionHook 0x401000 0x500000 5 false []).install Memory.zero).mem.read
        0x401000 5 = [0xE9, 0xFB, 0xEF, 0x0F, 0x00]
    ∧ (((Patch.mk .FunctionHook 0x401000 0x500000 5 false []).install Memory.zero).patch.uninstall
        ((Patch.mk .FunctionHook 0x401000 0x500000 5 false []).install Memory.zero).mem).mem.read
        0x401000 5 = [0, 0, 0, 0, 0] :=
  ⟨by decide,
    (C18_install_uninstall_restores (Patch.mk .FunctionHook 0x401000 0x500000 5 false [])
      Memory.zero rfl (by decide) (by intro x; simp [Memory.zero])).2.2.2.2.2⟩

/-- C19: an install of a patch that is installed, and an uninstall of a patch
that is not installed, fail with `InvalidPatchState`; the target memory and the
patch are returned as they were. -/
theorem C19_invalid_transitions_rejected (p q : Patch) (m : Memory)
    (hp : p.installed = true) (hq : q.installed = false) :
    ((p.install m).error = some .InvalidPatchState
      ∧ (p.install m).patch = p ∧ (p.install m).mem = m)
    ∧ ((q.uninstall m).error = some .InvalidPatchState
      ∧ (q.uninstall m).patch = q ∧ (q.uninstall m).mem = m) := by
  simp [Patch.install, Patch.uninstall, hp, hq]

/-- C19 at a concrete input: a second install of an installed code injection,
and an uninstall of one that was never installed. -/
theorem C19_invalid_transitions_rejected_witness :
    ((Patch.mk .CodeInjection 0x401000 0x500000 5 true [1, 2, 3, 4, 5]).install
        Memory.zero).error = some .InvalidPatchState
    ∧ ((Patch.mk .CodeInjection 0x401000 0x500000 5 true [1, 2, 3, 4, 5]).install
        Memory.zero).mem.stores = []
    ∧ ((Patch.mk .CodeInjection 0x401000 0x500000 5 false []).uninstall
        Memory.zero).error = some .InvalidPatchState
    ∧ ((Patch.mk .CodeInjection 0x401000 0x500000 5 false []).uninstall
        Memory.zero).mem.stores = [] := by
  have h := C19_invalid_transitions_rejected
    (Patch.mk .CodeInjection 0x401000 0x500000 5 true [1, 2, 3, 4, 5])
    (Patch.mk .CodeInjection 0x401000 0x500000 5 false []) Memory.zero rfl rfl
  refine ⟨h.1.1, ?_, h.2.1, ?_⟩
  · rw [h.1.2.2]; rfl
  · rw [h.2.2.2]; rfl

namespace AsmWritter

/-! ## Hand-written helpers against the generic encoder -/

/-- C23: for every offset `off` with `-127 ≤ off ≤ 127` and `off ≠ 0`, the
helper `movEaxMemEsp(off)` and the generic call
`mov(EAX, AsmRegMem(true, ESP, off))` return the same state: the same stores,
the same memory and the same cursor; at a cursor `a` the stores are exactly
`8B 44 24 off` at `a .. a + 3` and the cursor moves by 4. -/
theorem C23_movEaxMemEsp_eq_generic (w : AsmWritter) (off : Int) (h1 : -127 ≤ off)
    (h2 : off ≤ 127) (h0 : off ≠ 0) (ha : w.m_addr < 4294967296) :
    w.movEaxMemEsp off = w.movRegRm AsmRegs.EAX ⟨true, some AsmRegs.ESP.toAsmReg, off⟩
    ∧ (w.movRegRm AsmRegs.EAX ⟨true, some AsmRegs.ESP.toAsmReg, off⟩).mem.stores
        = w.mem.stores ++ storesAt w.m_addr [0x8B, 0x44, 0x24, toUInt8 off]
    ∧ (w.movRegRm AsmRegs.EAX ⟨true, some AsmRegs.ESP.toAsmReg, off⟩).mem.read w.m_addr 4
        = [0x8B, 0x44, 0x24, toUInt8 off]
    ∧ (w.movRegRm AsmRegs.EAX ⟨true, some AsmRegs.ESP.toAsmReg, off⟩).m_addr
        = (w.m_addr + 4) % 4294967296 := by
  have habs : abs off < 128 := by
    unfold abs; split_ifs <;> omega
  have e : w.movRegRm AsmRegs.EAX ⟨true, some AsmRegs.ESP.toAsmReg, off⟩ = w.movEaxMemEsp off := by
    simp [movRegRm, movEaxMemEsp, writeModRm, h0, habs, AsmRegs.ESP, AsmRegs.EAX,
      AsmRegs.GPRN_SP, AsmRegs.GPRN_AX, AsmReg32.toAsmReg, AsmReg32.regNum]
  have e2 : w.movEaxMemEsp off = w.emit [0x8B, 0x44, 0x24, toUInt8 off] := by
    simp only [movEaxMemEsp, putInt8_eq_putUInt8]
    rfl
  have hf := emit_facts [0x8B, 0x44, 0x24, toUInt8 off] w ha (by simp) (by
    intro b hb
    have := toUInt8_lt off
    simp only [List.mem_cons, List.mem_singleton] at hb
    rcases hb with rfl | rfl | rfl | rfl | hb
    · decide
    · decide
    · decide
    · exact this
    · simp at hb)
  rw [e, e2]
  exact ⟨rfl, hf.1, hf.2.1, hf.2.2⟩

/-- C23 at a concrete input: offset 8 at cursor 0x1000. -/
theorem C23_movEaxMemEsp_eq_generic_witness :
    (-127 : Int) ≤ 8 ∧ (8 : Int) ≤ 127 ∧ (8 : Int) ≠ 0
    ∧ ((create Memory.zero 0x1000 UNK_END_ADDR).movRegRm AsmRegs.EAX
        ⟨true, some AsmRegs.ESP.toAsmReg, 8⟩).mem.read 0x1000 4 = [0x8B, 0x44, 0x24, 0x08]
    ∧ ((create Memory.zero 0x1000 UNK_END_ADDR).movEaxMemEsp 8).mem.stores
        = ((create Memory.zero 0x1000 UNK_END_ADDR).movRegRm AsmRegs.EAX
            ⟨true, some AsmRegs.ESP.toAsmReg, 8⟩).mem.stores := by
  have h := C23_movEaxMemEsp_eq_generic (create Memory.zero 0x1000 UNK_END_ADDR) 8
    (by decide) (by decide) (by decide) (by decide)
  exact ⟨by decide, by decide, by decide, h.2.2.1, by rw [h.1]⟩

/-- C24: for every value `v`, the helper `addEsp(v)` and the generic call
`add(AsmRegMem(false, ESP), int8 v)` return the same state: the same stores,
the same memory and the same cursor; at a cursor `a` the stores are exactly
the three bytes `83 C4 v` at `a .. a + 2`, with no SIB byte, and the cursor
moves by 3. -/
theorem C24_addEsp_eq_generic (w : AsmWritter) (v : Int) (ha : w.m_addr < 4294967296) :
    w.addEsp v = w.addImm8 ⟨false, some AsmRegs.ESP.toAsmReg, 0⟩ v
    ∧ (w.addImm8 ⟨false, some AsmRegs.ESP.toAsmReg, 0⟩ v).mem.stores
        = w.mem.stores ++ storesAt w.m_addr [0x83, 0xC4, toUInt8 v]
    ∧ (w.addImm8 ⟨false, some AsmRegs.ESP.toAsmReg, 0⟩ v).mem.read w.m_addr 3
        = [0x83, 0xC4, toUInt8 v]
    ∧ (w.addImm8 ⟨false, some AsmRegs.ESP.toAsmReg, 0⟩ v).m_addr
        = (w.m_addr + 3) % 4294967296 := by
  have e : w.addImm8 ⟨false, some AsmRegs.ESP.toAsmReg, 0⟩ v = w.addEsp v := by
    simp [addImm8, addEsp, writeModRm, AsmRegs.ESP, AsmRegs.GPRN_SP, AsmReg32.toAsmReg]
  have e2 : w.addEsp v = w.emit [0x83, 0xC4, toUInt8 v] := by
    simp only [addEsp, putInt8_eq_putUInt8]
    rfl
  have hf := emit_facts [0x83, 0xC4, toUInt8 v] w ha (by simp) (by
    intro b hb
    have := toUInt8_lt v
    simp only [List.mem_cons, List.mem_singleton] at hb
    rcases hb with rfl | rfl | rfl | hb
    · decide
    · decide
    · exact this
    · simp at hb)
  rw [e, e2]
  exact ⟨rfl, hf.1, hf.2.1, hf.2.2⟩

/-- C24 at a concrete input: `addEsp(12)` at cursor 0x1000. -/
theorem C24_addEsp_eq_generic_witness :
    (create Memory.zero 0x1000 UNK_END_ADDR).m_addr < 4294967296
    ∧ ((create Memory.zero 0x1000 UNK_END_ADDR).addImm8
        ⟨false, some AsmRegs.ESP.toAsmReg, 0⟩ 12).mem.read 0x1000 3 = [0x83, 0xC4, 0x0C]
    ∧ ((create Memory.zero 0x1000 UNK_END_ADDR).addEsp 12).mem.stores
        = ((create Memory.zero 0x1000 UNK_END_ADDR).addImm8
            ⟨false, some AsmRegs.ESP.toAsmReg, 0⟩ 12).mem.stores := by
  have h := C24_addEsp_eq_generic (create Memory.zero 0x1000 UNK_END_ADDR) 12 (by decide)
  exact ⟨by decide, h.2.2.1, by rw [h.1]⟩

end AsmWritter

/-! ## The minidump callback -/

namespace MiniDumpHelper

theorem clear_data_seg_testBit (flags : Nat) (hf : flags < 4294967296) (i : Nat) :
    (flags &&& (0xFFFFFFFF ^^^ ModuleWriteDataSeg)).testBit i
      = (flags.testBit i && decide (i ≠ 1)) := by
  rw [Nat.testBit_land]
  by_cases hi : i < 32
  · have hc : (0xFFFFFFFF ^^^ ModuleWriteDataSeg).testBit i = decide (i ≠ 1) := by
      interval_cases i <;> decide
    rw [hc]
  · have h1 : flags.testBit i = false := by
      apply Nat.testBit_eq_false_of_lt
      calc flags < 2 ^ 32 := hf
        _ ≤ 2 ^ i := Nat.pow_le_pow_right (by decide) (by omega)
    simp [h1]

theorem is_data_section_needed_iff (lib : WideStringLib) (that : Helper)
    (module_name : List Nat) :
    is_data_section_needed lib that module_name = true
      ↔ ∃ name ∈ that.m_known_modules,
          lib.wcsicmp (lib.wsplitpath_fname module_name) name = 0 := by
  simp [is_data_section_needed]

theorem mini_dump_callback_cases (lib : WideStringLib) (that : Helper) (inp : CallbackInput)
    (out : CallbackOutput) (hflags : out.ModuleWriteFlags < 4294967296) :
    mini_dump_callback lib that none (some out) = (false, some out)
    ∧ mini_dump_callback lib that (some inp) none = (false, none)
    ∧ mini_dump_callback lib that none none = (false, none)
    ∧ ((mini_dump_callback lib that (some inp) (some out)).1 = true
        ↔ (inp.CallbackType = IncludeModuleCallback ∨ inp.CallbackType = IncludeThreadCallback
            ∨ inp.CallbackType = ModuleCallback ∨ inp.CallbackType = ThreadCallback
            ∨ inp.CallbackType = ThreadExCallback))
    ∧ (inp.CallbackType = MemoryCallback
        → (mini_dump_callback lib that (some inp) (some out)).1 = false)
    ∧ (inp.CallbackType = CancelCallback
        → (mini_dump_callback lib that (some inp) (some out)).1 = false)
    ∧ ((inp.CallbackType = ModuleCallback ∧ out.ModuleWriteFlags &&& ModuleWriteDataSeg ≠ 0
          ∧ is_data_section_needed lib that inp.ModuleFullPath = false)
        → ∃ out', (mini_dump_callback lib that (some inp) (some out)).2 = some out'
            ∧ out'.ModuleWriteFlags.testBit 1 = false
            ∧ out'.ModuleWriteFlags &&& ModuleWriteDataSeg = 0
            ∧ ∀ i, i ≠ 1 → out'.ModuleWriteFlags.testBit i = out.ModuleWriteFlags.testBit i)
    ∧ (¬ (inp.CallbackType = ModuleCallback ∧ out.ModuleWriteFlags &&& ModuleWriteDataSeg ≠ 0
          ∧ is_data_section_needed lib that inp.ModuleFullPath = false)
        → (mini_dump_callback lib that (some inp) (some out)).2 = some out) := by
  refine ⟨rfl, rfl, rfl, ?_, ?_, ?_, ?_, ?_⟩
  · simp only [mini_dump_callback, IncludeModuleCallback, IncludeThreadCallback, ModuleCallback,
      ThreadCallback, ThreadExCallback, MemoryCallback, CancelCallback]
    split_ifs <;> simp_all
  · intro h
    simp [mini_dump_callback, h, IncludeModuleCallback, IncludeThreadCallback, ModuleCallback,
      ThreadCallback, ThreadExCallback, MemoryCallback]
  · intro h
    simp [mini_dump_callback, h, IncludeModuleCallback, IncludeThreadCallback, ModuleCallback,
      ThreadCallback, ThreadExCallback, MemoryCallback, CancelCallback]
  · rintro ⟨h1, h2, h3⟩
    refine ⟨{ out with
      ModuleWriteFlags := out.ModuleWriteFlags &&& (0xFFFFFFFF ^^^ ModuleWriteDataSeg) }, ?_, ?_, ?_, ?_⟩
    · simp [mini_dump_callback, h1, h2, h3, IncludeModuleCallback, IncludeThreadCallback,
        ModuleCallback]
    · show (out.ModuleWriteFlags &&& (0xFFFFFFFF ^^^ ModuleWriteDataSeg)).testBit 1 = false
      rw [clear_data_seg_testBit _ hflags]
      simp
    · show out.ModuleWriteFlags &&& (0xFFFFFFFF ^^^ ModuleWriteDataSeg) &&& ModuleWriteDataSeg = 0
      rw [Nat.land_assoc]
      have : (0xFFFFFFFF ^^^ ModuleWriteDataSeg) &&& ModuleWriteDataSeg = 0 := by decide
      rw [this]
      simp
    · intro i hi
      show (out.ModuleWriteFlags &&& (0xFFFFFFFF ^^^ ModuleWriteDataSeg)).testBit i = _
      rw [clear_data_seg_testBit _ hflags]
      simp [hi]
  · intro h
    simp only [mini_dump_callback]
    split_ifs <;> first | rfl | (exfalso; apply h; simp_all)

/-- C29: `mini_dump_callback` returns FALSE when `input` or `output` is null,
and leaves the output alone then; with both given it returns TRUE exactly for
the callback types IncludeModule, IncludeThread, Module, Thread and ThreadEx
(so FALSE for Memory, Cancel and every other type). A module is in the
known-modules list when `wcsicmp` finds the file-name part of its path equal
to an element of `m_known_modules`, and `is_data_section_needed` is true
exactly for these modules. The output is changed at most in
`ModuleWriteFlags`: when the type is `ModuleCallback`, the bit
`ModuleWriteDataSeg` is set and the module is not in the known-modules list,
the new flags have that bit clear and every other bit as before, so the flags
differ from the old ones; in every other case, in particular for a module of
the list, the output is returned as it was. -/
theorem C29_mini_dump_callback (lib : WideStringLib) (that : Helper) (inp : CallbackInput)
    (out : CallbackOutput) (hflags : out.ModuleWriteFlags < 4294967296) :
    mini_dump_callback lib that none (some out) = (false, some out)
    ∧ mini_dump_callback lib that (some inp) none = (false, none)
    ∧ mini_dump_callback lib that none none = (false, none)
    ∧ ((mini_dump_callback lib that (some inp) (some out)).1 = true
        ↔ (inp.CallbackType = IncludeModuleCallback ∨ inp.CallbackType = IncludeThreadCallback
            ∨ inp.CallbackType = ModuleCallback ∨ inp.CallbackType = ThreadCallback
            ∨ inp.CallbackType = ThreadExCallback))
    ∧ (inp.CallbackType = MemoryCallback
        → (mini_dump_callback lib that (some inp) (some out)).1 = false)
    ∧ (inp.CallbackType = CancelCallback
        → (mini_dump_callback lib that (some inp) (some out)).1 = false)
    ∧ (is_data_section_needed lib that inp.ModuleFullPath = true
        ↔ ∃ name ∈ that.m_known_modules,
            lib.wcsicmp (lib.wsplitpath_fname inp.ModuleFullPath) name = 0)
    ∧ ((inp.CallbackType = ModuleCallback ∧ out.ModuleWriteFlags &&& ModuleWriteDataSeg ≠ 0
          ∧ ¬ ∃ name ∈ that.m_known_modules,
              lib.wcsicmp (lib.wsplitpath_fname inp.ModuleFullPath) name = 0)
        → ∃ out', (mini_dump_callback lib that (some inp) (some out)).2 = some out'
            ∧ out'.ModuleWriteFlags.testBit 1 = false
            ∧ out'.ModuleWriteFlags &&& ModuleWriteDataSeg = 0
            ∧ (∀ i, i ≠ 1 → out'.ModuleWriteFlags.testBit i = out.ModuleWriteFlags.testBit i)
            ∧ out' ≠ out)
    ∧ (¬ (inp.CallbackType = ModuleCallback ∧ out.ModuleWriteFlags &&& ModuleWriteDataSeg ≠ 0
          ∧ ¬ ∃ name ∈ that.m_known_modules,
              lib.wcsicmp (lib.wsplitpath_fname inp.ModuleFullPath) name = 0)
        → (mini_dump_callback lib that (some inp) (some out)).2 = some out)
    ∧ ((inp.CallbackType = ModuleCallback
          ∧ ∃ name ∈ that.m_known_modules,
              lib.wcsicmp (lib.wsplitpath_fname inp.ModuleFullPath) name = 0)
        → mini_dump_callback lib that (some inp) (some out) = (true, some out)) := by
  have hk := is_data_section_needed_iff lib that inp.ModuleFullPath
  have hn : is_data_section_needed lib that inp.ModuleFullPath = false
      ↔ ¬ ∃ name ∈ that.m_known_modules,
          lib.wcsicmp (lib.wsplitpath_fname inp.ModuleFullPath) name = 0 := by
    rw [← hk]; simp
  obtain ⟨c1, c2, c3, c4, c5, c6, c7, c8⟩ := mini_dump_callback_cases lib that inp out hflags
  refine ⟨c1, c2, c3, c4, c5, c6, hk, ?_, ?_, ?_⟩
  · rintro ⟨h1, h2, h3⟩
    obtain ⟨out', e, b1, b2, b3⟩ := c7 ⟨h1, h2, hn.mpr h3⟩
    refine ⟨out', e, b1, b2, b3, ?_⟩
    intro heq
    rw [heq] at b2
    exact h2 b2
  · intro h
    exact c8 (fun ⟨h1, h2, h3⟩ => h ⟨h1, h2, hn.mp h3⟩)
  · rintro ⟨h1, h2⟩
    have e2 := c8 (fun ⟨_, _, h3⟩ => (hn.mp h3) h2)
    have e1 : (mini_dump_callback lib that (some inp) (some out)).1 = true :=
      c4.mpr (Or.inr (Or.inr (Or.inl h1)))
    exact Prod.ext e1 e2

/-- C29 at a concrete input, with the known-modules list `["k"]` and flags
`0x1F`: a module callback for the module `x`, which is not in the list, clears
bit 1 and gives `0x1D`; a module callback for the module `k` of the list
leaves the flags at `0x1F`; a memory callback returns FALSE. -/
theorem C29_mini_dump_callback_witness :
    (0x1F : Nat) < 4294967296
    ∧ mini_dump_callback ⟨fun p => p, fun a b => if a = b then 0 else 1⟩ ⟨[[107]]⟩
        (some ⟨ModuleCallback, [120]⟩) (some ⟨0x1F⟩) = (true, some ⟨0x1D⟩)
    ∧ mini_dump_callback ⟨fun p => p, fun a b => if a = b then 0 else 1⟩ ⟨[[107]]⟩
        (some ⟨ModuleCallback, [107]⟩) (some ⟨0x1F⟩) = (true, some ⟨0x1F⟩)
    ∧ ((mini_dump_callback ⟨fun p => p, fun a b => if a = b then 0 else 1⟩ ⟨[[107]]⟩
        (some ⟨MemoryCallback, [120]⟩) (some ⟨0x1F⟩)).1 = false) := by
  have h := C29_mini_dump_callback ⟨fun p => p, fun a b => if a = b then 0 else 1⟩ ⟨[[107]]⟩
    ⟨MemoryCallback, [120]⟩ ⟨0x1F⟩ (by decide)
  have hknown := (C29_mini_dump_callback ⟨fun p => p, fun a b => if a = b then 0 else 1⟩
    ⟨[[107]]⟩ ⟨ModuleCallback, [107]⟩ ⟨0x1F⟩ (by decide)).2.2.2.2.2.2.2.2.2
    ⟨rfl, [107], by simp, by simp⟩
  exact ⟨by decide, by decide, hknown, h.2.2.2.2.1 rfl⟩

end MiniDumpHelper

/-! ## Trigger patches -/

namespace Trigger

set_option maxRecDepth 100000 in
theorem solo_or_teleport_bit (x : Nat) (hx : x < 256) :
    ((x &&& (TRIGGER_SOLO ||| TRIGGER_TELEPORT)) != 0) = true
      ↔ (x &&& 0x4 ≠ 0 ∨ x &&& 0x8 ≠ 0) := by
  revert x
  decide

theorem is_solo_iff (name : List Nat) :
    ((ext_flags name &&& (TRIGGER_SOLO ||| TRIGGER_TELEPORT)) != 0) = true
      ↔ (name.getD 0 0 = 0xAB
          ∧ (name.getD 1 0 % 256 &&& 0x4 ≠ 0 ∨ name.getD 1 0 % 256 &&& 0x8 ≠ 0)) := by
  unfold ext_flags
  generalize name.getD 0 0 = a
  generalize name.getD 1 0 = b
  split_ifs with h
  · rw [solo_or_teleport_bit _ (Nat.mod_lt _ (by decide))]
    exact ⟨fun hb => ⟨h, hb⟩, fun hb => hb.2⟩
  · constructor
    · intro hb
      exact absurd hb (by decide)
    · intro hb
      exact absurd hb.1 h

end Trigger

namespace Trigger

/-- The callback of `TriggerActivate_hook` by cases: no player; a player of
another team; a solo or teleport trigger in a locally hosted net game; the
rest. -/
theorem TriggerActivate_hook_cases (game : Game) (g : Option Player) (trigger : TriggerObj)
    (h_entity : Int) (skip_movers : Bool) :
    (game.GetPlayerFromEntityHandle h_entity = none
      ∧ TriggerActivate_hook game g trigger h_entity skip_movers
          = ([.TriggerActivate_CallTarget trigger h_entity skip_movers g], none))
    ∨ (∃ p, game.GetPlayerFromEntityHandle h_entity = some p
        ∧ (trigger.team ≠ -1 ∧ trigger.team ≠ p.team)
        ∧ TriggerActivate_hook game g trigger h_entity skip_movers = ([], g))
    ∨ (∃ p, game.GetPlayerFromEntityHandle h_entity = some p
        ∧ ¬ (trigger.team ≠ -1 ∧ trigger.team ≠ p.team)
        ∧ (game.is_net_game = true ∧ game.is_local_net_game = true
            ∧ ((ext_flags trigger.name &&& (TRIGGER_SOLO ||| TRIGGER_TELEPORT)) != 0) = true)
        ∧ some p.addr ≠ game.local_player.map Player.addr
        ∧ TriggerActivate_hook game g trigger h_entity skip_movers
            = (SendTriggerActivatePacket p trigger.uid h_entity, g))
    ∨ (∃ p, game.GetPlayerFromEntityHandle h_entity = some p
        ∧ ¬ (trigger.team ≠ -1 ∧ trigger.team ≠ p.team)
        ∧ (game.is_net_game = true ∧ game.is_local_net_game = true
            ∧ ((ext_flags trigger.name &&& (TRIGGER_SOLO ||| TRIGGER_TELEPORT)) != 0) = true)
        ∧ some p.addr = game.local_player.map Player.addr
        ∧ TriggerActivate_hook game g trigger h_entity skip_movers
            = ([.TriggerActivate_CallTarget trigger h_entity skip_movers (some p)], none))
    ∨ (∃ p, game.GetPlayerFromEntityHandle h_entity = some p
        ∧ ¬ (trigger.team ≠ -1 ∧ trigger.team ≠ p.team)
        ∧ ¬ (game.is_net_game = true ∧ game.is_local_net_game = true
            ∧ ((ext_flags trigger.name &&& (TRIGGER_SOLO ||| TRIGGER_TELEPORT)) != 0) = true)
        ∧ TriggerActivate_hook game g trigger h_entity skip_movers
            = ([.TriggerActivate_CallTarget trigger h_entity skip_movers g], none)) := by
  cases hp : game.GetPlayerFromEntityHandle h_entity with
  | none =>
    left
    refine ⟨rfl, ?_⟩
    simp [TriggerActivate_hook, hp]
  | some p =>
    right
    by_cases hA : trigger.team ≠ -1 ∧ trigger.team ≠ p.team
    · left
      refine ⟨p, rfl, hA, ?_⟩
      simp [TriggerActivate_hook, hp, hA.1, hA.2]
    · right
      have hA' : (trigger.team != -1 && trigger.team != p.team) = false := by
        rw [Bool.eq_false_iff]
        intro hc
        simp only [Bool.and_eq_true, bne_iff_ne, ne_eq] at hc
        exact hA hc
      by_cases hS : game.is_net_game = true ∧ game.is_local_net_game = true
          ∧ ((ext_flags trigger.name &&& (TRIGGER_SOLO ||| TRIGGER_TELEPORT)) != 0) = true
      · have hS' : (game.is_net_game && game.is_local_net_game
            && (ext_flags trigger.name &&& (TRIGGER_SOLO ||| TRIGGER_TELEPORT)) != 0) = true := by
          simp only [Bool.and_eq_true]
          exact ⟨⟨hS.1, hS.2.1⟩, hS.2.2⟩
        by_cases hL : some p.addr = game.local_player.map Player.addr
        · right; left
          refine ⟨p, rfl, hA, hS, hL, ?_⟩
          simp only [TriggerActivate_hook, hp, hA', hS', if_true, Bool.false_eq_true, if_false]
          simp [hL]
        · left
          refine ⟨p, rfl, hA, hS, hL, ?_⟩
          simp only [TriggerActivate_hook, hp, hA', hS', if_true, Bool.false_eq_true, if_false]
          simp [hL]
      · right; right
        have hS' : (game.is_net_game && game.is_local_net_game
            && (ext_flags trigger.name &&& (TRIGGER_SOLO ||| TRIGGER_TELEPORT)) != 0) = false := by
          rw [Bool.eq_false_iff]
          intro hc
          simp only [Bool.and_eq_true] at hc
          exact hS ⟨hc.1.1, hc.1.2, hc.2⟩
        refine ⟨p, rfl, hA, hS, ?_⟩
        simp only [TriggerActivate_hook, hp, hA', hS', Bool.false_eq_true, if_false]

end Trigger

namespace Trigger

/-- C26: in the callback of `TriggerActivate_hook`, with (a) "the entity has a
player, the trigger team is not -1 and differs from the player's team" and (b)
"the game is a net game hosted locally, the trigger name starts with the byte
`0xAB`, its second byte has bit `0x4` or bit `0x8` set, and the entity has a
player that is not the local player": if neither (a) nor (b) holds the calls
made are exactly one `CallTarget` with the arguments of the callback; if (a)
or (b) holds no `CallTarget` is made; if (b) holds and (a) does not, the calls
made are exactly one `NwSendReliablePacket` to that player, of a packet with
the trigger's uid and the entity handle. -/
theorem C26_trigger_activate_calls (game : Game) (g : Option Player) (trigger : TriggerObj)
    (h_entity : Int) (skip_movers : Bool) :
    ((¬ (∃ p, game.GetPlayerFromEntityHandle h_entity = some p
            ∧ trigger.team ≠ -1 ∧ trigger.team ≠ p.team)
        ∧ ¬ (game.is_net_game = true ∧ game.is_local_net_game = true
            ∧ trigger.name.getD 0 0 = 0xAB
            ∧ (trigger.name.getD 1 0 % 256 &&& 0x4 ≠ 0 ∨ trigger.name.getD 1 0 % 256 &&& 0x8 ≠ 0)
            ∧ ∃ p, game.GetPlayerFromEntityHandle h_entity = some p
                ∧ some p.addr ≠ game.local_player.map Player.addr))
      → countCallTarget (TriggerActivate_hook game g trigger h_entity skip_movers).1 = 1
        ∧ ∃ gd, (TriggerActivate_hook game g trigger h_entity skip_movers).1
            = [.TriggerActivate_CallTarget trigger h_entity skip_movers gd])
    ∧ (((∃ p, game.GetPlayerFromEntityHandle h_entity = some p
            ∧ trigger.team ≠ -1 ∧ trigger.team ≠ p.team)
        ∨ (game.is_net_game = true ∧ game.is_local_net_game = true
            ∧ trigger.name.getD 0 0 = 0xAB
            ∧ (trigger.name.getD 1 0 % 256 &&& 0x4 ≠ 0 ∨ trigger.name.getD 1 0 % 256 &&& 0x8 ≠ 0)
            ∧ ∃ p, game.GetPlayerFromEntityHandle h_entity = some p
                ∧ some p.addr ≠ game.local_player.map Player.addr))
      → countCallTarget (TriggerActivate_hook game g trigger h_entity skip_movers).1 = 0)
    ∧ (((game.is_net_game = true ∧ game.is_local_net_game = true
            ∧ trigger.name.getD 0 0 = 0xAB
            ∧ (trigger.name.getD 1 0 % 256 &&& 0x4 ≠ 0 ∨ trigger.name.getD 1 0 % 256 &&& 0x8 ≠ 0)
            ∧ ∃ p, game.GetPlayerFromEntityHandle h_entity = some p
                ∧ some p.addr ≠ game.local_player.map Player.addr)
        ∧ ¬ (∃ p, game.GetPlayerFromEntityHandle h_entity = some p
            ∧ trigger.team ≠ -1 ∧ trigger.team ≠ p.team))
      → ∃ p, game.GetPlayerFromEntityHandle h_entity = some p
          ∧ (TriggerActivate_hook game g trigger h_entity skip_movers).1
              = [.NwSendReliablePacket p { uid := trigger.uid, entity_handle := h_entity }]) := by
  have hsolo := is_solo_iff trigger.name
  rcases TriggerActivate_hook_cases game g trigger h_entity skip_movers with
    ⟨hp, e⟩ | ⟨p, hp, hA, e⟩ | ⟨p, hp, hA, hS, hL, e⟩ | ⟨p, hp, hA, hS, hL, e⟩ | ⟨p, hp, hA, hS, e⟩
  · -- no player
    have nA : ¬ (∃ p, game.GetPlayerFromEntityHandle h_entity = some p
        ∧ trigger.team ≠ -1 ∧ trigger.team ≠ p.team) := by
      rintro ⟨q, hq, _⟩; rw [hp] at hq; cases hq
    have nP : ¬ (∃ p, game.GetPlayerFromEntityHandle h_entity = some p
        ∧ some p.addr ≠ game.local_player.map Player.addr) := by
      rintro ⟨q, hq, _⟩; rw [hp] at hq; cases hq
    rw [e]
    refine ⟨fun _ => ⟨rfl, g, rfl⟩, ?_, ?_⟩
    · rintro (h | h)
      · exact absurd h nA
      · exact absurd h.2.2.2.2 nP
    · rintro ⟨h, _⟩
      exact absurd h.2.2.2.2 nP
  · -- a player of another team
    have yA : ∃ q, game.GetPlayerFromEntityHandle h_entity = some q
        ∧ trigger.team ≠ -1 ∧ trigger.team ≠ q.team := ⟨p, hp, hA.1, hA.2⟩
    rw [e]
    refine ⟨fun h => absurd yA h.1, fun _ => rfl, fun h => absurd yA h.2⟩
  · -- solo or teleport trigger, another player
    have yB : game.is_net_game = true ∧ game.is_local_net_game = true
        ∧ trigger.name.getD 0 0 = 0xAB
        ∧ (trigger.name.getD 1 0 % 256 &&& 0x4 ≠ 0 ∨ trigger.name.getD 1 0 % 256 &&& 0x8 ≠ 0)
        ∧ ∃ q, game.GetPlayerFromEntityHandle h_entity = some q
            ∧ some q.addr ≠ game.local_player.map Player.addr :=
      ⟨hS.1, hS.2.1, (hsolo.mp hS.2.2).1, (hsolo.mp hS.2.2).2, p, hp, hL⟩
    rw [e]
    refine ⟨fun h => absurd yB h.2, fun _ => rfl, fun _ => ⟨p, hp, rfl⟩⟩
  · -- solo or teleport trigger, the local player
    have nA : ¬ (∃ q, game.GetPlayerFromEntityHandle h_entity = some q
        ∧ trigger.team ≠ -1 ∧ trigger.team ≠ q.team) := by
      rintro ⟨q, hq, h1, h2⟩
      rw [hp] at hq; cases hq
      exact hA ⟨h1, h2⟩
    have nP : ¬ (∃ q, game.GetPlayerFromEntityHandle h_entity = some q
        ∧ some q.addr ≠ game.local_player.map Player.addr) := by
      rintro ⟨q, hq, h1⟩
      rw [hp] at hq; cases hq
      exact h1 hL
    rw [e]
    refine ⟨fun _ => ⟨rfl, some p, rfl⟩, ?_, ?_⟩
    · rintro (h | h)
      · exact absurd h nA
      · exact absurd h.2.2.2.2 nP
    · rintro ⟨h, _⟩
      exact absurd h.2.2.2.2 nP
  · -- any other trigger
    have nA : ¬ (∃ q, game.GetPlayerFromEntityHandle h_entity = some q
        ∧ trigger.team ≠ -1 ∧ trigger.team ≠ q.team) := by
      rintro ⟨q, hq, h1, h2⟩
      rw [hp] at hq; cases hq
      exact hA ⟨h1, h2⟩
    have nB : ¬ (game.is_net_game = true ∧ game.is_local_net_game = true
        ∧ trigger.name.getD 0 0 = 0xAB
        ∧ (trigger.name.getD 1 0 % 256 &&& 0x4 ≠ 0 ∨ trigger.name.getD 1 0 % 256 &&& 0x8 ≠ 0)
        ∧ ∃ q, game.GetPlayerFromEntityHandle h_entity = some q
            ∧ some q.addr ≠ game.local_player.map Player.addr) := by
      rintro ⟨h1, h2, h3, h4, _⟩
      exact hS ⟨h1, h2, hsolo.mpr ⟨h3, h4⟩⟩
    rw [e]
    refine ⟨fun _ => ⟨rfl, g, rfl⟩, ?_, ?_⟩
    · rintro (h | h)
      · exact absurd h nA
      · exact absurd h nB
    · rintro ⟨h, _⟩
      exact absurd h nB

/-- C27: if `g_trigger_solo_player` is null when the callback of
`TriggerActivate_hook` is entered, it is null when the callback returns; the
`CallTarget` the callback makes runs with a non-null `g_trigger_solo_player`
exactly when the game is a net game hosted locally, the trigger is a solo or
teleport trigger, the entity's player is the local player and the team check
passed, and the global is then that player; and the callback of
`SendTriggerActivatePacketToAllPlayers_hook` sends to one player, the one in
the global, exactly when the global is not null, and otherwise makes the
original broadcast call and nothing else. -/
theorem C27_trigger_solo_player_null_outside (game : Game) (trigger : TriggerObj)
    (h_entity : Int) (skip_movers : Bool) (uid handle : Int) (g : Option Player) :
    (TriggerActivate_hook game none trigger h_entity skip_movers).2 = none
    ∧ (∀ gd, Call.TriggerActivate_CallTarget trigger h_entity skip_movers gd
          ∈ (TriggerActivate_hook game none trigger h_entity skip_movers).1
        → (gd ≠ none
            ↔ (game.is_net_game = true ∧ game.is_local_net_game = true
                ∧ ((ext_flags trigger.name &&& (TRIGGER_SOLO ||| TRIGGER_TELEPORT)) != 0) = true
                ∧ ∃ p, game.GetPlayerFromEntityHandle h_entity = some p
                    ∧ some p.addr = game.local_player.map Player.addr
                    ∧ ¬ (trigger.team ≠ -1 ∧ trigger.team ≠ p.team)
                    ∧ gd = some p)))
    ∧ (∀ t h s gd, Call.TriggerActivate_CallTarget t h s gd
          ∈ (TriggerActivate_hook game none trigger h_entity skip_movers).1
        → t = trigger ∧ h = h_entity ∧ s = skip_movers)
    ∧ (∀ p, g = some p → SendTriggerActivatePacketToAllPlayers_hook g uid handle
        = [.NwSendReliablePacket p { uid := uid, entity_handle := handle }])
    ∧ (g = none → SendTriggerActivatePacketToAllPlayers_hook g uid handle
        = [.SendToAllPlayers_CallTarget uid handle]) := by
  refine ⟨?_, ?_, ?_, ?_, ?_⟩
  · rcases TriggerActivate_hook_cases game none trigger h_entity skip_movers with
      ⟨_, e⟩ | ⟨p, _, _, e⟩ | ⟨p, _, _, _, _, e⟩ | ⟨p, _, _, _, _, e⟩ | ⟨p, _, _, _, e⟩ <;>
      rw [e]
  · intro gd hmem
    rcases TriggerActivate_hook_cases game none trigger h_entity skip_movers with
      ⟨hp, e⟩ | ⟨p, hp, hA, e⟩ | ⟨p, hp, hA, hS, hL, e⟩ | ⟨p, hp, hA, hS, hL, e⟩
        | ⟨p, hp, hA, hS, e⟩
    · rw [e] at hmem
      simp only [List.mem_singleton, Call.TriggerActivate_CallTarget.injEq, true_and] at hmem
      subst hmem
      constructor
      · intro h; exact absurd rfl h
      · rintro ⟨_, _, _, q, hq, _⟩
        rw [hp] at hq; cases hq
    · rw [e] at hmem
      simp at hmem
    · rw [e] at hmem
      simp [SendTriggerActivatePacket] at hmem
    · rw [e] at hmem
      simp only [List.mem_singleton, Call.TriggerActivate_CallTarget.injEq, true_and] at hmem
      subst hmem
      constructor
      · intro _
        exact ⟨hS.1, hS.2.1, hS.2.2, p, hp, hL, hA, rfl⟩
      · intro _
        simp
    · rw [e] at hmem
      simp only [List.mem_singleton, Call.TriggerActivate_CallTarget.injEq, true_and] at hmem
      subst hmem
      constructor
      · intro h; exact absurd rfl h
      · rintro ⟨h1, h2, h3, _⟩
        exact absurd ⟨h1, h2, h3⟩ hS
  · intro t h s gd hmem
    rcases TriggerActivate_hook_cases game none trigger h_entity skip_movers with
      ⟨_, e⟩ | ⟨p, _, _, e⟩ | ⟨p, _, _, _, _, e⟩ | ⟨p, _, _, _, _, e⟩ | ⟨p, _, _, _, e⟩ <;>
      rw [e] at hmem <;> simp [SendTriggerActivatePacket] at hmem <;>
      exact ⟨hmem.1, hmem.2.1, hmem.2.2.1⟩
  · intro p hg
    subst hg
    rfl
  · intro hg
    subst hg
    rfl

end Trigger

namespace Trigger

/-- C26 at a concrete input: a locally hosted net game, local player at 1, the
entity's player at 2, a solo trigger named `AB 04` with uid 7 and no team:
one packet goes to the player at 2 and no `CallTarget` is made. -/
theorem C26_trigger_activate_calls_witness :
    (TriggerActivate_hook ⟨true, true, some ⟨1, 0⟩, fun _ => some ⟨2, 0⟩⟩ none
        ⟨[0xAB, 0x04], 7, -1⟩ 5 false).1
      = [.NwSendReliablePacket ⟨2, 0⟩ { uid := 7, entity_handle := 5 }]
    ∧ countCallTarget (TriggerActivate_hook ⟨true, true, some ⟨1, 0⟩, fun _ => some ⟨2, 0⟩⟩ none
        ⟨[0xAB, 0x04], 7, -1⟩ 5 false).1 = 0 := by
  have h := C26_trigger_activate_calls ⟨true, true, some ⟨1, 0⟩, fun _ => some ⟨2, 0⟩⟩ none
    ⟨[0xAB, 0x04], 7, -1⟩ 5 false
  have hB : (true = true ∧ true = true ∧ ([0xAB, 0x04] : List Nat).getD 0 0 = 0xAB
      ∧ (([0xAB, 0x04] : List Nat).getD 1 0 % 256 &&& 0x4 ≠ 0
          ∨ ([0xAB, 0x04] : List Nat).getD 1 0 % 256 &&& 0x8 ≠ 0)
      ∧ ∃ p : Player, (fun _ : Int => some (⟨2, 0⟩ : Player)) 5 = some p
          ∧ some p.addr ≠ (some (⟨1, 0⟩ : Player)).map Player.addr) :=
    ⟨rfl, rfl, by decide, Or.inl (by decide), ⟨2, 0⟩, rfl, by decide⟩
  refine ⟨?_, h.2.1 (Or.inr hB)⟩
  obtain ⟨p, hp, e⟩ := h.2.2 ⟨hB, by rintro ⟨q, _, h1, _⟩; exact h1 rfl⟩
  have : p = ⟨2, 0⟩ := by
    simp only [Option.some.injEq] at hp
    exact hp.symm
  rw [e, this]

/-- C27 at a concrete input: the local player at 1 activates the solo trigger
`AB 04` in a locally hosted net game: the global is null again on return. -/
theorem C27_trigger_solo_player_null_outside_witness :
    (TriggerActivate_hook ⟨true, true, some ⟨1, 0⟩, fun _ => some ⟨1, 0⟩⟩ none
        ⟨[0xAB, 0x04], 7, -1⟩ 5 false).2 = none
    ∧ (TriggerActivate_hook ⟨true, true, some ⟨1, 0⟩, fun _ => some ⟨1, 0⟩⟩ none
        ⟨[0xAB, 0x04], 7, -1⟩ 5 false).1
      = [.TriggerActivate_CallTarget ⟨[0xAB, 0x04], 7, -1⟩ 5 false (some ⟨1, 0⟩)]
    ∧ SendTriggerActivatePacketToAllPlayers_hook (some ⟨1, 0⟩) 7 5
      = [.NwSendReliablePacket ⟨1, 0⟩ { uid := 7, entity_handle := 5 }] :=
  ⟨(C27_trigger_solo_player_null_outside ⟨true, true, some ⟨1, 0⟩, fun _ => some ⟨1, 0⟩⟩
      ⟨[0xAB, 0x04], 7, -1⟩ 5 false 7 5 (some ⟨1, 0⟩)).1, by decide,
    (C27_trigger_solo_player_null_outside ⟨true, true, some ⟨1, 0⟩, fun _ => some ⟨1, 0⟩⟩
      ⟨[0xAB, 0x04], 7, -1⟩ 5 false 7 5 (some ⟨1, 0⟩)).2.2.2.1 ⟨1, 0⟩ rfl⟩

end Trigger

/-! ## Network patches -/

namespace Network

theorem CStringAt_tail (m : Memory) (p c : Nat) (t : List Nat) (h : CStringAt m p (c :: t)) :
    CStringAt m (p + 1) t := by
  obtain ⟨h1, h2, h3⟩ := h
  refine ⟨?_, ?_, ?_⟩
  · intro i hi
    have := h1 (i + 1) (by simpa using hi)
    rw [show p + 1 + i = p + (i + 1) by omega]
    simpa using this
  · rw [show p + 1 + t.length = p + (c :: t).length by simp; omega]
    exact h2
  · intro b hb
    exact h3 b (List.mem_cons_of_mem _ hb)

theorem strncpyBytes_eq (s : List Nat) (m : Memory) (src n : Nat) (h : CStringAt m src s) :
    strncpyBytes m src n = s.take n ++ List.replicate (n - s.length) 0 := by
  induction s generalizing src n with
  | nil =>
    have h0 : m.bytes (src % 4294967296) = 0 := by simpa using h.2.1
    cases n with
    | zero => rfl
    | succ n => simp [strncpyBytes, h0]
  | cons c t ih =>
    have hc : m.bytes (src % 4294967296) = c := by simpa using h.1 0 (by simp)
    have hc0 : c ≠ 0 := (h.2.2 c (List.mem_cons_self _ _)).1
    cases n with
    | zero => simp [strncpyBytes]
    | succ n =>
      simp only [strncpyBytes, hc, hc0, if_false, List.take_succ_cons, List.length_cons,
        List.cons_append]
      rw [ih (src + 1) n (CStringAt_tail m src c t h)]
      congr 3
      omega

theorem strncpyBytes_length (m : Memory) (src n : Nat) : (strncpyBytes m src n).length = n := by
  induction n generalizing src with
  | zero => rfl
  | succ n ih =>
    simp only [strncpyBytes]
    split_ifs
    · simp
    · simp [ih]

end Network

namespace Network

theorem getD_take_append (s r : List Nat) (n i : Nat) (hi : i < s.length) (hn : i < n) :
    (s.take n ++ r).getD i 0 = s.getD i 0 := by
  rw [List.getD_eq_getElem?_getD, List.getD_eq_getElem?_getD,
    List.getElem?_append_left (by rw [List.length_take]; omega), List.getElem?_take_of_lt hn]

theorem getD_append_replicate_zero (l : List Nat) (k j : Nat) (hj : l.length ≤ j) :
    (l ++ List.replicate k 0).getD j 0 = 0 := by
  rw [List.getD_eq_getElem?_getD, List.getElem?_append_right hj, List.getElem?_replicate]
  split_ifs <;> rfl

/-- C22: for `DestSize ≥ 1`, a destination buffer `[pDest, pDest + DestSize)`
inside the address space and a NUL-terminated source string with the bytes
`s` before its NUL (not overlapping the destination): after
`SafeStrCpy(pDest, pSrc, DestSize)` the destination holds the first
`k = min(strlen, DestSize - 1)` bytes of the source followed by a NUL at offset
`k`; every store made is at an address in `[pDest, pDest + DestSize)`; and
every byte outside that range is unchanged. -/
theorem C22_SafeStrCpy_bounded (m : Memory) (pDest pSrc DestSize : Nat) (s : List Nat)
    (hsize : 1 ≤ DestSize) (hdest : pDest + DestSize ≤ 4294967296) (hstr : CStringAt m pSrc s)
    (_hsep : pSrc + s.length < pDest ∨ pDest + DestSize ≤ pSrc) :
    (∀ i, i < min s.length (DestSize - 1)
        → (SafeStrCpy m pDest pSrc DestSize).bytes (pDest + i) = s.getD i 0)
    ∧ (SafeStrCpy m pDest pSrc DestSize).bytes (pDest + min s.length (DestSize - 1)) = 0
    ∧ (∀ p ∈ (SafeStrCpy m pDest pSrc DestSize).stores.drop m.stores.length,
        pDest ≤ p.1 ∧ p.1 < pDest + DestSize)
    ∧ ((SafeStrCpy m pDest pSrc DestSize).stores.drop m.stores.length).length = DestSize + 1
    ∧ (∀ x, (x < pDest ∨ pDest + DestSize ≤ x)
        → (SafeStrCpy m pDest pSrc DestSize).bytes x = m.bytes x) := by
  have hlast : (pDest + (DestSize + 4294967296 - 1) % 4294967296) % 4294967296
      = pDest + DestSize - 1 := by omega
  have hbs := strncpyBytes_eq s m pSrc DestSize hstr
  have hlen := strncpyBytes_length m pSrc DestSize
  have hbytes : ∀ x, (SafeStrCpy m pDest pSrc DestSize).bytes x
      = if x = pDest + DestSize - 1 then 0
        else (WriteMem m pDest (strncpyBytes m pSrc DestSize)).bytes x := by
    intro x
    simp only [SafeStrCpy, strncpy, Memory.store, hlast]
  have hhit : ∀ j, j < DestSize → (WriteMem m pDest (strncpyBytes m pSrc DestSize)).bytes (pDest + j)
      = (strncpyBytes m pSrc DestSize).getD j 0 % 256 := by
    intro j hj
    have := AsmWritter.WriteMem_bytes_hit (strncpyBytes m pSrc DestSize) m pDest j (by rw [hlen]; omega)
      (by rw [hlen]; exact hj)
    rwa [Nat.mod_eq_of_lt (by omega)] at this
  refine ⟨?_, ?_, ?_, ?_, ?_⟩
  · intro i hi
    rw [hbytes, if_neg (by omega), hhit i (by omega), hbs,
      getD_take_append s _ DestSize i (by omega) (by omega)]
    apply Nat.mod_eq_of_lt
    have hmem : s.getD i 0 ∈ s := by
      rw [List.getD_eq_getElem?_getD, List.getElem?_eq_getElem (by omega)]
      exact List.getElem_mem _
    exact (hstr.2.2 _ hmem).2
  · rw [hbytes]
    split_ifs with hk
    · rfl
    · have hk2 : min s.length (DestSize - 1) = s.length := by omega
      rw [hk2, hhit s.length (by omega), hbs,
        getD_append_replicate_zero _ _ _ (by rw [List.length_take]; omega)]
  · intro p hp
    have hst : (SafeStrCpy m pDest pSrc DestSize).stores
        = m.stores ++ (storesAt pDest (strncpyBytes m pSrc DestSize)
            ++ [(pDest + DestSize - 1, 0)]) := by
      simp only [SafeStrCpy, strncpy, Memory.store, hlast, WriteMem_stores, List.append_assoc]
    rw [hst, List.drop_left] at hp
    rcases List.mem_append.mp hp with hp | hp
    · have := AsmWritter.storesAt_mem_bound _ _ p hp (by rw [hlen]; exact hdest)
      rw [hlen] at this
      exact this
    · simp only [List.mem_singleton] at hp
      subst hp
      constructor <;> simp only <;> omega
  · have hst : (SafeStrCpy m pDest pSrc DestSize).stores
        = m.stores ++ (storesAt pDest (strncpyBytes m pSrc DestSize)
            ++ [(pDest + DestSize - 1, 0)]) := by
      simp only [SafeStrCpy, strncpy, Memory.store, hlast, WriteMem_stores, List.append_assoc]
    rw [hst, List.drop_left, List.length_append, AsmWritter.storesAt_length, hlen]
    rfl
  · intro x hx
    rw [hbytes, if_neg (by omega)]
    apply WriteMem_bytes_frame
    intro j hj
    rw [hlen] at hj
    rw [Nat.mod_eq_of_lt (by omega)]
    omega

end Network

namespace Network

/-- C22 at a concrete input: the string "hi" at 0x2000 copied into a buffer of
two bytes at 0x1000 gives "h" and a NUL, and 0x1002 is not touched. -/
theorem C22_SafeStrCpy_bounded_witness :
    (SafeStrCpy ⟨fun x => if x = 0x2000 then 104 else if x = 0x2001 then 105 else
        if x = 0x1002 then 7 else 0, []⟩ 0x1000 0x2000 2).bytes 0x1000 = 104
    ∧ (SafeStrCpy ⟨fun x => if x = 0x2000 then 104 else if x = 0x2001 then 105 else
        if x = 0x1002 then 7 else 0, []⟩ 0x1000 0x2000 2).bytes 0x1001 = 0
    ∧ (SafeStrCpy ⟨fun x => if x = 0x2000 then 104 else if x = 0x2001 then 105 else
        if x = 0x1002 then 7 else 0, []⟩ 0x1000 0x2000 2).bytes 0x1002 = 7 := by
  have hstr : CStringAt ⟨fun x => if x = 0x2000 then 104 else if x = 0x2001 then 105 else
      if x = 0x1002 then 7 else 0, []⟩ 0x2000 [104, 105] := by
    refine ⟨?_, by decide, by decide⟩
    intro i hi
    simp only [List.length_cons, List.length_nil] at hi
    interval_cases i <;> decide
  have h := C22_SafeStrCpy_bounded ⟨fun x => if x = 0x2000 then 104 else if x = 0x2001 then 105
      else if x = 0x1002 then 7 else 0, []⟩ 0x1000 0x2000 2 [104, 105] (by decide) (by decide)
    hstr (Or.inr (by decide))
  refine ⟨h.1 0 (by decide), h.2.1, ?_⟩
  have h3 := h.2.2.2.2 0x1002 (Or.inr (by decide))
  rw [h3]
  decide

end Network

/-! ## Level download -/

namespace LevelDownload

theorem lines_takeLine (ss : List Char) :
    ∃ rest, lines ss = (takeLine ss).1 :: rest
      ∧ ((takeLine ss).2 ≠ [] → rest = lines (takeLine ss).2) := by
  induction ss with
  | nil => exact ⟨[], rfl, fun h => absurd rfl h⟩
  | cons c cs ih =>
    by_cases hc : c = newline
    · exact ⟨lines cs, by simp [lines, takeLine, hc], fun _ => by simp [takeLine, hc]⟩
    · obtain ⟨rest, h1, h2⟩ := ih
      refine ⟨rest, by simp [lines, takeLine, hc, h1], ?_⟩
      intro h
      simp only [takeLine, hc, if_false] at h ⊢
      exact h2 h

theorem getline_ok (ss l r : List Char) (h : getline ss = .ok (l, r)) :
    ss ≠ [] ∧ ∃ rest, lines ss = l :: rest ∧ (r ≠ [] → rest = lines r) := by
  cases ss with
  | nil => simp [getline] at h
  | cons c cs =>
    simp only [getline, Except.ok.injEq] at h
    obtain ⟨rest, h1, h2⟩ := lines_takeLine (c :: cs)
    rw [h] at h1 h2
    exact ⟨by simp, rest, h1, h2⟩

end LevelDownload

namespace LevelDownload

/-- What a returned value of `parse_level_download_info` tells about the
steps that produced it. -/
theorem parse_some_steps (lib : Conversions) (buf : List Char) (info : LevelDownloadInfo)
    (h : parse_level_download_info lib buf = .ok (some info)) :
    ∃ s1 s2 s3 s4 s5 s6 sizeLine ticketLine,
      getline buf = .ok ("found".toList, s1)
      ∧ getline s1 = .ok (info.name, s2)
      ∧ getline s2 = .ok (info.author, s3)
      ∧ getline s3 = .ok (info.description, s4)
      ∧ getline s4 = .ok (sizeLine, s5)
      ∧ lib.toSizeInBytes sizeLine = .ok info.size_in_bytes
      ∧ info.size_in_bytes ≠ 0
      ∧ getline s5 = .ok (ticketLine, s6)
      ∧ lib.stoi ticketLine = .ok info.ticket_id
      ∧ 0 < info.ticket_id := by
  unfold parse_level_download_info at h
  cases h0 : getline buf with
  | error e => rw [h0] at h; cases h
  | ok p0 =>
    obtain ⟨temp, s1⟩ := p0
    rw [h0] at h
    simp only at h
    by_cases hf : temp = "found".toList
    swap
    · rw [if_pos hf] at h; cases h
    rw [if_neg (not_not.mpr hf)] at h
    cases h1 : getline s1 with
    | error e => rw [h1] at h; cases h
    | ok p1 =>
      obtain ⟨name, s2⟩ := p1
      rw [h1] at h
      simp only at h
      cases h2 : getline s2 with
      | error e => rw [h2] at h; cases h
      | ok p2 =>
        obtain ⟨author, s3⟩ := p2
        rw [h2] at h
        simp only at h
        cases h3 : getline s3 with
        | error e => rw [h3] at h; cases h
        | ok p3 =>
          obtain ⟨description, s4⟩ := p3
          rw [h3] at h
          simp only at h
          cases h4 : getline s4 with
          | error e => rw [h4] at h; cases h
          | ok p4 =>
            obtain ⟨sizeLine, s5⟩ := p4
            rw [h4] at h
            simp only at h
            cases h5 : lib.toSizeInBytes sizeLine with
            | error e => rw [h5] at h; cases h
            | ok size =>
              rw [h5] at h
              simp only at h
              by_cases hz : size = 0
              · rw [if_pos hz] at h; cases h
              rw [if_neg hz] at h
              cases h6 : getline s5 with
              | error e => rw [h6] at h; cases h
              | ok p6 =>
                obtain ⟨ticketLine, s6⟩ := p6
                rw [h6] at h
                simp only at h
                cases h7 : lib.stoi ticketLine with
                | error e => rw [h7] at h; cases h
                | ok ticket =>
                  rw [h7] at h
                  simp only at h
                  by_cases ht : ticket ≤ 0
                  · rw [if_pos ht] at h; cases h
                  rw [if_neg ht] at h
                  simp only [Except.ok.injEq, Option.some.injEq] at h
                  subst h
                  subst hf
                  exact ⟨s1, s2, s3, s4, s5, s6, sizeLine, ticketLine, rfl, h1, h2, h3, h4, h5,
                    hz, h6, h7, Int.lt_of_not_ge ht⟩

/-- C25: every value `parse_level_download_info` returns has
`size_in_bytes > 0` and `ticket_id > 0`, the response it was returned for has
"found" as its first line, and the name, author and description are the
second, third and fourth line of the response; for a response whose first
line is not "found" the function returns the empty optional or throws. -/
theorem C25_parse_level_download_info (lib : Conversions) (buf : List Char) :
    (∀ info, parse_level_download_info lib buf = .ok (some info)
      → (lines buf)[0]? = some "found".toList
        ∧ (lines buf)[1]? = some info.name
        ∧ (lines buf)[2]? = some info.author
        ∧ (lines buf)[3]? = some info.description
        ∧ 0 < info.size_in_bytes
        ∧ 0 < info.ticket_id)
    ∧ ((lines buf)[0]? ≠ some "found".toList
      → parse_level_download_info lib buf = .ok none
        ∨ ∃ e, parse_level_download_info lib buf = .error e) := by
  constructor
  · intro info h
    obtain ⟨s1, s2, s3, s4, s5, s6, sizeLine, ticketLine, g0, g1, g2, g3, g4, _, hz, _, _, ht⟩ :=
      parse_some_steps lib buf info h
    obtain ⟨_, r0, e0, c0⟩ := getline_ok _ _ _ g0
    obtain ⟨n1, r1, e1, c1⟩ := getline_ok _ _ _ g1
    obtain ⟨n2, r2, e2, c2⟩ := getline_ok _ _ _ g2
    obtain ⟨n3, r3, e3, _⟩ := getline_ok _ _ _ g3
    have hl : lines buf = "found".toList :: info.name :: info.author :: info.description :: r3 := by
      rw [e0, c0 n1, e1, c1 n2, e2, c2 n3, e3]
    rw [hl]
    exact ⟨by simp, by simp, by simp, by simp, by omega, ht⟩
  · intro hne
    unfold parse_level_download_info
    cases h0 : getline buf with
    | error e => exact Or.inr ⟨e, rfl⟩
    | ok p0 =>
      obtain ⟨temp, s1⟩ := p0
      obtain ⟨_, r0, e0, _⟩ := getline_ok _ _ _ h0
      have : temp ≠ "found".toList := by
        intro hf
        apply hne
        rw [e0, hf]
        simp
      left
      simp only [this, ne_eq, not_false_eq_true, if_true]

/-- C25 at a concrete input: a response of six lines that starts with "found"
is parsed into a value, and a response "nope" gives the empty optional. -/
theorem C25_parse_level_download_info_witness :
    parse_level_download_info ⟨fun _ => .ok 1048576, fun _ => .ok 5⟩
        ("found".toList ++ [newline] ++ "n".toList ++ [newline] ++ "a".toList ++ [newline]
          ++ "d".toList ++ [newline] ++ "1".toList ++ [newline] ++ "5".toList)
      = .ok (some ⟨"n".toList, "a".toList, "d".toList, 1048576, 5⟩)
    ∧ (lines ("found".toList ++ [newline] ++ "n".toList ++ [newline] ++ "a".toList ++ [newline]
          ++ "d".toList ++ [newline] ++ "1".toList ++ [newline] ++ "5".toList))[1]?
        = some "n".toList
    ∧ parse_level_download_info ⟨fun _ => .ok 1048576, fun _ => .ok 5⟩ "nope".toList
        = .ok none := by
  have hp : parse_level_download_info ⟨fun _ => .ok 1048576, fun _ => .ok 5⟩
      ("found".toList ++ [newline] ++ "n".toList ++ [newline] ++ "a".toList ++ [newline]
        ++ "d".toList ++ [newline] ++ "1".toList ++ [newline] ++ "5".toList)
      = .ok (some ⟨"n".toList, "a".toList, "d".toList, 1048576, 5⟩) := by rfl
  exact ⟨hp, ((C25_parse_level_download_info ⟨fun _ => .ok 1048576, fun _ => .ok 5⟩ _).1 _ hp).2.1,
    by rfl⟩

end LevelDownload

namespace Network

theorem subU32_lt (a b : Nat) : subU32 a b < 4294967296 := by
  unfold subU32; omega

theorem read5_WriteMem_frame (bs : List Nat) (m : Memory) (a x : Nat)
    (h : x + 5 ≤ a ∨ a + bs.length ≤ x) (_ha : a + bs.length ≤ 4294967296)
    (hx : x + 5 ≤ 4294967296) : (WriteMem m a bs).read x 5 = m.read x 5 := by
  apply WriteMem_read_frame
  intro i j hi hj
  omega

theorem read5_WriteMemUInt8_frame (m : Memory) (a v x : Nat) (h : x + 5 ≤ a ∨ a + 1 ≤ x)
    (ha : a + 1 ≤ 4294967296) (hx : x + 5 ≤ 4294967296) :
    (WriteMemUInt8 m a v).read x 5 = m.read x 5 :=
  read5_WriteMem_frame [v % 256] m a x h ha hx

theorem read5_WriteMemUInt32_frame (m : Memory) (a v x : Nat) (h : x + 5 ≤ a ∨ a + 4 ≤ x)
    (ha : a + 4 ≤ 4294967296) (hx : x + 5 ≤ 4294967296) :
    (WriteMemUInt32 m a v).read x 5 = m.read x 5 :=
  read5_WriteMem_frame (leBytes 4 (v % 4294967296)) m a x (by simpa [AsmWritterModel.leBytes_length] using h)
    (by simpa [AsmWritterModel.leBytes_length] using ha) hx

/-- Reading back an opcode byte followed by a 32-bit operand. -/
theorem read5_opcode_operand (m : Memory) (a op v : Nat) (_ha : a + 5 ≤ 4294967296) :
    (WriteMemUInt32 (WriteMemUInt8 m a op) (a + 1) v).read a 5
      = (op % 256) :: leBytes 4 (v % 4294967296) := by
  have e : WriteMemUInt32 (WriteMemUInt8 m a op) (a + 1) v
      = WriteMem m a ((op % 256) :: leBytes 4 (v % 4294967296)) := by
    simp only [WriteMemUInt32, WriteMemUInt8, WriteMem, Nat.mod_mod]
  rw [e]
  have := WriteMem_read ((op % 256) :: leBytes 4 (v % 4294967296)) m a
    (by simp [AsmWritterModel.leBytes_length])
  simp only [List.length_cons, AsmWritterModel.leBytes_length, List.map_cons,
    AsmWritter.leBytes_map_mod, Nat.mod_mod] at this
  exact this

/-- After `NetworkInit`, each patch address of the table holds the opcode of
the long jump followed by the difference of the handler's address and the
address after the jump. -/
theorem NetworkInit_detours (L : Linkage) (m : Memory) :
    ∀ f ∈ bufferOverflowFixes L,
      (NetworkInit L m).read f.address 5
        = 0xE9 :: leBytes 4 (subU32 f.handler (f.address + 5)) := by
  intro f hf
  simp only [bufferOverflowFixes, List.mem_cons, List.mem_singleton, List.not_mem_nil,
    or_false] at hf
  rcases hf with rfl | rfl | rfl | rfl | rfl | rfl | rfl | rfl | rfl | rfl | rfl | rfl | rfl | rfl | rfl | rfl <;>
  · simp only [NetworkInit]
    try simp (disch := omega) only [read5_WriteMemUInt8_frame, read5_WriteMemUInt32_frame]
    rw [read5_opcode_operand _ _ _ _ (by omega)]
    simp [ASM_LONG_JMP_REL, Nat.mod_eq_of_lt (subU32_lt _ _)]

end Network

namespace Network

theorem fixes_address_bound (L : Linkage) :
    ∀ f ∈ bufferOverflowFixes L, f.address + 5 < 4294967296 := by
  intro f hf
  simp only [bufferOverflowFixes, List.mem_cons, List.mem_singleton, List.not_mem_nil,
    or_false] at hf
  rcases hf with rfl | rfl | rfl | rfl | rfl | rfl | rfl | rfl | rfl | rfl | rfl | rfl | rfl
    | rfl | rfl | rfl <;> simp

/-- C21: `NetworkInit` writes sixteen buffer-overflow detours. For each of them,
with `A` the patch address and the handler the one whose name carries `A`
(handler addresses being 32-bit): after `NetworkInit`, whatever the memory held
before, the byte at `A` is `E9` and the four bytes at `A + 1` are the
little-endian bytes of `(handler - (A + 5)) mod 2^32`; the five bytes decode to
a `jmp` of length 5 whose destination is the handler's address. -/
theorem C21_network_detours (L : Linkage) (m : Memory)
    (hL : ∀ f ∈ bufferOverflowFixes L, f.handler < 4294967296) :
    (bufferOverflowFixes L).length = 16
    ∧ ∀ f ∈ bufferOverflowFixes L,
        (NetworkInit L m).bytes f.address = 0xE9
        ∧ (NetworkInit L m).read (f.address + 1) 4
            = leBytes 4 ((f.handler + 4294967296 - (f.address + 5)) % 4294967296)
        ∧ (NetworkInit L m).read f.address 5
            = 0xE9 :: leBytes 4 ((f.handler + 4294967296 - (f.address + 5)) % 4294967296)
        ∧ ofLeBytes (leBytes 4 ((f.handler + 4294967296 - (f.address + 5)) % 4294967296))
            = (f.handler + 4294967296 - (f.address + 5)) % 4294967296
        ∧ decode ((NetworkInit L m).read f.address 5)
            = some (⟨.jmp, [.rel (signExtend32
                ((f.handler + 4294967296 - (f.address + 5)) % 4294967296))]⟩, 5)
        ∧ branchTarget f.address 5
            (signExtend32 ((f.handler + 4294967296 - (f.address + 5)) % 4294967296))
            = f.handler := by
  refine ⟨rfl, ?_⟩
  intro f hf
  have hr := NetworkInit_detours L m f hf
  have hh := hL f hf
  have ha := fixes_address_bound L f hf
  have hsub : subU32 f.handler (f.address + 5)
      = (f.handler + 4294967296 - (f.address + 5)) % 4294967296 := by
    unfold subU32
    rw [Nat.mod_eq_of_lt hh, Nat.mod_eq_of_lt ha]
  rw [hsub] at hr
  have hd : (f.handler + 4294967296 - (f.address + 5)) % 4294967296 < 4294967296 :=
    Nat.mod_lt _ (by decide)
  have hb : branchTarget f.address 5
      (signExtend32 ((f.handler + 4294967296 - (f.address + 5)) % 4294967296)) = f.handler := by
    unfold branchTarget signExtend32
    split_ifs <;> omega
  refine ⟨?_, ?_, ?_, ?_, ?_, hb⟩ <;> clear hb <;>
  generalize (f.handler + 4294967296 - (f.address + 5)) % 4294967296 = d at hr hd ⊢
  · have hr' := hr
    simp only [Memory.read, leBytes_four, List.cons.injEq] at hr'
    rw [← hr'.1, Nat.mod_eq_of_lt (by omega)]
  · have hr' := hr
    simp only [Memory.read, leBytes_four, List.cons.injEq] at hr'
    simp only [Memory.read, leBytes_four, List.cons.injEq]
    exact ⟨hr'.2.1, hr'.2.2.1, hr'.2.2.2.1, hr'.2.2.2.2.1, trivial⟩
  · exact hr
  · exact ofLeBytes_leBytes_four d hd
  · have hval := ofLeBytes_leBytes_four d hd
    rw [hr]
    have h4 := leBytes_four d
    simp only [h4, decode, decodeOpcode, decodeImm, decodeImm32] at hval ⊢
    simp [hval]

end Network

namespace Network

theorem run_prefix (scratch : Cpu → Nat × Nat × Nat) (xs ys : List Asm)
    (hxs : ∀ i ∈ xs, ∀ r, i ≠ .jmp r) (c : Cpu) :
    ∃ c', run scratch (xs ++ ys) c = run scratch ys c' := by
  induction xs generalizing c with
  | nil => exact ⟨c, rfl⟩
  | cons x xs ih =>
    have hx := hxs x (List.mem_cons_self _ _)
    have hrest : ∀ i ∈ xs, ∀ r, i ≠ .jmp r := fun i hi => hxs i (List.mem_cons_of_mem _ hi)
    cases x <;>
      first
      | exact absurd rfl (hx _)
      | (simp only [List.cons_append, run]; exact ih hrest _)

/-- The address read off the end of a handler's code is where running the code
leaves for, from every state and whatever the callee leaves in the scratch
registers. -/
theorem run_eip_of_resumeAddress (scratch : Cpu → Nat × Nat × Nat) (code : List Asm) (R : Nat)
    (h : resumeAddress code = some R) (c : Cpu) : (run scratch code c).eip = some R := by
  unfold resumeAddress at h
  split at h
  · rename_i r r' v pre heq
    split_ifs at h with hc
    obtain ⟨hr, hall⟩ := hc
    subst hr
    simp only [Option.some.injEq] at h
    have hcode : code = pre.reverse ++ [.mov_imm r v, .jmp r] := by
      have := congrArg List.reverse heq
      simpa using this
    have hpre : ∀ i ∈ pre.reverse, ∀ r, i ≠ .jmp r := by
      intro i hi r' hj
      rw [List.all_eq_true] at hall
      have := hall i (List.mem_reverse.mp hi)
      subst hj
      simp at this
    obtain ⟨c', hc'⟩ := run_prefix scratch pre.reverse [.mov_imm r v, .jmp r] hpre c
    rw [hcode, hc', ← h]
    simp [run, exec, Cpu.set]
  · cases h

/-- C30: for each of the sixteen buffer-overflow fixes, with `A` the patch
address at which `NetworkInit` writes the long jump to the handler (the five
bytes `A .. A + 4`): the handler's code, run from any state, leaves by a `jmp`
to one fixed address `R`, and `R ≥ A + 5`. -/
theorem C30_handlers_resume_after_detour (L : Linkage) (m : Memory) :
    (bufferOverflowFixes L).length = 16
    ∧ ∀ f ∈ bufferOverflowFixes L,
        (NetworkInit L m).read f.address 5
          = 0xE9 :: leBytes 4 (subU32 f.handler (f.address + 5))
        ∧ ∃ R, resumeAddress f.code = some R
            ∧ (∀ (scratch : Cpu → Nat × Nat × Nat) (c : Cpu), (run scratch f.code c).eip = some R)
            ∧ f.address + 5 ≤ R := by
  refine ⟨rfl, ?_⟩
  intro f hf
  refine ⟨NetworkInit_detours L m f hf, ?_⟩
  have key : ∃ R, resumeAddress f.code = some R ∧ f.address + 5 ≤ R := by
    simp only [bufferOverflowFixes, List.mem_cons, List.mem_singleton, List.not_mem_nil,
      or_false] at hf
    rcases hf with rfl | rfl | rfl | rfl | rfl | rfl | rfl | rfl | rfl | rfl | rfl | rfl | rfl
      | rfl | rfl | rfl <;> exact ⟨_, rfl, by simp⟩
  obtain ⟨R, h1, h2⟩ := key
  exact ⟨R, h1, fun scratch c => run_eip_of_resumeAddress scratch f.code R h1 c, h2⟩

end Network

namespace Network

/-- C21 at a concrete input: with the first handler at 0x10001000, the bytes at
0x0047B2D3 after `NetworkInit` are `E9 28 5D B8 0F`, a jump to 0x10001000. -/
theorem C21_network_detours_witness :
    (NetworkInit ⟨0x10000100, 0x10000200, 0x00500000, 0x10001000, 0x10001100, 0x10001200,
        0x10001300, 0x10001400, 0x10001500, 0x10001600, 0x10001700, 0x10001800, 0x10001900,
        0x10001A00, 0x10001B00, 0x10001C00, 0x10001D00, 0x10001E00, 0x10001F00⟩
        Memory.zero).read 0x0047B2D3 5 = [0xE9, 0x28, 0x5D, 0xB8, 0x0F]
    ∧ branchTarget 0x0047B2D3 5 (signExtend32 0x0FB85D28) = 0x10001000 := by
  have h := C21_network_detours ⟨0x10000100, 0x10000200, 0x00500000, 0x10001000, 0x10001100,
      0x10001200, 0x10001300, 0x10001400, 0x10001500, 0x10001600, 0x10001700, 0x10001800,
      0x10001900, 0x10001A00, 0x10001B00, 0x10001C00, 0x10001D00, 0x10001E00, 0x10001F00⟩
    Memory.zero (by
      intro f hf
      simp only [bufferOverflowFixes, List.mem_cons, List.mem_singleton, List.not_mem_nil,
        or_false] at hf
      rcases hf with rfl | rfl | rfl | rfl | rfl | rfl | rfl | rfl | rfl | rfl | rfl | rfl | rfl
        | rfl | rfl | rfl <;> simp)
  have h0 := h.2 ⟨0x0047B2D3, 0x10001000, HandleGameInfoPacket_Security_0047B2D3⟩
    (by simp [bufferOverflowFixes])
  exact ⟨h0.2.2.1, h0.2.2.2.2.2⟩

/-- C30 at a concrete input: the handler of the fix at 0x0047B2D3 leaves for
0x0047B2E3, eleven bytes after the end of the detour. -/
theorem C30_handlers_resume_after_detour_witness :
    resumeAddress HandleGameInfoPacket_Security_0047B2D3 = some 0x0047B2E3
    ∧ (run (fun _ => (0, 0, 0)) HandleGameInfoPacket_Security_0047B2D3
        ⟨fun _ => 0x1000, Memory.zero, none⟩).eip = some 0x0047B2E3
    ∧ (0x0047B2D3 : Nat) + 5 ≤ 0x0047B2E3 := by
  have h := (C30_handlers_resume_after_detour ⟨0x10000100, 0x10000200, 0x00500000, 0x10001000,
      0x10001100, 0x10001200, 0x10001300, 0x10001400, 0x10001500, 0x10001600, 0x10001700,
      0x10001800, 0x10001900, 0x10001A00, 0x10001B00, 0x10001C00, 0x10001D00, 0x10001E00,
      0x10001F00⟩ Memory.zero).2
    ⟨0x0047B2D3, 0x10001000, HandleGameInfoPacket_Security_0047B2D3⟩
    (by simp [bufferOverflowFixes])
  obtain ⟨R, h1, h2, h3⟩ := h.2
  have hR : R = 0x0047B2E3 := by
    have : resumeAddress HandleGameInfoPacket_Security_0047B2D3 = some 0x0047B2E3 := by decide
    rw [this] at h1
    exact (Option.some.inj h1).symm
  subst hR
  exact ⟨h1, h2 _ _, h3⟩

end Network

/-! ## MeshRenderCache: the index buffer and the batches -/

namespace MeshRenderCache

theorem facesDoubleSided_eq_all (mask : Nat) (fs : List VifFace) :
    facesDoubleSided mask fs = fs.all (hasFlag mask) := by
  induction fs with
  | nil => rfl
  | cons f fs ih =>
    by_cases h : f.flags &&& mask = 0
    · simp [facesDoubleSided, hasFlag, h]
    · simp [facesDoubleSided, hasFlag, h, ih]

theorem is_vif_chunk_double_sided_eq {F : Type} (mask : Nat) (chunk : VifChunk F) :
    is_vif_chunk_double_sided mask chunk = entirelyDoubleSided mask chunk :=
  facesDoubleSided_eq_all mask chunk.faces

theorem emplaceFace_eq (mask : Nat) (ds : Bool) (inds : List Nat) (f : VifFace)
    (hf : f.fits) :
    emplaceFace mask ds inds f = inds ++ faceIndices mask ds f := by
  obtain ⟨h1, h2, h3⟩ := hf
  unfold emplaceFace faceIndices hasFlag ushort
  rw [Nat.mod_eq_of_lt h1, Nat.mod_eq_of_lt h2, Nat.mod_eq_of_lt h3]
  by_cases h : f.flags &&& mask = 0 <;> cases ds <;> simp [h]

theorem foldl_emplaceFace (mask : Nat) (ds : Bool) (fs : List VifFace) :
    ∀ (inds : List Nat), (∀ f ∈ fs, f.fits) →
      fs.foldl (emplaceFace mask ds) inds = inds ++ fs.flatMap (faceIndices mask ds) := by
  induction fs with
  | nil => intro inds _; simp
  | cons f fs ih =>
    intro inds h
    rw [List.foldl_cons, ih _ (fun g hg => h g (List.mem_cons_of_mem _ hg)),
      emplaceFace_eq mask ds inds f (h f (List.mem_cons_self _ _))]
    simp [List.flatMap_cons]

theorem foldl_emplaceVertex_length {F : Type} (zero : F) (chunk : VifChunk F) (n : Nat) :
    ∀ (vs : List (GpuVertex F)),
      ((List.range n).foldl (emplaceVertex zero chunk) vs).length = vs.length + n := by
  induction n with
  | zero => intro vs; simp
  | succ n ih =>
    intro vs
    rw [List.range_succ, List.foldl_append]
    simp [emplaceVertex, ih]
    omega

theorem emplaceBatch_at (pre : List Mesh) (bs : List Batch) (post : List Mesh) (b : Batch) :
    emplaceBatch (pre ++ ⟨bs⟩ :: post) pre.length b = pre ++ ⟨bs ++ [b]⟩ :: post := by
  unfold emplaceBatch
  induction pre with
  | nil => simp
  | cons a pre ih => simpa using ih

theorem num_indices_eq (inds xs : List Nat) (h : inds.length + xs.length < 2147483648) :
    signExtend32 (((inds ++ xs).length - inds.length) % 4294967296) = (xs.length : Int) := by
  have e : (inds ++ xs).length - inds.length = xs.length := by simp
  rw [e]
  unfold signExtend32
  have h1 : xs.length % 4294967296 = xs.length := Nat.mod_eq_of_lt (by omega)
  rw [Nat.mod_mod, h1, if_pos (by omega)]

theorem addChunk_spec {F : Type} (mask : Nat) (zero : F) (chunk : VifChunk F)
    (st : Buffers F) (pre : List Mesh) (bs : List Batch) (post : List Mesh)
    (hm : st.meshes_ = pre ++ ⟨bs⟩ :: post)
    (hfit : ∀ f ∈ chunk.faces, f.fits)
    (hsize : st.gpu_inds.length + (chunkIndices mask chunk).length < 2147483648) :
    (addChunk mask zero pre.length chunk st).gpu_inds
        = st.gpu_inds ++ chunkIndices mask chunk ∧
      (addChunk mask zero pre.length chunk st).gpu_verts.length
        = st.gpu_verts.length + chunk.num_vecs ∧
      (addChunk mask zero pre.length chunk st).meshes_
        = pre ++ ⟨bs ++ [⟨st.gpu_inds.length, ((chunkIndices mask chunk).length : Nat),
            st.gpu_verts.length, chunk.texture_idx, chunk.mode,
            entirelyDoubleSided mask chunk⟩]⟩ :: post := by
  have hi : chunk.faces.foldl
      (emplaceFace mask (is_vif_chunk_double_sided mask chunk)) st.gpu_inds
      = st.gpu_inds ++ chunkIndices mask chunk := by
    rw [foldl_emplaceFace mask _ chunk.faces st.gpu_inds hfit,
      is_vif_chunk_double_sided_eq]
    rfl
  refine ⟨?_, ?_, ?_⟩
  · simp only [addChunk]; exact hi
  · simp only [addChunk]; exact foldl_emplaceVertex_length zero chunk chunk.num_vecs _
  · simp only [addChunk]
    rw [hi, num_indices_eq _ _ hsize, hm, emplaceBatch_at, is_vif_chunk_double_sided_eq]

theorem chunkLoop_spec {F : Type} (mask : Nat) (zero : F) (cs : List (VifChunk F)) :
    ∀ (st : Buffers F) (pre : List Mesh) (bs : List Batch) (post : List Mesh),
      st.meshes_ = pre ++ ⟨bs⟩ :: post →
      (∀ c ∈ cs, ∀ f ∈ c.faces, f.fits) →
      st.gpu_inds.length + indexCount mask cs < 2147483648 →
      (chunkLoop mask zero pre.length cs st).gpu_inds
          = st.gpu_inds ++ cs.flatMap (chunkIndices mask) ∧
        (chunkLoop mask zero pre.length cs st).gpu_verts.length
          = st.gpu_verts.length + vertexCount cs ∧
        (chunkLoop mask zero pre.length cs st).meshes_
          = pre ++ ⟨bs ++ batchesFrom mask st.gpu_inds.length st.gpu_verts.length cs⟩
              :: post := by
  induction cs with
  | nil =>
    intro st pre bs post hm _ _
    simp [chunkLoop, batchesFrom, vertexCount, hm]
  | cons c cs ih =>
    intro st pre bs post hm hfit hsize
    have hsz : indexCount mask (c :: cs)
        = (chunkIndices mask c).length + indexCount mask cs := by
      simp [indexCount, List.flatMap_cons]
    obtain ⟨h1, h2, h3⟩ := addChunk_spec mask zero c st pre bs post hm
      (hfit c (List.mem_cons_self _ _)) (by omega)
    have hrec := ih (addChunk mask zero pre.length c st) pre _ post h3
      (fun d hd => hfit d (List.mem_cons_of_mem _ hd))
      (by rw [h1, List.length_append]; omega)
    obtain ⟨r1, r2, r3⟩ := hrec
    refine ⟨?_, ?_, ?_⟩
    · simp only [chunkLoop]; rw [r1, h1]; simp [List.flatMap_cons]
    · simp only [chunkLoop]; rw [r2, h2]; simp [vertexCount]; omega
    · simp only [chunkLoop]; rw [r3, h1, h2]
      simp [batchesFrom, List.length_append]

theorem lodLoop_spec {F : Type} (mask : Nat) (zero : F) (ms : List (VifMesh F)) :
    ∀ (st : Buffers F) (pre : List Mesh),
      st.meshes_ = pre ++ List.replicate ms.length ⟨[]⟩ →
      (∀ m ∈ ms, ∀ c ∈ m.chunks, ∀ f ∈ c.faces, f.fits) →
      st.gpu_inds.length + indexCount mask (ms.flatMap (fun m => m.chunks)) < 2147483648 →
      (lodLoop mask zero pre.length ms st).gpu_inds
          = st.gpu_inds ++ (ms.flatMap (fun m => m.chunks)).flatMap (chunkIndices mask) ∧
        (lodLoop mask zero pre.length ms st).gpu_verts.length
          = st.gpu_verts.length + vertexCount (ms.flatMap (fun m => m.chunks)) ∧
        (lodLoop mask zero pre.length ms st).meshes_
          = pre ++ meshesFrom mask st.gpu_inds.length st.gpu_verts.length ms := by
  induction ms with
  | nil =>
    intro st pre hm _ _
    simp [lodLoop, meshesFrom, vertexCount, hm]
  | cons m ms ih =>
    intro st pre hm hfit hsize
    have hsz : indexCount mask ((m :: ms).flatMap (fun m => m.chunks))
        = indexCount mask m.chunks + indexCount mask (ms.flatMap (fun m => m.chunks)) := by
      simp [indexCount, List.flatMap_cons, List.flatMap_append]
    have hm2 : st.meshes_ = pre ++ ⟨[]⟩ :: List.replicate ms.length ⟨[]⟩ := by
      rw [hm]; simp [List.replicate_succ]
    obtain ⟨h1, h2, h3⟩ := chunkLoop_spec mask zero m.chunks st pre [] _ hm2
      (hfit m (List.mem_cons_self _ _)) (by omega)
    have h3b : (chunkLoop mask zero pre.length m.chunks st).meshes_
        = (pre ++ [⟨batchesFrom mask st.gpu_inds.length st.gpu_verts.length m.chunks⟩])
            ++ List.replicate ms.length ⟨[]⟩ := by
      rw [h3]; simp
    have hlen : (pre ++ [(⟨batchesFrom mask st.gpu_inds.length st.gpu_verts.length
        m.chunks⟩ : Mesh)]).length = pre.length + 1 := by simp
    have hrec := ih (chunkLoop mask zero pre.length m.chunks st) _ h3b
      (fun d hd => hfit d (List.mem_cons_of_mem _ hd))
      (by rw [h1, List.length_append]; unfold indexCount at hsz hsize ⊢; omega)
    rw [hlen] at hrec
    obtain ⟨r1, r2, r3⟩ := hrec
    refine ⟨?_, ?_, ?_⟩
    · simp only [lodLoop]; rw [r1, h1]; simp [List.flatMap_cons, List.flatMap_append]
    · simp only [lodLoop]; rw [r2, h2]
      simp [vertexCount, List.flatMap_cons]; omega
    · simp only [lodLoop]; rw [r3, h1, h2]
      simp [meshesFrom, List.length_append, indexCount]

theorem indexCount_append {F : Type} (mask : Nat) (xs ys : List (VifChunk F)) :
    indexCount mask (xs ++ ys) = indexCount mask xs + indexCount mask ys := by
  simp [indexCount, List.flatMap_append]

theorem vertexCount_append {F : Type} (xs ys : List (VifChunk F)) :
    vertexCount (xs ++ ys) = vertexCount xs + vertexCount ys := by
  simp [vertexCount]

theorem batchesFrom_append {F : Type} (mask : Nat) (xs ys : List (VifChunk F)) :
    ∀ (s bv : Nat), batchesFrom mask s bv (xs ++ ys)
      = batchesFrom mask s bv xs
        ++ batchesFrom mask (s + indexCount mask xs) (bv + vertexCount xs) ys := by
  induction xs with
  | nil => intro s bv; simp [batchesFrom, indexCount, vertexCount]
  | cons c xs ih =>
    intro s bv
    have e1 : indexCount mask (c :: xs)
        = (chunkIndices mask c).length + indexCount mask xs := by
      simp [indexCount, List.flatMap_cons]
    have e2 : vertexCount (c :: xs) = c.num_vecs + vertexCount xs := by
      simp [vertexCount]
    rw [List.cons_append]
    simp only [batchesFrom]
    rw [ih, e1, e2]
    simp [Nat.add_assoc]

theorem batchesFrom_length {F : Type} (mask : Nat) (cs : List (VifChunk F)) :
    ∀ (s bv : Nat), (batchesFrom mask s bv cs).length = cs.length := by
  induction cs with
  | nil => intro s bv; rfl
  | cons c cs ih => intro s bv; simp [batchesFrom, ih]

theorem meshesFrom_flatMap {F : Type} (mask : Nat) (ms : List (VifMesh F)) :
    ∀ (s bv : Nat), (meshesFrom mask s bv ms).flatMap (fun m => m.batches)
      = batchesFrom mask s bv (ms.flatMap (fun m => m.chunks)) := by
  induction ms with
  | nil => intro s bv; simp [meshesFrom, batchesFrom]
  | cons m ms ih =>
    intro s bv
    simp only [meshesFrom, List.flatMap_cons, ih, batchesFrom_append]

theorem meshesFrom_lengths {F : Type} (mask : Nat) (ms : List (VifMesh F)) :
    ∀ (s bv : Nat), (meshesFrom mask s bv ms).map (fun m => m.batches.length)
      = ms.map (fun m => m.chunks.length) := by
  induction ms with
  | nil => intro s bv; simp [meshesFrom]
  | cons m ms ih =>
    intro s bv
    simp [meshesFrom, ih, batchesFrom_length]

theorem batchesFrom_get {F : Type} (mask : Nat) (cs : List (VifChunk F)) :
    ∀ (s bv k : Nat) (hk : k < cs.length),
      (batchesFrom mask s bv cs)[k]?
        = some ⟨s + indexCount mask (cs.take k),
            ((chunkIndices mask cs[k]).length : Nat),
            bv + vertexCount (cs.take k), cs[k].texture_idx, cs[k].mode,
            entirelyDoubleSided mask cs[k]⟩ := by
  induction cs with
  | nil => intro s bv k hk; simp at hk
  | cons c cs ih =>
    intro s bv k hk
    cases k with
    | zero => simp [batchesFrom, indexCount, vertexCount]
    | succ k =>
      have hk2 : k < cs.length := by simpa using hk
      have e1 : indexCount mask (c :: cs.take k)
          = (chunkIndices mask c).length + indexCount mask (cs.take k) := by
        simp [indexCount, List.flatMap_cons]
      have e2 : vertexCount (c :: cs.take k) = c.num_vecs + vertexCount (cs.take k) := by
        simp [vertexCount]
      simp only [batchesFrom, List.getElem?_cons_succ, ih _ _ k hk2, List.take_succ_cons,
        List.getElem_cons_succ, e1, e2, Nat.add_assoc]

theorem indexCount_take_succ {F : Type} (mask : Nat) (cs : List (VifChunk F)) (k : Nat)
    (hk : k < cs.length) :
    indexCount mask (cs.take (k + 1))
      = indexCount mask (cs.take k) + (chunkIndices mask cs[k]).length := by
  rw [List.take_succ, indexCount_append]
  simp [List.getElem?_eq_getElem hk, indexCount]

theorem slice_chunk {F : Type} (mask : Nat) (cs : List (VifChunk F)) (k : Nat)
    (hk : k < cs.length) :
    ((cs.flatMap (chunkIndices mask)).drop (indexCount mask (cs.take k))).take
        (chunkIndices mask cs[k]).length
      = chunkIndices mask cs[k] := by
  have hsplit : cs = cs.take k ++ cs[k] :: cs.drop (k + 1) := by
    rw [← List.drop_eq_getElem_cons hk, List.take_append_drop]
  have e : cs.flatMap (chunkIndices mask)
      = (cs.take k).flatMap (chunkIndices mask)
        ++ (chunkIndices mask cs[k] ++ (cs.drop (k + 1)).flatMap (chunkIndices mask)) := by
    conv_lhs => rw [hsplit]
    rw [List.flatMap_append, List.flatMap_cons]
  rw [e]
  unfold indexCount
  rw [List.drop_left, List.take_left]

theorem create_spec {F : Type} (mask : Nat) (zero : F) (lod_mesh : VifLodMesh F)
    (hfit : ∀ c ∈ allChunks lod_mesh, ∀ f ∈ c.faces, f.fits)
    (hsize : indexCount mask (allChunks lod_mesh) < 2147483648) :
    (create mask zero lod_mesh).gpu_inds
        = (allChunks lod_mesh).flatMap (chunkIndices mask) ∧
      (create mask zero lod_mesh).gpu_verts.length = vertexCount (allChunks lod_mesh) ∧
      (create mask zero lod_mesh).meshes_ = meshesFrom mask 0 0 lod_mesh.meshes := by
  have h := lodLoop_spec mask zero lod_mesh.meshes
    { gpu_verts := [], gpu_inds := [],
      meshes_ := List.replicate lod_mesh.meshes.length ⟨[]⟩ } [] (by simp)
    (fun m hm c hc f hf => hfit c (List.mem_flatMap.mpr ⟨m, hm, hc⟩) f hf)
    (by simpa [allChunks] using hsize)
  simpa [create, allChunks] using h

/-- C28: for a mesh whose face indices fit `rf::ushort` and whose index count
fits `int`, the index vector built by the constructor of `MeshRenderCache` is
the concatenation, over the chunks in level-of-detail and chunk order, of the
contributions of each chunk's faces in order, a face giving `(v1, v2, v3)`
followed by `(v1, v3, v2)` exactly when it has the double-sided flag and the
chunk is not entirely double sided; `is_vif_chunk_double_sided` is true iff
every face of the chunk has the flag; every level has one batch per chunk; the
`k`-th batch starts at the number of indices of the chunks before it, counts
the indices of its chunk, delimits exactly those in the index vector, and has
as `base_vertex` the number of vertices of the chunks before it; a batch
starts where its predecessor ends, the first at 0, and the last ends at the
end of the index vector. -/
theorem C28_mesh_index_buffer_batches {F : Type} (VIF_FACE_DOUBLE_SIDED : Nat) (zero : F)
    (lod_mesh : VifLodMesh F)
    (hfit : ∀ c ∈ allChunks lod_mesh, ∀ f ∈ c.faces, f.fits)
    (hsize : indexCount VIF_FACE_DOUBLE_SIDED (allChunks lod_mesh) < 2147483648) :
    (create VIF_FACE_DOUBLE_SIDED zero lod_mesh).gpu_inds
        = (allChunks lod_mesh).flatMap (chunkIndices VIF_FACE_DOUBLE_SIDED)
    ∧ (∀ chunk : VifChunk F, is_vif_chunk_double_sided VIF_FACE_DOUBLE_SIDED chunk = true
        ↔ ∀ f ∈ chunk.faces, f.flags &&& VIF_FACE_DOUBLE_SIDED ≠ 0)
    ∧ (∀ (entirely : Bool) (f : VifFace),
        faceIndices VIF_FACE_DOUBLE_SIDED entirely f
          = if f.flags &&& VIF_FACE_DOUBLE_SIDED ≠ 0 ∧ entirely = false
            then [f.vindex1, f.vindex2, f.vindex3, f.vindex1, f.vindex3, f.vindex2]
            else [f.vindex1, f.vindex2, f.vindex3])
    ∧ (create VIF_FACE_DOUBLE_SIDED zero lod_mesh).meshes_.map (fun m => m.batches.length)
        = lod_mesh.meshes.map (fun m => m.chunks.length)
    ∧ (allBatches (create VIF_FACE_DOUBLE_SIDED zero lod_mesh)).length
        = (allChunks lod_mesh).length
    ∧ (∀ (k : Nat) (hk : k < (allChunks lod_mesh).length),
        ∃ b : Batch,
          (allBatches (create VIF_FACE_DOUBLE_SIDED zero lod_mesh))[k]? = some b
          ∧ b.start_index
              = indexCount VIF_FACE_DOUBLE_SIDED ((allChunks lod_mesh).take k)
          ∧ b.num_indices
              = ((chunkIndices VIF_FACE_DOUBLE_SIDED (allChunks lod_mesh)[k]).length : Nat)
          ∧ (((create VIF_FACE_DOUBLE_SIDED zero lod_mesh).gpu_inds.drop b.start_index).take
                b.num_indices.toNat)
              = chunkIndices VIF_FACE_DOUBLE_SIDED (allChunks lod_mesh)[k]
          ∧ b.base_vertex = vertexCount ((allChunks lod_mesh).take k)
          ∧ b.texture_idx = (allChunks lod_mesh)[k].texture_idx
          ∧ b.mode = (allChunks lod_mesh)[k].mode
          ∧ b.double_sided
              = is_vif_chunk_double_sided VIF_FACE_DOUBLE_SIDED (allChunks lod_mesh)[k])
    ∧ (∀ b : Batch, (allBatches (create VIF_FACE_DOUBLE_SIDED zero lod_mesh))[0]? = some b →
        b.start_index = 0)
    ∧ (∀ (k : Nat) (b b' : Batch),
        (allBatches (create VIF_FACE_DOUBLE_SIDED zero lod_mesh))[k]? = some b →
        (allBatches (create VIF_FACE_DOUBLE_SIDED zero lod_mesh))[k + 1]? = some b' →
        (b'.start_index : Int) = b.start_index + b.num_indices)
    ∧ (∀ b : Batch,
        (allBatches (create VIF_FACE_DOUBLE_SIDED zero lod_mesh)).getLast? = some b →
        (b.start_index : Int) + b.num_indices
          = (create VIF_FACE_DOUBLE_SIDED zero lod_mesh).gpu_inds.length)
    ∧ (create VIF_FACE_DOUBLE_SIDED zero lod_mesh).gpu_verts.length
        = vertexCount (allChunks lod_mesh) := by
  obtain ⟨hi, hv, hm⟩ := create_spec VIF_FACE_DOUBLE_SIDED zero lod_mesh hfit hsize
  have hb : allBatches (create VIF_FACE_DOUBLE_SIDED zero lod_mesh)
      = batchesFrom VIF_FACE_DOUBLE_SIDED 0 0 (allChunks lod_mesh) := by
    unfold allBatches allChunks
    rw [hm, meshesFrom_flatMap]
  have hlen : (allBatches (create VIF_FACE_DOUBLE_SIDED zero lod_mesh)).length
      = (allChunks lod_mesh).length := by
    rw [hb, batchesFrom_length]
  have hget : ∀ (k : Nat) (hk : k < (allChunks lod_mesh).length),
      (allBatches (create VIF_FACE_DOUBLE_SIDED zero lod_mesh))[k]?
        = some ⟨indexCount VIF_FACE_DOUBLE_SIDED ((allChunks lod_mesh).take k),
            ((chunkIndices VIF_FACE_DOUBLE_SIDED (allChunks lod_mesh)[k]).length : Nat),
            vertexCount ((allChunks lod_mesh).take k),
            (allChunks lod_mesh)[k].texture_idx, (allChunks lod_mesh)[k].mode,
            entirelyDoubleSided VIF_FACE_DOUBLE_SIDED (allChunks lod_mesh)[k]⟩ := by
    intro k hk
    rw [hb, batchesFrom_get VIF_FACE_DOUBLE_SIDED _ 0 0 k hk]
    simp
  refine ⟨hi, ?_, ?_, ?_, hlen, ?_, ?_, ?_, ?_, hv⟩
  · intro chunk
    rw [is_vif_chunk_double_sided_eq]
    simp [entirelyDoubleSided, hasFlag]
  · intro entirely f
    unfold faceIndices hasFlag
    by_cases h : f.flags &&& VIF_FACE_DOUBLE_SIDED = 0 <;> cases entirely <;> simp [h]
  · rw [hm, meshesFrom_lengths]
  · intro k hk
    refine ⟨_, hget k hk, rfl, rfl, ?_, rfl, rfl, rfl, ?_⟩
    · rw [hi]
      simpa using slice_chunk VIF_FACE_DOUBLE_SIDED (allChunks lod_mesh) k hk
    · exact (is_vif_chunk_double_sided_eq VIF_FACE_DOUBLE_SIDED _).symm
  · intro b h0
    by_cases hk : 0 < (allChunks lod_mesh).length
    · rw [hget 0 hk] at h0
      simp only [Option.some.injEq] at h0
      rw [← h0]
      simp [indexCount]
    · have : (allBatches (create VIF_FACE_DOUBLE_SIDED zero lod_mesh)).length = 0 := by
        omega
      rw [List.length_eq_zero] at this
      rw [this] at h0
      simp at h0
  · intro k b b' h1 h2
    have hk1 : k + 1 < (allChunks lod_mesh).length := by
      by_contra hcon
      rw [List.getElem?_eq_none (by omega)] at h2
      exact Option.noConfusion h2
    have hk : k < (allChunks lod_mesh).length := by omega
    rw [hget k hk] at h1
    rw [hget (k + 1) hk1] at h2
    simp only [Option.some.injEq] at h1 h2
    rw [← h1, ← h2]
    simp only [indexCount_take_succ VIF_FACE_DOUBLE_SIDED _ k hk]
    push_cast
    rfl
  · intro b hlast
    rw [List.getLast?_eq_getElem?] at hlast
    have hpos : 0 < (allChunks lod_mesh).length := by
      by_contra hcon
      rw [List.getElem?_eq_none (by omega)] at hlast
      exact Option.noConfusion hlast
    rw [hlen] at hlast
    have hk : (allChunks lod_mesh).length - 1 < (allChunks lod_mesh).length := by omega
    rw [hget _ hk] at hlast
    simp only [Option.some.injEq] at hlast
    rw [← hlast, hi]
    have e := indexCount_take_succ VIF_FACE_DOUBLE_SIDED (allChunks lod_mesh) _ hk
    have e2 : (allChunks lod_mesh).length - 1 + 1 = (allChunks lod_mesh).length := by omega
    rw [e2, List.take_length] at e
    have e3 : ((allChunks lod_mesh).flatMap (chunkIndices VIF_FACE_DOUBLE_SIDED)).length
        = indexCount VIF_FACE_DOUBLE_SIDED (allChunks lod_mesh) := rfl
    rw [e3, e]
    push_cast
    rfl

/-- C28 at a concrete input: for the sample mesh with mask `0x20` the first
face of the first chunk is followed by its reversed triangle, the face of the
entirely double-sided second chunk is not, and the three batches start at 0,
9 and 12 with 9, 3 and 3 indices and base vertices 0, 4 and 7. -/
theorem C28_mesh_index_buffer_batches_witness :
    (∀ c ∈ allChunks sampleLodMesh, ∀ f ∈ c.faces, f.fits)
    ∧ indexCount 0x20 (allChunks sampleLodMesh) < 2147483648
    ∧ (create 0x20 0 sampleLodMesh).gpu_inds
        = [0, 1, 2, 0, 2, 1, 0, 2, 3, 0, 1, 2, 2, 1, 0]
    ∧ (create 0x20 0 sampleLodMesh).meshes_
        = [⟨[⟨0, 9, 0, 5, 1, false⟩, ⟨9, 3, 4, 6, 1, true⟩]⟩, ⟨[⟨12, 3, 7, 5, 1, false⟩]⟩]
    ∧ (create 0x20 0 sampleLodMesh).gpu_verts.length = 10 := by
  have hfit : ∀ c ∈ allChunks sampleLodMesh, ∀ f ∈ c.faces, f.fits := by
    simp [allChunks, sampleLodMesh, VifFace.fits]
  have hsize : indexCount 0x20 (allChunks sampleLodMesh) < 2147483648 := by decide
  have h := C28_mesh_index_buffer_batches 0x20 (0 : Int) sampleLodMesh hfit hsize
  refine ⟨hfit, hsize, ?_, by decide, ?_⟩
  · rw [h.1]; decide
  · rw [h.2.2.2.2.2.2.2.2.2]; decide

end MeshRenderCache

end AsmWritterModel
